import Mathlib

/-!
# ASCII canvas engine (`app.js`): grid, trail, box borders, drag, render

A shallow embedding of the interactive engine of `app.js`.

Modelling conventions.

* JavaScript numbers that carry pixel quantities (`charWidth`, `mouseX`, box
  rectangles, viewport sizes) are the rationals that are their exact values.
  Every `+`, `-`, `*`, `/` of the source is `jsAdd`, `jsSub`, `jsMul`, `jsDiv`:
  the exact result rounded to the nearest double by `fl64` (binary64, ties to
  even, subnormals included).  `Math.floor`, `Math.ceil`, `Math.round`,
  `Math.min`, `Math.max` and the comparisons are exact on doubles: `Int.floor`,
  `Int.ceil`, `mathRound` (ties go up), `min`, `max`.  Not modelled: overflow
  to `Infinity` and `NaN`.  The theorems about the grid assume a positive
  cell size, and the drag handler, whose result would be `NaN` with a cell
  size of zero, returns `none` there.
* `Date.now()` is an integer number of milliseconds, passed in as `now`.
* `grid` and `gridTimestamps` are lists of rows.  An array access
  `grid[r][c]` outside the stored shape is a fault (`none`): in JavaScript an
  out-of-range row raises a `TypeError` and an out-of-range column write
  would grow the row or hang a stray property on it.  Every function that
  touches the grid therefore lives in `Option`, and the theorems prove that
  the result is `some`.
* Glyphs are the two-character strings of the source.
* The DOM is a record of the values the handlers read from it (`Dom`).
-/

namespace AsciiCanvas

/-! ## Numbers -/

/-- The function `Math.round`: the nearest integer, a tie going to the larger one. -/
def mathRound (x : ℚ) : ℤ := ⌊x + 1 / 2⌋

/-- The JavaScript expression `a || b` on numbers (`0` is falsy). -/
def jsOr (a b : ℚ) : ℚ := if a ≠ 0 then a else b

/-- Rounding to the nearest integer, a tie going to the even one. -/
def roundHalfEven (x : ℚ) : ℤ :=
  if x - ⌊x⌋ < 1 / 2 then ⌊x⌋
  else if 1 / 2 < x - ⌊x⌋ then ⌊x⌋ + 1
  else if ⌊x⌋ % 2 = 0 then ⌊x⌋ else ⌊x⌋ + 1

/-- The binary exponent of the binade of a double: at least that of the subnormals. -/
def binade (q : ℚ) : ℤ := max (Int.log 2 |q|) (-1022)

/-- The double nearest to a rational, ties to even (IEEE 754 binary64, 53 significant
bits, subnormals below `2 ^ (-1022)`); magnitudes that would overflow are not modelled. -/
def fl64 (q : ℚ) : ℚ :=
  (roundHalfEven (q / 2 ^ (binade q - 52)) : ℚ) * 2 ^ (binade q - 52)

/-- The JavaScript `a + b` on numbers. -/
def jsAdd (a b : ℚ) : ℚ := fl64 (a + b)

/-- The JavaScript `a - b` on numbers. -/
def jsSub (a b : ℚ) : ℚ := fl64 (a - b)

/-- The JavaScript `a * b` on numbers. -/
def jsMul (a b : ℚ) : ℚ := fl64 (a * b)

/-- The JavaScript `a / b` on numbers, for a divisor other than zero. -/
def jsDiv (a b : ℚ) : ℚ := fl64 (a / b)

/-! ## Data model -/

/-- The part of a `DOMRect` that the program reads. -/
structure Rect where
  left : ℚ
  top : ℚ
  width : ℚ
  height : ℚ
  deriving DecidableEq, Repr

/-- The `bottom` of a `DOMRect`. -/
def Rect.bottom (r : Rect) : ℚ := jsAdd r.top r.height

/-- One entry of `boxesList`; `element` is the handle of the DOM element. -/
structure Box where
  element : Nat
  x : ℚ
  y : ℚ
  width : ℚ
  height : ℚ
  movable : Bool
  deriving DecidableEq, Repr

/-- What the program reads from the document. -/
structure Dom where
  /-- Elements matched by `.box-dynamic, .box-static`, in document order. -/
  boxElements : List Nat
  /-- Result of `element.getBoundingClientRect()`. -/
  rectOf : Nat → Rect
  /-- Result of `element.classList.contains('box-dynamic')`. -/
  isDynamic : Nat → Bool
  /-- Bounding rectangle of `element.offsetParent || document.documentElement`. -/
  parentRect : Nat → Rect
  /-- Bounding rectangle of the `nav` element, when there is one. -/
  nav : Option Rect
  /-- Result of `element.offsetWidth`. -/
  offsetWidth : Nat → ℚ
  /-- Result of `element.offsetHeight`. -/
  offsetHeight : Nat → ℚ
  /-- Result of `window.innerWidth`. -/
  innerWidth : ℚ
  /-- Result of `window.innerHeight`. -/
  innerHeight : ℚ

/-- The module-level variables of `app.js` that the engine uses. -/
structure State where
  charWidth : ℚ
  charHeight : ℚ
  cols : Nat
  rows : Nat
  grid : List (List String)
  gridTimestamps : List (List Int)
  mouseX : ℚ
  mouseY : ℚ
  boxesList : List Box

/-- The constant `trailDuration`. -/
def trailDuration : Int := 100

/-! ## Array access -/

/-- The read `g[r][c]`; `none` outside the stored shape. -/
def readCell {α : Type} (g : List (List α)) (r c : Int) : Option α :=
  if 0 ≤ r ∧ 0 ≤ c then
    match g[r.toNat]? with
    | none => none
    | some row => row[c.toNat]?
  else none

/-- The write `g[r][c] = v`; `none` outside the stored shape. -/
def writeCell {α : Type} (g : List (List α)) (r c : Int) (v : α) : Option (List (List α)) :=
  if 0 ≤ r ∧ 0 ≤ c then
    match g[r.toNat]? with
    | none => none
    | some row =>
      if c.toNat < row.length then some (g.set r.toNat (row.set c.toNat v)) else none
  else none

/-- The integers `a, a+1, ..., b` visited by `for (i = a; i <= b; i++)`. -/
def intRange (a b : Int) : List Int :=
  (List.range (b + 1 - a).toNat).map (fun (k : Nat) => a + (k : Int))

/-! ## Grid store -/

/-- The module variables as `app.js` declares them, before the first `initGrid`; `cols`
and `rows`, declared without a value, are `0` here (no loop over them runs either way). -/
def initialState : State :=
  { charWidth := 6
    charHeight := 12
    cols := 0
    rows := 0
    grid := []
    gridTimestamps := []
    mouseX := -1
    mouseY := -1
    boxesList := [] }

/-- The arithmetic of `measureCharSize` on the bounding rectangle of its one-character
span: a cell is two characters wide and one character high. -/
def measureCharSize (rect : Rect) : ℚ × ℚ := (jsMul rect.width 2, rect.height)

/-- The function `initGrid`, `charWidth` and `charHeight` being the cell size that its
call of `measureCharSize` stores: fresh `cols`, `rows`, grid of `'. '` and timestamps of
`0`; the pointer and the boxes are left as they are. -/
def initGrid (s : State) (innerWidth innerHeight charWidth charHeight : ℚ) : State :=
  let cols := ⌈jsDiv innerWidth charWidth⌉.toNat
  let rows := ⌈jsDiv innerHeight charHeight⌉.toNat
  { s with
    charWidth := charWidth
    charHeight := charHeight
    cols := cols
    rows := rows
    grid := (List.range rows).map (fun _ => (List.range cols).map (fun _ => ". "))
    gridTimestamps := (List.range rows).map (fun _ => (List.range cols).map (fun _ => 0)) }

/-! ## Box registry -/

/-- The record pushed by `initBoxes` for one element. -/
def initBox (dom : Dom) (e : Nat) : Box :=
  let rect := dom.rectOf e
  { element := e, x := rect.left, y := rect.top, width := rect.width, height := rect.height,
    movable := dom.isDynamic e }

/-- The registry built by `initBoxes`. -/
def initBoxes (dom : Dom) : List Box := dom.boxElements.map (initBox dom)

/-- The body of the `forEach` of `updateBoxPositions`. -/
def refreshBox (dom : Dom) (boxData : Box) : Box :=
  let rect := dom.rectOf boxData.element
  { boxData with x := rect.left, y := rect.top, width := rect.width, height := rect.height }

/-- The function `updateBoxPositions`. -/
def updateBoxPositions (dom : Dom) (boxesList : List Box) : List Box :=
  boxesList.map (refreshBox dom)

/-! ## Occlusion and trail engine -/

/-- The test made by `isInsideBox` for one box. -/
def Box.contains (box : Box) (x y : ℚ) : Bool :=
  decide (x ≥ box.x) && decide (x ≤ jsAdd box.x box.width) &&
    decide (y ≥ box.y) && decide (y ≤ jsAdd box.y box.height)

/-- The function `isInsideBox`. -/
def isInsideBox (boxesList : List Box) (x y : ℚ) : Bool :=
  boxesList.any (fun box => box.contains x y)

/-- The horizontal pixel centre of column `x`. -/
def pixelX (charWidth : ℚ) (x : Int) : ℚ := jsAdd (jsMul x charWidth) (jsDiv charWidth 2)

/-- The vertical pixel centre of row `y`. -/
def pixelY (charHeight : ℚ) (y : Int) : ℚ := jsAdd (jsMul y charHeight) (jsDiv charHeight 2)

/-- The body of the first loop of `drawBoxBorder`, at column `col`. -/
def horizontalStep (cols rows : Nat) (startRow endRow : Int) (g : List (List String))
    (col : Int) : Option (List (List String)) :=
  if col ≥ 0 ∧ col < (cols : Int) then
    (if startRow ≥ 0 ∧ startRow < (rows : Int) then writeCell g startRow col "- "
      else some g).bind fun g1 =>
    if endRow ≥ 0 ∧ endRow < (rows : Int) then writeCell g1 endRow col "- " else some g1
  else some g

/-- The first loop of `drawBoxBorder`: top and bottom rows. -/
def drawHorizontal (cols rows : Nat) (startCol endCol startRow endRow : Int)
    (grid : List (List String)) : Option (List (List String)) :=
  (intRange startCol endCol).foldlM (horizontalStep cols rows startRow endRow) grid

/-- The body of the second loop of `drawBoxBorder`, at row `row`. -/
def verticalStep (cols rows : Nat) (startCol endCol : Int) (g : List (List String))
    (row : Int) : Option (List (List String)) :=
  if row ≥ 0 ∧ row < (rows : Int) then
    (if startCol ≥ 0 ∧ startCol < (cols : Int) then writeCell g row startCol "| "
      else some g).bind fun g1 =>
    if endCol ≥ 0 ∧ endCol < (cols : Int) then writeCell g1 row endCol "| " else some g1
  else some g

/-- The second loop of `drawBoxBorder`: left and right columns. -/
def drawVertical (cols rows : Nat) (startCol endCol startRow endRow : Int)
    (grid : List (List String)) : Option (List (List String)) :=
  (intRange startRow endRow).foldlM (verticalStep cols rows startCol endCol) grid

/-- One of the four closing statements of `drawBoxBorder`. -/
def drawCorner (cols rows : Nat) (row col : Int) (grid : List (List String)) :
    Option (List (List String)) :=
  if row ≥ 0 ∧ row < (rows : Int) ∧ col ≥ 0 ∧ col < (cols : Int) then writeCell grid row col "+ "
  else some grid

/-- The function `drawBoxBorder`. -/
def drawBoxBorder (charWidth charHeight : ℚ) (cols rows : Nat) (grid : List (List String))
    (x y width height : ℚ) : Option (List (List String)) :=
  let padding : ℚ := 0
  let startCol := ⌊jsDiv (jsSub x padding) charWidth⌋
  let startRow := ⌊jsDiv (jsSub y padding) charHeight⌋
  let endCol := ⌊jsDiv (jsAdd (jsAdd x width) padding) charWidth⌋
  let endRow := ⌊jsDiv (jsAdd (jsAdd y height) padding) charHeight⌋
  (drawHorizontal cols rows startCol endCol startRow endRow grid).bind fun g1 =>
  (drawVertical cols rows startCol endCol startRow endRow g1).bind fun g2 =>
  (drawCorner cols rows startRow startCol g2).bind fun g3 =>
  (drawCorner cols rows startRow endCol g3).bind fun g4 =>
  (drawCorner cols rows endRow startCol g4).bind fun g5 =>
  drawCorner cols rows endRow endCol g5

/-- The nested loops `for (y = 0; y < rows; y++) for (x = 0; x < cols; x++)`. -/
def forCells {σ : Type} (rows cols : Nat) (body : Nat → Nat → σ → Option σ) (init : σ) :
    Option σ :=
  (List.range rows).foldlM (fun st (y : Nat) =>
    (List.range cols).foldlM (fun st (x : Nat) => body y x st) st) init

/-- The body of the first pass of `updateGrid` at the cell `(x, y)`. -/
def fillCell (charWidth charHeight : ℚ) (boxesList : List Box) (y x : Nat)
    (g : List (List String)) : Option (List (List String)) :=
  if isInsideBox boxesList (pixelX charWidth x) (pixelY charHeight y) then
    writeCell g y x "  "
  else
    writeCell g y x ". "

/-- First pass of `updateGrid`: blank inside boxes, background elsewhere. -/
def fillPass (charWidth charHeight : ℚ) (cols rows : Nat) (boxesList : List Box)
    (grid : List (List String)) : Option (List (List String)) :=
  forCells rows cols (fillCell charWidth charHeight boxesList) grid

/-- Second pass of `updateGrid`: the stamp under the pointer. -/
def stampPass (charWidth charHeight : ℚ) (cols rows : Nat) (boxesList : List Box)
    (mouseX mouseY : ℚ) (now : Int) (gt : List (List String) × List (List Int)) :
    Option (List (List String) × List (List Int)) :=
  if mouseX ≥ 0 ∧ mouseY ≥ 0 then
    let centerX := ⌊jsDiv mouseX charWidth⌋
    let centerY := ⌊jsDiv mouseY charHeight⌋
    if centerY ≥ 0 ∧ centerY < (rows : Int) ∧ centerX ≥ 0 ∧ centerX < (cols : Int) then
      if !isInsideBox boxesList (pixelX charWidth centerX) (pixelY charHeight centerY) then
        (writeCell gt.1 centerY centerX "* ").bind fun g =>
        (writeCell gt.2 centerY centerX now).bind fun t =>
        some (g, t)
      else some gt
    else some gt
  else some gt

/-- The body of the third pass of `updateGrid` at the cell `(x, y)`. -/
def decayCell (charWidth charHeight : ℚ) (boxesList : List Box) (now : Int) (y x : Nat)
    (gt : List (List String) × List (List Int)) :
    Option (List (List String) × List (List Int)) :=
  (readCell gt.2 y x).bind fun ts =>
  if ts > 0 then
    let age := now - ts
    if age ≤ trailDuration ∧
        !isInsideBox boxesList (pixelX charWidth x) (pixelY charHeight y) then
      (readCell gt.1 y x).bind fun cur =>
      if cur = ". " then
        (writeCell gt.1 y x "* ").bind fun g => some (g, gt.2)
      else some gt
    else
      (writeCell gt.2 y x 0).bind fun t => some (gt.1, t)
  else some gt

/-- Third pass of `updateGrid`: trail decay. -/
def decayPass (charWidth charHeight : ℚ) (cols rows : Nat) (boxesList : List Box) (now : Int)
    (gt : List (List String) × List (List Int)) :
    Option (List (List String) × List (List Int)) :=
  forCells rows cols (decayCell charWidth charHeight boxesList now) gt

/-- Last pass of `updateGrid`: the border of every box, in registry order. -/
def borderPass (charWidth charHeight : ℚ) (cols rows : Nat) (boxesList : List Box)
    (grid : List (List String)) : Option (List (List String)) :=
  boxesList.foldlM (fun g (box : Box) =>
    drawBoxBorder charWidth charHeight cols rows g box.x box.y box.width box.height) grid

/-- The function `updateGrid`, with `now` the value of `Date.now()`. -/
def updateGrid (s : State) (now : Int) : Option State :=
  (fillPass s.charWidth s.charHeight s.cols s.rows s.boxesList s.grid).bind fun g1 =>
  (stampPass s.charWidth s.charHeight s.cols s.rows s.boxesList s.mouseX s.mouseY now
    (g1, s.gridTimestamps)).bind fun gt2 =>
  (decayPass s.charWidth s.charHeight s.cols s.rows s.boxesList now gt2).bind fun gt3 =>
  (borderPass s.charWidth s.charHeight s.cols s.rows s.boxesList gt3.1).bind fun g4 =>
  some { s with grid := g4, gridTimestamps := gt3.2 }

/-! ## Renderer -/

/-- The function `render`: the text assigned to `canvas.textContent`. -/
def render (s : State) : Option String :=
  (List.range s.rows).foldlM (fun output (y : Nat) =>
    ((List.range s.cols).foldlM (fun output (x : Nat) =>
      (readCell s.grid y x).bind fun cell => some (output ++ cell)) output).bind fun line =>
    some (line ++ "\n")) ""

/-- One turn of `animate`: refresh, update, render. -/
def animate (s : State) (dom : Dom) (now : Int) : Option (State × String) :=
  (updateGrid { s with boxesList := updateBoxPositions dom s.boxesList } now).bind fun s1 =>
  (render s1).bind fun output =>
  some (s1, output)

/-! ## Pointer events and drag controller -/

/-- The values computed by the drag branch of the `mousemove` handler. -/
structure DragMove where
  globalX : ℚ
  globalY : ℚ
  snappedGlobalX : ℚ
  snappedGlobalY : ℚ
  clampedGlobalX : ℚ
  clampedGlobalY : ℚ
  clampedLocalX : ℚ
  clampedLocalY : ℚ

/-- The `navBottom` of the drag branch: `nav ? nav.getBoundingClientRect().bottom : 0`. -/
def navBottom (dom : Dom) : ℚ :=
  match dom.nav with
  | some nav => nav.bottom
  | none => 0

/-- The `boxWidth` of the drag branch. -/
def dragBoxWidth (dom : Dom) (draggedBox : Box) : ℚ :=
  jsOr draggedBox.width (dom.offsetWidth draggedBox.element)

/-- The `boxHeight` of the drag branch. -/
def dragBoxHeight (dom : Dom) (draggedBox : Box) : ℚ :=
  jsOr draggedBox.height (dom.offsetHeight draggedBox.element)

/-- The drag branch of the `mousemove` handler, up to the two style writes.  With a cell
size of zero the quotient `globalX / charWidth` is infinite or `NaN` and the product
`Math.round(...) * charWidth` is `NaN`; the numbers of the model have no such values, and
the result is `none` there. -/
def dragMove (charWidth charHeight : ℚ) (dom : Dom) (draggedBox : Box)
    (dragOffsetX dragOffsetY clientX clientY : ℚ) : Option DragMove :=
  if charWidth = 0 ∨ charHeight = 0 then none else
  let parentRect := dom.parentRect draggedBox.element
  let newXLocal := jsSub (jsSub clientX dragOffsetX) parentRect.left
  let newYLocal := jsSub (jsSub clientY dragOffsetY) parentRect.top
  let globalX := jsAdd newXLocal parentRect.left
  let globalY := jsAdd newYLocal parentRect.top
  let snappedGlobalX := jsMul (mathRound (jsDiv globalX charWidth)) charWidth
  let snappedGlobalY := jsMul (mathRound (jsDiv globalY charHeight)) charHeight
  let boxWidth := dragBoxWidth dom draggedBox
  let boxHeight := dragBoxHeight dom draggedBox
  let minGlobalX : ℚ := 0
  let maxGlobalX := max 0 (jsSub dom.innerWidth boxWidth)
  let minGlobalY := navBottom dom
  let maxGlobalY := max minGlobalY (jsSub dom.innerHeight boxHeight)
  let clampedGlobalX := min (max snappedGlobalX minGlobalX) maxGlobalX
  let clampedGlobalY := min (max snappedGlobalY minGlobalY) maxGlobalY
  some
    { globalX := globalX
      globalY := globalY
      snappedGlobalX := snappedGlobalX
      snappedGlobalY := snappedGlobalY
      clampedGlobalX := clampedGlobalX
      clampedGlobalY := clampedGlobalY
      clampedLocalX := jsSub clampedGlobalX parentRect.left
      clampedLocalY := jsSub clampedGlobalY parentRect.top }

/-- The pointer part of the `mousemove` handler. -/
def mousemove (s : State) (clientX clientY : ℚ) : State :=
  { s with mouseX := clientX, mouseY := clientY }

/-- The `mouseleave` handler. -/
def mouseleave (s : State) : State :=
  { s with mouseX := -1, mouseY := -1 }

/-! ## Vocabulary of the statements -/

/-- The stored array has exactly `rows` rows of exactly `cols` cells. -/
def Shape {α : Type} (g : List (List α)) (rows cols : Nat) : Prop :=
  g.length = rows ∧ ∀ row ∈ g, row.length = cols

/-- The cell `(row i, column j)` exists in a grid of `rows x cols` cells. -/
def InGrid (rows cols : Nat) (i j : Int) : Prop :=
  0 ≤ i ∧ i < (rows : Int) ∧ 0 ≤ j ∧ j < (cols : Int)

instance (rows cols : Nat) (i j : Int) : Decidable (InGrid rows cols i j) := by
  unfold InGrid; infer_instance

/-- The cell size is positive and the grid and the timestamps have the shape announced by
`rows` and `cols`: what `initGrid` establishes. -/
def State.WellFormed (s : State) : Prop :=
  0 < s.charWidth ∧ 0 < s.charHeight ∧
    Shape s.grid s.rows s.cols ∧ Shape s.gridTimestamps s.rows s.cols

/-- The centre of the cell `(row i, column j)` lies in the closed rectangle of a box. -/
def centreInside (charWidth charHeight : ℚ) (boxesList : List Box) (i j : Int) : Bool :=
  isInsideBox boxesList (pixelX charWidth j) (pixelY charHeight i)

/-- The pointer is present and `(row i, column j)` is the cell that contains it. -/
def pointerCell (charWidth charHeight mouseX mouseY : ℚ) (i j : Int) : Prop :=
  mouseX ≥ 0 ∧ mouseY ≥ 0 ∧ ⌊jsDiv mouseY charHeight⌋ = i ∧ ⌊jsDiv mouseX charWidth⌋ = j

instance (charWidth charHeight mouseX mouseY : ℚ) (i j : Int) :
    Decidable (pointerCell charWidth charHeight mouseX mouseY i j) := by
  unfold pointerCell; infer_instance

/-- What `drawBoxBorder` writes at `(row i, column j)`, given the four cell bounds: the
corner statements come last, the vertical loop after the horizontal loop. -/
def borderGlyph (startCol endCol startRow endRow i j : Int) : Option String :=
  if (i = startRow ∨ i = endRow) ∧ (j = startCol ∨ j = endCol) then some "+ "
  else if (j = startCol ∨ j = endCol) ∧ startRow ≤ i ∧ i ≤ endRow then some "| "
  else if (i = startRow ∨ i = endRow) ∧ startCol ≤ j ∧ j ≤ endCol then some "- "
  else none

/-- What `drawBoxBorder` writes at `(row i, column j)` for one box. -/
def Box.border (charWidth charHeight : ℚ) (box : Box) (i j : Int) : Option String :=
  borderGlyph ⌊jsDiv (jsSub box.x 0) charWidth⌋
    ⌊jsDiv (jsAdd (jsAdd box.x box.width) 0) charWidth⌋
    ⌊jsDiv (jsSub box.y 0) charHeight⌋
    ⌊jsDiv (jsAdd (jsAdd box.y box.height) 0) charHeight⌋ i j

/-- The glyph left at `(row i, column j)` once every box has drawn its border over `cur`,
in registry order. -/
def borderOver (charWidth charHeight : ℚ) (boxesList : List Box) (i j : Int) (cur : String) :
    String :=
  boxesList.foldl (fun acc box => (box.border charWidth charHeight i j).getD acc) cur

/-- The cell `(row i, column j)` is on the border of no box. -/
def offBorder (charWidth charHeight : ℚ) (boxesList : List Box) (i j : Int) : Prop :=
  ∀ box ∈ boxesList, box.border charWidth charHeight i j = none

/-- The timestamp of a cell after the stamp pass, `ts` being its timestamp before. -/
def stampedTime (s : State) (now : Int) (i j : Int) (ts : Int) : Int :=
  if pointerCell s.charWidth s.charHeight s.mouseX s.mouseY i j ∧
      centreInside s.charWidth s.charHeight s.boxesList i j = false then now else ts

/-- The timestamp of a cell after `updateGrid`, `ts` being its timestamp before. -/
def cellTime (s : State) (now : Int) (i j : Int) (ts : Int) : Int :=
  if stampedTime s now i j ts > 0 then
    if now - stampedTime s now i j ts ≤ trailDuration ∧
        centreInside s.charWidth s.charHeight s.boxesList i j = false then
      stampedTime s now i j ts
    else 0
  else stampedTime s now i j ts

/-- The glyph of a cell after the first three passes of `updateGrid`. -/
def trailGlyph (s : State) (now : Int) (i j : Int) (ts : Int) : String :=
  if centreInside s.charWidth s.charHeight s.boxesList i j then "  "
  else if pointerCell s.charWidth s.charHeight s.mouseX s.mouseY i j then "* "
  else if ts > 0 ∧ now - ts ≤ trailDuration then "* "
  else ". "

/-- The glyph of a cell after `updateGrid`, `ts` being its timestamp before. -/
def cellGlyph (s : State) (now : Int) (i j : Int) (ts : Int) : String :=
  borderOver s.charWidth s.charHeight s.boxesList i j (trailGlyph s now i j ts)

/-- The six glyphs of the program. -/
def IsGlyph (g : String) : Prop :=
  g = ". " ∨ g = "  " ∨ g = "* " ∨ g = "- " ∨ g = "| " ∨ g = "+ "

/-- Every cell of the grid is one of the six glyphs. -/
def GlyphGrid (g : List (List String)) : Prop :=
  ∀ row ∈ g, ∀ cell ∈ row, IsGlyph cell

/-- The picture claimed for a single box whose border occupies the cell rectangle
`[startCol, endCol] x [startRow, endRow]`: corners, top and bottom rows, left and right
columns, blank strictly inside, background everywhere else. -/
def pictureGlyph (startCol endCol startRow endRow i j : Int) : String :=
  if (i = startRow ∨ i = endRow) ∧ (j = startCol ∨ j = endCol) then "+ "
  else if (i = startRow ∨ i = endRow) ∧ startCol ≤ j ∧ j ≤ endCol then "- "
  else if (j = startCol ∨ j = endCol) ∧ startRow ≤ i ∧ i ≤ endRow then "| "
  else if startRow < i ∧ i < endRow ∧ startCol < j ∧ j < endCol then "  "
  else ". "

/-- The pointer state, box registry and clock value that a frame runs with: whatever the
events since the previous frame have left in the module variables. -/
structure Frame where
  boxesList : List Box
  mouseX : ℚ
  mouseY : ℚ
  now : Int

/-- The state in which a frame starts. -/
def State.load (s : State) (f : Frame) : State :=
  { s with boxesList := f.boxesList, mouseX := f.mouseX, mouseY := f.mouseY }

/-- One frame: `updateGrid` with the module variables set as the frame says. -/
def runFrame (s : State) (f : Frame) : Option State :=
  updateGrid (s.load f) f.now

/-- A sequence of frames, each starting from the state the previous one left. -/
def runFrames (s : State) (frames : List Frame) : Option State :=
  frames.foldlM runFrame s

/-! ## Concrete inputs used by the closed theorems -/

/-- A document without boxes and without a nav bar, viewport `w x h`. -/
def plainDom (w h : ℚ) : Dom :=
  { boxElements := []
    rectOf := fun _ => ⟨0, 0, 0, 0⟩
    isDynamic := fun _ => true
    parentRect := fun _ => ⟨0, 0, 0, 0⟩
    nav := none
    offsetWidth := fun _ => 0
    offsetHeight := fun _ => 0
    innerWidth := w
    innerHeight := h }

/-- A dynamic box of `w x h` pixels at the origin. -/
def originBox (w h : ℚ) : Box :=
  { element := 0, x := 0, y := 0, width := w, height := h, movable := true }

/-- A static box cached at the origin, `10 x 10` pixels. -/
def staticBox : Box :=
  { element := 0, x := 0, y := 0, width := 10, height := 10, movable := false }

/-- A document whose element `0` now sits at `(5, 5)`. -/
def shiftedDom : Dom :=
  { plainDom 100 100 with rectOf := fun _ => ⟨5, 5, 10, 10⟩, isDynamic := fun _ => false }

/-- A grid of `3 x 3` cells of `10 x 10` pixels with one box registered. -/
def smallGrid (box : Box) : State :=
  { initGrid initialState 30 30 10 10 with boxesList := [box] }

/-- A box whose left and top edges lie on grid lines: its border cells have their
centres inside it. -/
def alignedBox : Box :=
  { element := 0, x := 0, y := 0, width := 25, height := 25, movable := false }

/-- A box whose left and top edges lie past the centres of the cells they cross. -/
def offsetBox : Box :=
  { element := 0, x := 8, y := 8, width := 10, height := 10, movable := false }

/-- A grid of `11 x 11` cells of `10 x 10` pixels, no box, pointer absent. -/
def emptyGrid : State := initGrid initialState 110 110 10 10

/-- A frame with no box and the pointer at pixel `(55, 55)`, at time `now`. -/
def stampFrame (now : Int) : Frame :=
  { boxesList := [], mouseX := 55, mouseY := 55, now := now }

/-- A frame with no box and the pointer absent, at time `now`. -/
def idleFrame (now : Int) : Frame :=
  { boxesList := [], mouseX := -1, mouseY := -1, now := now }

/-- A box spanning the cells `(2, 2)` to `(5, 5)` of a grid of `10 x 10`-pixel cells. -/
def pictureBox : Box :=
  { element := 0, x := 20, y := 20, width := 30, height := 30, movable := false }

/-- A grid of `120 x 24` cells of `10 x 10` pixels with `pictureBox` registered. -/
def pictureState : State :=
  { initGrid initialState 1200 240 10 10 with boxesList := [pictureBox] }

/-- A frame with one box wholly outside the grid and the pointer far away. -/
def farFrame : Frame :=
  { boxesList := [{ element := 0, x := -500, y := 9000, width := 70, height := 40,
                    movable := true }],
    mouseX := 4000, mouseY := 3, now := 12 }

/-- A frame with one box straddling the top-left corner of the grid. -/
def cornerFrame : Frame :=
  { boxesList := [{ element := 1, x := -15, y := -15, width := 40, height := 40,
                    movable := false }],
    mouseX := 12, mouseY := 12, now := 30 }

/-- The double nearest to `20.3`. -/
def width203 : ℚ := 5713942027226317 / 2 ^ 48

/-- The double nearest to `13.2`. -/
def cell132 : ℚ := 3715469692580659 / 2 ^ 48

/-- The double nearest to `14.4`. -/
def cell144 : ℚ := 8106479329266893 / 2 ^ 49

/-- The picture of the claim read with exact quotients: the cell rectangle
`[floor(x / cw), floor((x + width) / cw)] x [floor(y / ch), floor((y + height) / ch)]`,
the divisions and the sums taken in the rationals. -/
def exactPicture (charWidth charHeight : ℚ) (box : Box) (i j : Int) : String :=
  pictureGlyph ⌊box.x / charWidth⌋ ⌊(box.x + box.width) / charWidth⌋
    ⌊box.y / charHeight⌋ ⌊(box.y + box.height) / charHeight⌋ i j

/-- A box of no extent at pixel `(72, 0)`. -/
def pointBox : Box :=
  { element := 0, x := 72, y := 0, width := 0, height := 0, movable := false }

/-- A grid of `7 x 2` cells of `14.4 x 10` pixels with `pointBox` registered. -/
def pointState : State :=
  { initGrid initialState 100 20 cell144 10 with boxesList := [pointBox] }

/-! # Theorems -/

/-! ## Binary64 rounding -/

theorem roundHalfEven_err (x : ℚ) : |(roundHalfEven x : ℚ) - x| ≤ 1 / 2 := by
  have h1 := Int.floor_le x
  have h2 := Int.lt_floor_add_one x
  unfold roundHalfEven
  split_ifs with a b c
  · rw [abs_le]; constructor <;> linarith
  · rw [abs_le]; push_cast; constructor <;> linarith
  · rw [abs_le]; constructor <;> linarith
  · rw [abs_le]; push_cast; constructor <;> linarith

theorem roundHalfEven_eq {x : ℚ} {m : ℤ} (h : |x - m| < 1 / 2) : roundHalfEven x = m := by
  rw [abs_lt] at h
  obtain ⟨h1, h2⟩ := h
  have hf : ⌊x⌋ = m ∨ ⌊x⌋ = m - 1 := by
    have a : m - 1 ≤ ⌊x⌋ := Int.le_floor.2 (by push_cast; linarith)
    have b : ⌊x⌋ < m + 1 := Int.floor_lt.2 (by push_cast; linarith)
    omega
  unfold roundHalfEven
  rcases hf with e | e
  · have hx : (⌊x⌋ : ℚ) = m := by exact_mod_cast e
    rw [if_pos (by rw [hx]; linarith), e]
  · have hx : (⌊x⌋ : ℚ) = m - 1 := by rw [e]; push_cast; ring
    rw [if_neg (by rw [hx]; linarith), if_pos (by rw [hx]; linarith), e]
    ring

theorem roundHalfEven_nonneg {x : ℚ} (h : 0 ≤ x) : 0 ≤ roundHalfEven x := by
  have h0 : 0 ≤ ⌊x⌋ := Int.floor_nonneg.2 h
  unfold roundHalfEven
  split_ifs <;> omega

theorem roundHalfEven_nonpos {x : ℚ} (h : x ≤ 0) : roundHalfEven x ≤ 0 := by
  have h1 : ⌊x⌋ ≤ 0 := by
    have := Int.floor_le_floor h
    simpa using this
  have h2 := Int.floor_le x
  unfold roundHalfEven
  split_ifs with a b c
  · exact h1
  · have : (⌊x⌋ : ℚ) < -(1 / 2) := by linarith
    have : ⌊x⌋ < 0 := by
      by_contra hc
      have : (0 : ℚ) ≤ ⌊x⌋ := by exact_mod_cast (not_lt.1 hc)
      linarith
    omega
  · exact h1
  · have hx : x - ⌊x⌋ = 1 / 2 := le_antisymm (not_lt.1 b) (not_lt.1 a)
    have : ⌊x⌋ < 0 := by
      by_contra hc
      have : (0 : ℚ) ≤ ⌊x⌋ := by exact_mod_cast (not_lt.1 hc)
      linarith
    omega

theorem quantum_pos (q : ℚ) : (0 : ℚ) < 2 ^ (binade q - 52) := by positivity

/-- The sign of a number survives rounding. -/
theorem fl64_nonneg {q : ℚ} (h : 0 ≤ q) : 0 ≤ fl64 q := by
  unfold fl64
  have := roundHalfEven_nonneg (div_nonneg h (quantum_pos q).le)
  have : (0 : ℚ) ≤ roundHalfEven (q / 2 ^ (binade q - 52)) := by exact_mod_cast this
  exact mul_nonneg this (quantum_pos q).le

theorem fl64_nonpos {q : ℚ} (h : q ≤ 0) : fl64 q ≤ 0 := by
  unfold fl64
  have := roundHalfEven_nonpos (div_nonpos_of_nonpos_of_nonneg h (quantum_pos q).le)
  have : (roundHalfEven (q / 2 ^ (binade q - 52)) : ℚ) ≤ 0 := by exact_mod_cast this
  exact mul_nonpos_of_nonpos_of_nonneg this (quantum_pos q).le

theorem fl64_zero : fl64 0 = 0 :=
  le_antisymm (fl64_nonpos le_rfl) (fl64_nonneg le_rfl)

/-- The binade of a number of known magnitude. -/
theorem binade_eq {q : ℚ} {e : ℤ} (h1 : (2 : ℚ) ^ e ≤ |q|) (h2 : |q| < 2 ^ (e + 1))
    (h3 : -1022 ≤ e) : binade q = e := by
  have hpos : 0 < |q| := lt_of_lt_of_le (by positivity) h1
  have a : e ≤ Int.log 2 |q| := (Int.zpow_le_iff_le_log (by norm_num) hpos).1 (by exact_mod_cast h1)
  have b : Int.log 2 |q| < e + 1 := (Int.lt_zpow_iff_log_lt (by norm_num) hpos).1 (by exact_mod_cast h2)
  unfold binade
  omega

/-- Evaluation of `fl64`: a number in the binade `e` whose quotient by the spacing
`2 ^ (e - 52)` is nearer than one half to the integer `m` rounds to `m * 2 ^ (e - 52)`. -/
theorem fl64_eval {q : ℚ} (e m : ℤ) (h1 : (2 : ℚ) ^ e ≤ |q|) (h2 : |q| < 2 ^ (e + 1))
    (h3 : -1022 ≤ e) (h4 : |q / 2 ^ (e - 52) - m| < 1 / 2) :
    fl64 q = (m : ℚ) * 2 ^ (e - 52) := by
  unfold fl64
  rw [binade_eq h1 h2 h3, roundHalfEven_eq h4]

/-- Rounding error of `fl64`: half a unit in the last place, or half the subnormal spacing. -/
theorem fl64_err (q : ℚ) : |fl64 q - q| ≤ |q| / 2 ^ 53 + 1 / 2 ^ 1075 := by
  by_cases hq : q = 0
  · rw [hq, fl64_zero]
    norm_num
  have hq0 : 0 < |q| := abs_pos.2 hq
  have hQ := quantum_pos q
  have herr := roundHalfEven_err (q / 2 ^ (binade q - 52))
  have e1 : fl64 q - q
      = ((roundHalfEven (q / 2 ^ (binade q - 52)) : ℚ) - q / 2 ^ (binade q - 52))
        * 2 ^ (binade q - 52) := by
    unfold fl64
    field_simp
  have h1 : |fl64 q - q| ≤ 1 / 2 * 2 ^ (binade q - 52) := by
    rw [e1, abs_mul, abs_of_pos hQ]
    exact mul_le_mul_of_nonneg_right herr hQ.le
  have h2 : (1 : ℚ) / 2 * 2 ^ (binade q - 52) ≤ |q| / 2 ^ 53 + 1 / 2 ^ 1075 := by
    unfold binade
    rcases le_total (Int.log 2 |q|) (-1022) with hl | hl
    · rw [max_eq_right hl]
      have : (1 : ℚ) / 2 * 2 ^ ((-1022 : ℤ) - 52) = 1 / 2 ^ 1075 := by
        rw [show ((-1022 : ℤ) - 52) = -(1074 : ℕ) by norm_num, zpow_neg, zpow_natCast]
        norm_num
      rw [this]
      have : 0 ≤ |q| / 2 ^ 53 := by positivity
      linarith
    · rw [max_eq_left hl]
      have hle := Int.zpow_log_le_self (b := 2) (by norm_num) hq0
      have hsplit : (2 : ℚ) ^ (Int.log 2 |q| - 52) = 2 ^ Int.log 2 |q| / 2 ^ 52 := by
        rw [zpow_sub₀ (by norm_num)]
        norm_num
      rw [hsplit]
      have hle' : (2 : ℚ) ^ Int.log 2 |q| ≤ |q| := by exact_mod_cast hle
      have : (0 : ℚ) ≤ 1 / 2 ^ 1075 := by positivity
      have e53 : (1 : ℚ) / 2 * (2 ^ Int.log 2 |q| / 2 ^ 52) = 2 ^ Int.log 2 |q| / 2 ^ 53 := by
        ring
      rw [e53]
      have : (2 : ℚ) ^ Int.log 2 |q| / 2 ^ 53 ≤ |q| / 2 ^ 53 :=
        div_le_div_of_nonneg_right hle' (by positivity)
      linarith
  exact le_trans h1 h2

/-- Integers below `2 ^ 53` in magnitude are doubles. -/
theorem fl64_int (n : ℤ) (h : |n| < 2 ^ 53) : fl64 (n : ℚ) = n := by
  by_cases hn : n = 0
  · rw [hn]; simpa using fl64_zero
  have hq0 : (0 : ℚ) < |(n : ℚ)| := abs_pos.2 (by exact_mod_cast hn)
  have h1 : (1 : ℚ) ≤ |(n : ℚ)| := by
    have : (1 : ℤ) ≤ |n| := Int.one_le_abs hn
    exact_mod_cast this
  have h53 : |(n : ℚ)| < 2 ^ 53 := by exact_mod_cast h
  have hlo : (0 : ℤ) ≤ Int.log 2 |(n : ℚ)| :=
    (Int.zpow_le_iff_le_log (by norm_num) hq0).1 (by simpa using h1)
  have hhi : Int.log 2 |(n : ℚ)| < 53 :=
    (Int.lt_zpow_iff_log_lt (by norm_num) hq0).1 (by
      have : ((2 : ℕ) : ℚ) ^ (53 : ℤ) = 2 ^ 53 := by norm_num
      rw [this]; exact h53)
  obtain ⟨k, hk⟩ : ∃ k : ℕ, Int.log 2 |(n : ℚ)| - 52 = -(k : ℤ) :=
    ⟨(52 - Int.log 2 |(n : ℚ)|).toNat, by omega⟩
  have hle : (2 : ℚ) ^ Int.log 2 |(n : ℚ)| ≤ |(n : ℚ)| := by
    exact_mod_cast Int.zpow_log_le_self (b := 2) (by norm_num) hq0
  have hlt : |(n : ℚ)| < (2 : ℚ) ^ (Int.log 2 |(n : ℚ)| + 1) := by
    exact_mod_cast Int.lt_zpow_succ_log_self (b := 2) (by norm_num) |(n : ℚ)|
  have hquant : (2 : ℚ) ^ (Int.log 2 |(n : ℚ)| - 52) = (2 ^ k)⁻¹ := by
    rw [hk, zpow_neg, zpow_natCast]
  have hpos : (0 : ℚ) < 2 ^ k := by positivity
  rw [fl64_eval (Int.log 2 |(n : ℚ)|) (n * 2 ^ k) hle hlt (by omega) (by
    rw [hquant]
    have : (n : ℚ) / (2 ^ k)⁻¹ - ((n * 2 ^ k : ℤ) : ℚ) = 0 := by
      push_cast
      field_simp
    rw [this]
    norm_num), hquant]
  push_cast
  field_simp

/-- Bracketing of `fl64`. -/
theorem fl64_bounds (q : ℚ) :
    q - (|q| / 2 ^ 53 + 1 / 2 ^ 1075) ≤ fl64 q ∧ fl64 q ≤ q + (|q| / 2 ^ 53 + 1 / 2 ^ 1075) := by
  have h := abs_le.1 (fl64_err q)
  constructor <;> linarith [h.1, h.2]

/-- The floor of a rounded number that is not within the rounding error of an integer. -/
theorem floor_fl64 {q : ℚ} {n : ℤ} (h1 : (n : ℚ) + (|q| / 2 ^ 53 + 1 / 2 ^ 1075) ≤ q)
    (h2 : q + (|q| / 2 ^ 53 + 1 / 2 ^ 1075) < n + 1) : ⌊fl64 q⌋ = n := by
  obtain ⟨a, b⟩ := fl64_bounds q
  rw [Int.floor_eq_iff]
  constructor <;> linarith

/-- A sum that is an integer below `2 ^ 53` is computed exactly. -/
theorem jsAdd_int (a b : ℚ) (n : ℤ) (h : a + b = n) (hn : |n| < 2 ^ 53) : jsAdd a b = n := by
  unfold jsAdd
  rw [h, fl64_int n hn]

/-- A difference that is an integer below `2 ^ 53` is computed exactly. -/
theorem jsSub_int (a b : ℚ) (n : ℤ) (h : a - b = n) (hn : |n| < 2 ^ 53) : jsSub a b = n := by
  unfold jsSub
  rw [h, fl64_int n hn]

/-- A product that is an integer below `2 ^ 53` is computed exactly. -/
theorem jsMul_int (a b : ℚ) (n : ℤ) (h : a * b = n) (hn : |n| < 2 ^ 53) : jsMul a b = n := by
  unfold jsMul
  rw [h, fl64_int n hn]

/-- A quotient that is an integer below `2 ^ 53` is computed exactly. -/
theorem jsDiv_int (a b : ℚ) (n : ℤ) (h : a / b = n) (hn : |n| < 2 ^ 53) : jsDiv a b = n := by
  unfold jsDiv
  rw [h, fl64_int n hn]

/-- The floor of a quotient that is not within the rounding error of an integer. -/
theorem floor_jsDiv {a b : ℚ} {n : ℤ}
    (h1 : (n : ℚ) + (|a / b| / 2 ^ 53 + 1 / 2 ^ 1075) ≤ a / b)
    (h2 : a / b + (|a / b| / 2 ^ 53 + 1 / 2 ^ 1075) < n + 1) : ⌊jsDiv a b⌋ = n :=
  floor_fl64 h1 h2

/-- The centre of a column of `10`-pixel cells is computed exactly. -/
theorem pixelX_ten (k : ℤ) (hk : |k| < 2 ^ 40) : pixelX 10 k = 10 * k + 5 := by
  have hk' := abs_lt.1 hk
  unfold pixelX
  rw [jsMul_int (k : ℚ) 10 (k * 10) (by push_cast; ring) (by rw [abs_lt]; constructor <;> omega),
    jsDiv_int 10 2 5 (by norm_num) (by norm_num),
    jsAdd_int _ _ (k * 10 + 5) (by push_cast; ring) (by rw [abs_lt]; constructor <;> omega)]
  push_cast
  ring

/-- The centre of a row of `10`-pixel cells is computed exactly. -/
theorem pixelY_ten (k : ℤ) (hk : |k| < 2 ^ 40) : pixelY 10 k = 10 * k + 5 :=
  pixelX_ten k hk

/-! ## Drag controller -/

theorem mathRound_le (x : ℚ) : (mathRound x : ℚ) ≤ x + 1 / 2 := by
  unfold mathRound; exact Int.floor_le _

theorem lt_mathRound_add_one (x : ℚ) : x + 1 / 2 < (mathRound x : ℚ) + 1 := by
  unfold mathRound; exact Int.lt_floor_add_one _

/-- The function `Math.round` picks an integer at least as close as any other integer. -/
theorem mathRound_nearest (x : ℚ) (k : ℤ) : |(mathRound x : ℚ) - x| ≤ |(k : ℚ) - x| := by
  have h1 := mathRound_le x
  have h2 := lt_mathRound_add_one x
  have hn : |(mathRound x : ℚ) - x| ≤ 1 / 2 := by
    rw [abs_le]; constructor <;> linarith
  rcases lt_trichotomy k (mathRound x) with h | h | h
  · have : (k : ℚ) + 1 ≤ (mathRound x : ℚ) := by exact_mod_cast h
    have : 1 / 2 ≤ |(k : ℚ) - x| := by
      rw [le_abs]; right; linarith
    linarith
  · rw [h]
  · have : (mathRound x : ℚ) + 1 ≤ (k : ℚ) := by exact_mod_cast h
    have : 1 / 2 ≤ |(k : ℚ) - x| := by
      rw [le_abs]; left; linarith
    linarith

/-! ## Drag clamp -/

theorem jsSub_zero_int (a : ℤ) (h : |a| < 2 ^ 53) : jsSub (a : ℚ) 0 = a :=
  jsSub_int _ _ a (by simp) h

theorem jsAdd_zero_int (a : ℤ) (h : |a| < 2 ^ 53) : jsAdd (a : ℚ) 0 = a :=
  jsAdd_int _ _ a (by simp) h

/-- The drag target of a pointer at an integer pixel with no grab offset and the parent
at the origin is that pixel. -/
theorem drag_target_int (a : ℤ) (h : |a| < 2 ^ 53) :
    jsAdd (jsSub (jsSub (a : ℚ) 0) 0) 0 = a := by
  rw [jsSub_zero_int a h, jsSub_zero_int a h, jsAdd_zero_int a h]

theorem mathRound_int (k : ℤ) : mathRound (k : ℚ) = k := by
  unfold mathRound
  rw [Int.floor_eq_iff]
  constructor <;> linarith

/-- Snapping an integer multiple of `10` with `10`-pixel cells leaves it alone. -/
theorem snap_ten (k : ℤ) (h : |k| < 2 ^ 40) :
    jsMul (mathRound (jsDiv ((10 * k : ℤ) : ℚ) 10)) 10 = ((10 * k : ℤ) : ℚ) := by
  have hk := abs_lt.1 h
  rw [jsDiv_int _ 10 k (by push_cast; field_simp) (by rw [abs_lt]; constructor <;> omega),
    mathRound_int,
    jsMul_int _ 10 (10 * k) (by push_cast; ring) (by rw [abs_lt]; constructor <;> omega)]

theorem jsSub_100_width203 : jsSub 100 width203 = 5608388910959821 / 2 ^ 46 := by
  unfold jsSub width203
  rw [fl64_eval 6 5608388910959821 (by norm_num [abs_of_pos]) (by norm_num [abs_of_pos])
    (by norm_num) (by norm_num [abs_lt])]
  norm_num

theorem dragMove_some (charWidth charHeight : ℚ) (dom : Dom) (draggedBox : Box)
    (dragOffsetX dragOffsetY clientX clientY : ℚ)
    (hw : charWidth ≠ 0) (hh : charHeight ≠ 0) :
    ∃ m, dragMove charWidth charHeight dom draggedBox dragOffsetX dragOffsetY clientX clientY
        = some m ∧
      m.globalX = jsAdd (jsSub (jsSub clientX dragOffsetX)
        (dom.parentRect draggedBox.element).left) (dom.parentRect draggedBox.element).left ∧
      m.globalY = jsAdd (jsSub (jsSub clientY dragOffsetY)
        (dom.parentRect draggedBox.element).top) (dom.parentRect draggedBox.element).top ∧
      m.snappedGlobalX = jsMul (mathRound (jsDiv m.globalX charWidth)) charWidth ∧
      m.snappedGlobalY = jsMul (mathRound (jsDiv m.globalY charHeight)) charHeight ∧
      m.clampedGlobalX = min (max m.snappedGlobalX 0)
        (max 0 (jsSub dom.innerWidth (dragBoxWidth dom draggedBox))) ∧
      m.clampedGlobalY = min (max m.snappedGlobalY (navBottom dom))
        (max (navBottom dom) (jsSub dom.innerHeight (dragBoxHeight dom draggedBox))) := by
  have hne : ¬ (charWidth = 0 ∨ charHeight = 0) := by
    rintro (h | h)
    · exact hw h
    · exact hh h
  simp only [dragMove, if_neg hne]
  exact ⟨_, rfl, rfl, rfl, rfl, rfl, rfl, rfl⟩

/-- The clamp keeps a value at or above the lower bound. -/
theorem clamp_ge (v lo hi : ℚ) : lo ≤ min (max v lo) (max lo hi) :=
  le_min (le_max_right _ _) (le_max_left _ _)

/-- The clamp keeps a value at or below the upper bound when the bounds are in order. -/
theorem clamp_le (v lo hi : ℚ) (h : lo ≤ hi) : min (max v lo) (max lo hi) ≤ hi := by
  rw [max_eq_right h]
  exact min_le_right _ _

/-- With the bounds out of order the clamp returns the lower bound. -/
theorem clamp_collapse (v lo hi : ℚ) (h : hi ≤ lo) : min (max v lo) (max lo hi) = lo := by
  rw [max_eq_left h]
  exact le_antisymm (min_le_right _ _) (le_min (le_max_right _ _) le_rfl)

/-- A value within the bounds passes the clamp unchanged. -/
theorem clamp_pass (v lo hi : ℚ) (h1 : lo ≤ v) (h2 : v ≤ max lo hi) :
    min (max v lo) (max lo hi) = v := by
  rw [max_eq_left h1, min_eq_left h2]

/-- C3 (as stated) fails.  A box wider than the viewport is put at `X = 0` and ends beyond
the right edge.  A box that fits can end beyond the right edge by a rounding error: in a
viewport of `100` pixels with a box of width `20.3` the difference `100 - 20.3` is
rounded upwards, and a pointer far to the right puts the box at the rounded difference. -/
theorem drag_clamp_beyond_edge :
    (∃ m, dragMove 10 10 (plainDom 100 100) (originBox 200 20) 0 0 0 0 = some m ∧
      m.clampedGlobalX = 0 ∧
      ¬ (m.clampedGlobalX + dragBoxWidth (plainDom 100 100) (originBox 200 20)
          ≤ (plainDom 100 100).innerWidth)) ∧
    dragBoxWidth (plainDom 100 100) (originBox width203 20) ≤ (plainDom 100 100).innerWidth ∧
    (∃ m, dragMove 10 10 (plainDom 100 100) (originBox width203 20) 0 0 500 0 = some m ∧
      ¬ (m.clampedGlobalX + dragBoxWidth (plainDom 100 100) (originBox width203 20)
          ≤ (plainDom 100 100).innerWidth)) := by
  have t0 : jsAdd (jsSub (jsSub 0 0) 0) 0 = 0 := by
    simpa using drag_target_int 0 (by norm_num)
  have t500 : jsAdd (jsSub (jsSub 500 0) 0) 0 = 500 := by
    simpa using drag_target_int 500 (by norm_num)
  have s0 : jsMul (mathRound (jsDiv 0 10)) 10 = 0 := by
    simpa using snap_ten 0 (by norm_num)
  have s500 : jsMul (mathRound (jsDiv 500 10)) 10 = 500 := by
    simpa using snap_ten 50 (by norm_num)
  have w200 : jsSub 100 200 = -100 := by
    simpa using jsSub_int 100 200 (-100) (by norm_num) (by norm_num)
  have hw : width203 ≠ 0 := by norm_num [width203]
  have b1 : dragBoxWidth (plainDom 100 100) (originBox 200 20) = 200 := by
    norm_num [dragBoxWidth, plainDom, originBox, jsOr]
  have b2 : dragBoxWidth (plainDom 100 100) (originBox width203 20) = width203 := by
    simp only [dragBoxWidth, plainDom, originBox, jsOr, if_pos hw]
  refine ⟨?_, ?_, ?_⟩
  · obtain ⟨m, e, g, -, sx, -, cx, -⟩ := dragMove_some 10 10 (plainDom 100 100)
      (originBox 200 20) 0 0 0 0 (by norm_num) (by norm_num)
    have g0 : m.globalX = 0 := by rw [g]; exact t0
    have x0 : m.clampedGlobalX = 0 := by
      rw [cx, sx, g0, s0, b1]
      show min (max (0 : ℚ) 0) (max 0 (jsSub 100 200)) = 0
      rw [w200]
      norm_num
    refine ⟨m, e, x0, ?_⟩
    rw [x0, b1]
    norm_num [plainDom]
  · rw [b2]
    norm_num [width203, plainDom]
  · obtain ⟨m, e, g, -, sx, -, cx, -⟩ := dragMove_some 10 10 (plainDom 100 100)
      (originBox width203 20) 0 0 500 0 (by norm_num) (by norm_num)
    have g0 : m.globalX = 500 := by rw [g]; exact t500
    have x0 : m.clampedGlobalX = 5608388910959821 / 2 ^ 46 := by
      rw [cx, sx, g0, s500, b2]
      show min (max (500 : ℚ) 0) (max 0 (jsSub 100 width203)) = _
      rw [jsSub_100_width203]
      norm_num
    refine ⟨m, e, ?_⟩
    rw [x0, b2]
    norm_num [width203, plainDom]

/-- C3 (amended): for a positive cell size the handler computes a position, never above
the nav bar nor left of the viewport.  The box ends inside the viewport on the right
when it is no wider than the viewport and the difference `innerWidth - boxWidth` is not
rounded upwards, and at the bottom when it fits below the nav bar and
`innerHeight - boxHeight` is not rounded upwards.  A box at least as wide as the viewport
is put at `X = 0`, and a box for which the computed `innerHeight - boxHeight` does not
exceed `navBottom` is put at `Y = navBottom`. -/
theorem drag_clamp (charWidth charHeight : ℚ) (dom : Dom) (draggedBox : Box)
    (dragOffsetX dragOffsetY clientX clientY : ℚ)
    (hw : 0 < charWidth) (hh : 0 < charHeight) :
    ∃ m, dragMove charWidth charHeight dom draggedBox dragOffsetX dragOffsetY clientX clientY
        = some m ∧
      m.clampedGlobalY ≥ navBottom dom ∧
      m.clampedGlobalX ≥ 0 ∧
      (dragBoxWidth dom draggedBox ≤ dom.innerWidth →
        jsSub dom.innerWidth (dragBoxWidth dom draggedBox)
          ≤ dom.innerWidth - dragBoxWidth dom draggedBox →
        m.clampedGlobalX + dragBoxWidth dom draggedBox ≤ dom.innerWidth) ∧
      (navBottom dom + dragBoxHeight dom draggedBox ≤ dom.innerHeight →
        jsSub dom.innerHeight (dragBoxHeight dom draggedBox)
          ≤ dom.innerHeight - dragBoxHeight dom draggedBox →
        m.clampedGlobalY + dragBoxHeight dom draggedBox ≤ dom.innerHeight) ∧
      (dom.innerWidth ≤ dragBoxWidth dom draggedBox → m.clampedGlobalX = 0) ∧
      (jsSub dom.innerHeight (dragBoxHeight dom draggedBox) ≤ navBottom dom →
        m.clampedGlobalY = navBottom dom) := by
  obtain ⟨m, e, -, -, -, -, cx, cy⟩ := dragMove_some charWidth charHeight dom draggedBox
    dragOffsetX dragOffsetY clientX clientY hw.ne.symm hh.ne.symm
  refine ⟨m, e, ?_, ?_, ?_, ?_, ?_, ?_⟩
  · rw [cy]; exact clamp_ge _ _ _
  · rw [cx]; exact clamp_ge _ _ _
  · intro h hr
    have h0 : 0 ≤ jsSub dom.innerWidth (dragBoxWidth dom draggedBox) :=
      fl64_nonneg (by linarith)
    have h1 := clamp_le m.snappedGlobalX 0 _ h0
    rw [← cx] at h1
    linarith
  · intro h hr
    rcases le_total (navBottom dom) (jsSub dom.innerHeight (dragBoxHeight dom draggedBox))
      with hc | hc
    · have h1 := clamp_le m.snappedGlobalY _ _ hc
      rw [← cy] at h1
      linarith
    · have h1 := clamp_collapse m.snappedGlobalY _ _ hc
      rw [← cy] at h1
      linarith
  · intro h
    rw [cx]
    exact clamp_collapse _ _ _ (fl64_nonpos (by linarith))
  · intro h
    rw [cy]
    exact clamp_collapse _ _ _ h

/-- C3 (amended), instance: a `40 x 20` box in a `100 x 100` viewport with `10 x 10` cells,
the pointer far outside to the upper right. -/
theorem drag_clamp_witness :
    (0 : ℚ) < 10 ∧
    ∃ m, dragMove 10 10 (plainDom 100 100) (originBox 40 20) 0 0 500 (-500) = some m ∧
      m.clampedGlobalY ≥ navBottom (plainDom 100 100) ∧ m.clampedGlobalX ≥ 0 ∧
      m.clampedGlobalX + dragBoxWidth (plainDom 100 100) (originBox 40 20)
        ≤ (plainDom 100 100).innerWidth ∧
      m.clampedGlobalY + dragBoxHeight (plainDom 100 100) (originBox 40 20)
        ≤ (plainDom 100 100).innerHeight := by
  obtain ⟨m, e, h1, h2, h3, h4, -, -⟩ :=
    drag_clamp 10 10 (plainDom 100 100) (originBox 40 20) 0 0 500 (-500)
      (by norm_num) (by norm_num)
  have b1 : dragBoxWidth (plainDom 100 100) (originBox 40 20) = 40 := by
    norm_num [dragBoxWidth, plainDom, originBox, jsOr]
  have b2 : dragBoxHeight (plainDom 100 100) (originBox 40 20) = 20 := by
    norm_num [dragBoxHeight, plainDom, originBox, jsOr]
  have d1 : jsSub 100 40 = 60 := by
    simpa using jsSub_int 100 40 60 (by norm_num) (by norm_num)
  have d2 : jsSub 100 20 = 80 := by
    simpa using jsSub_int 100 20 80 (by norm_num) (by norm_num)
  refine ⟨by norm_num, m, e, h1, h2, h3 ?_ ?_, h4 ?_ ?_⟩
  · rw [b1]; norm_num [plainDom]
  · rw [b1]
    show jsSub 100 40 ≤ 100 - 40
    rw [d1]; norm_num
  · rw [b2]; norm_num [plainDom, navBottom]
  · rw [b2]
    show jsSub 100 20 ≤ 100 - 20
    rw [d2]; norm_num

/-! ## Drag snap -/

/-- The multiple of the cell size chosen by `Math.round(g / cell)` is as near to `g` as any
other multiple, up to the rounding error of the quotient. -/
theorem snap_index_near (g cw : ℚ) (hcw : 0 < cw) (k : ℤ) :
    |(mathRound (jsDiv g cw) : ℚ) * cw - g|
      ≤ |(k : ℚ) * cw - g| + (|g| / 2 ^ 52 + cw / 2 ^ 1074) := by
  have h1 := mathRound_nearest (jsDiv g cw) k
  have h2 : |jsDiv g cw - g / cw| ≤ |g / cw| / 2 ^ 53 + 1 / 2 ^ 1075 := fl64_err _
  have e1 : (mathRound (jsDiv g cw) : ℚ) * cw - g
      = ((mathRound (jsDiv g cw) : ℚ) - g / cw) * cw := by field_simp
  have e2 : (k : ℚ) * cw - g = ((k : ℚ) - g / cw) * cw := by field_simp
  have e3 : |g| = |g / cw| * cw := by
    rw [abs_div, abs_of_pos hcw]; field_simp
  have t1 : |(mathRound (jsDiv g cw) : ℚ) - g / cw|
      ≤ |(mathRound (jsDiv g cw) : ℚ) - jsDiv g cw| + |jsDiv g cw - g / cw| := by
    have := abs_add ((mathRound (jsDiv g cw) : ℚ) - jsDiv g cw) (jsDiv g cw - g / cw)
    simpa using this
  have t2 : |(k : ℚ) - jsDiv g cw| ≤ |(k : ℚ) - g / cw| + |jsDiv g cw - g / cw| := by
    have := abs_add ((k : ℚ) - g / cw) (g / cw - jsDiv g cw)
    rw [abs_sub_comm (g / cw) (jsDiv g cw)] at this
    simpa using this
  have t3 : |(mathRound (jsDiv g cw) : ℚ) - g / cw|
      ≤ |(k : ℚ) - g / cw| + (|g / cw| / 2 ^ 52 + 1 / 2 ^ 1074) := by
    have c1 : (2 : ℚ) ^ 53 = 2 * 2 ^ 52 := by norm_num
    have c2 : (2 : ℚ) ^ 1075 = 2 * 2 ^ 1074 := by norm_num
    have c3 : |g / cw| / 2 ^ 53 = |g / cw| / 2 ^ 52 / 2 := by rw [c1]; ring
    have c4 : (1 : ℚ) / 2 ^ 1075 = 1 / 2 ^ 1074 / 2 := by rw [c2]; ring
    rw [c3, c4] at h2
    linarith
  rw [e1, e2, abs_mul, abs_mul, abs_of_pos hcw, e3]
  have t4 := mul_le_mul_of_nonneg_right t3 hcw.le
  have e4 : (|(k : ℚ) - g / cw| + (|g / cw| / 2 ^ 52 + 1 / 2 ^ 1074)) * cw
      = |(k : ℚ) - g / cw| * cw + (|g / cw| * cw / 2 ^ 52 + cw / 2 ^ 1074) := by ring
  rw [e4] at t4
  exact t4

/-- With a cell size that is an integer the product `Math.round(...) * cell` is exact. -/
theorem snap_product_int (k n : ℤ) (h : |k * n| < 2 ^ 53) :
    jsMul (k : ℚ) (n : ℚ) = (k : ℚ) * n :=
  (jsMul_int _ _ (k * n) (by push_cast; ring) h).trans (by push_cast; ring)

/-- The target of an integer pointer offset with the parent at an integer offset is exact. -/
theorem drag_target_exact (c o l : ℚ) (a p : ℤ) (h1 : c - o = a) (h2 : l = p)
    (ha : |a| < 2 ^ 53) (hp : |a - p| < 2 ^ 53) : jsAdd (jsSub (jsSub c o) l) l = c - o := by
  rw [jsSub_int c o a h1 ha, jsSub_int _ l (a - p) (by rw [h2]; push_cast; ring) hp,
    jsAdd_int _ l a (by rw [h2]; push_cast; ring) ha, h1]

/-- A tie between two doubles goes to the one with the even significand. -/
theorem roundHalfEven_tie {x : ℚ} {m : ℤ} (h : x = m + 1 / 2) (hm : m % 2 = 0) :
    roundHalfEven x = m := by
  have hf : ⌊x⌋ = m := by
    rw [Int.floor_eq_iff, h]
    constructor <;> linarith
  unfold roundHalfEven
  rw [hf, if_neg (by rw [h]; norm_num), if_neg (by rw [h]; norm_num), if_pos hm]

/-- Evaluation of `fl64` at a tie, the lower neighbour having the even significand. -/
theorem fl64_eval_tie {q : ℚ} (e m : ℤ) (h1 : (2 : ℚ) ^ e ≤ |q|) (h2 : |q| < 2 ^ (e + 1))
    (h3 : -1022 ≤ e) (h4 : q / 2 ^ (e - 52) = m + 1 / 2) (hm : m % 2 = 0) :
    fl64 q = (m : ℚ) * 2 ^ (e - 52) := by
  unfold fl64
  rw [binade_eq h1 h2 h3, roundHalfEven_tie h4 hm]

theorem jsDiv_40_cell132 : jsDiv 40 cell132 = 3411817899523103 / 2 ^ 50 := by
  unfold jsDiv cell132
  rw [fl64_eval 1 6823635799046206 (by norm_num [abs_of_pos]) (by norm_num [abs_of_pos])
    (by norm_num) (by norm_num [abs_lt])]
  norm_num

theorem jsMul_3_cell132 : jsMul 3 cell132 = 1393301134717747 / 2 ^ 45 := by
  unfold jsMul cell132
  rw [fl64_eval_tie 5 5573204538870988 (by norm_num [abs_of_pos]) (by norm_num [abs_of_pos])
    (by norm_num) (by norm_num) (by decide)]
  norm_num

theorem jsDiv_47_10 : jsDiv 47 10 = 5291729562160333 / 2 ^ 50 := by
  unfold jsDiv
  rw [fl64_eval 2 5291729562160333 (by norm_num [abs_of_pos]) (by norm_num [abs_of_pos])
    (by norm_num) (by norm_num [abs_lt])]
  norm_num

theorem jsDiv_22_10 : jsDiv 22 10 = 2476979795053773 / 2 ^ 50 := by
  unfold jsDiv
  rw [fl64_eval 1 4953959590107546 (by norm_num [abs_of_pos]) (by norm_num [abs_of_pos])
    (by norm_num) (by norm_num [abs_lt])]
  norm_num

/-- C7 (as stated) fails.  With `10`-pixel cells, a `40`-pixel box and a `95`-pixel viewport
a target of `100` is applied as `55`, which is no multiple of `10`: the clamp comes after
the snap.  And with cells of width `13.2` a target of `40` is applied, unclamped, as
`39.599999999999994`, the rounded product `3 * 13.2` (a tie, which goes to the even
significand), which is no integer multiple of the cell width. -/
theorem drag_snap_off_grid :
    (∃ m, dragMove 10 10 (plainDom 95 100) (originBox 40 20) 0 0 100 0 = some m ∧
      m.globalX = 100 ∧ m.clampedGlobalX = 55 ∧
      ¬ ∃ k : ℤ, m.clampedGlobalX = (k : ℚ) * 10) ∧
    (∃ m, dragMove cell132 10 (plainDom 1200 240) (originBox 40 20) 0 0 40 0 = some m ∧
      m.globalX = 40 ∧ m.clampedGlobalX = 1393301134717747 / 2 ^ 45 ∧
      ¬ ∃ k : ℤ, m.clampedGlobalX = (k : ℚ) * cell132) := by
  have b1 : ∀ d : Dom, d.offsetWidth = (fun _ => 0) → dragBoxWidth d (originBox 40 20) = 40 := by
    intro d _
    norm_num [dragBoxWidth, originBox, jsOr]
  constructor
  · obtain ⟨m, e, g, -, sx, -, cx, -⟩ := dragMove_some 10 10 (plainDom 95 100)
      (originBox 40 20) 0 0 100 0 (by norm_num) (by norm_num)
    have g0 : m.globalX = 100 := by
      rw [g]; simpa using drag_target_int 100 (by norm_num)
    have s0 : m.snappedGlobalX = 100 := by
      rw [sx, g0]; simpa using snap_ten 10 (by norm_num)
    have d0 : jsSub 95 40 = 55 := by
      simpa using jsSub_int 95 40 55 (by norm_num) (by norm_num)
    have x0 : m.clampedGlobalX = 55 := by
      rw [cx, s0, b1 _ rfl]
      show min (max (100 : ℚ) 0) (max 0 (jsSub 95 40)) = 55
      rw [d0]; norm_num
    refine ⟨m, e, g0, x0, ?_⟩
    rw [x0]
    rintro ⟨k, hk⟩
    have hk2 : (55 : ℤ) = k * 10 := by exact_mod_cast hk
    omega
  · obtain ⟨m, e, g, -, sx, -, cx, -⟩ := dragMove_some cell132 10 (plainDom 1200 240)
      (originBox 40 20) 0 0 40 0 (by norm_num [cell132]) (by norm_num)
    have g0 : m.globalX = 40 := by
      rw [g]; simpa using drag_target_int 40 (by norm_num)
    have r0 : mathRound (3411817899523103 / 2 ^ 50) = 3 := by
      norm_num [mathRound, Int.floor_eq_iff]
    have s0 : m.snappedGlobalX = 1393301134717747 / 2 ^ 45 := by
      rw [sx, g0, jsDiv_40_cell132, r0]
      exact jsMul_3_cell132
    have d0 : jsSub 1200 40 = 1160 := by
      simpa using jsSub_int 1200 40 1160 (by norm_num) (by norm_num)
    have x0 : m.clampedGlobalX = 1393301134717747 / 2 ^ 45 := by
      rw [cx, s0, b1 _ rfl]
      show min (max (1393301134717747 / 2 ^ 45 : ℚ) 0) (max 0 (jsSub 1200 40)) = _
      rw [d0]; norm_num
    refine ⟨m, e, g0, x0, ?_⟩
    rw [x0]
    rintro ⟨k, hk⟩
    have hk1 : (1393301134717747 : ℚ) * 8 = (k : ℚ) * 3715469692580659 := by
      unfold cell132 at hk
      field_simp at hk
      linarith
    have hk2 : (1393301134717747 : ℤ) * 8 = k * 3715469692580659 := by exact_mod_cast hk1
    omega

/-- C7 (amended): for a positive cell size the handler computes a position.  Its target is
the pointer minus the grab offset, taken through the parent offset in double arithmetic
and exact for integer pixel values.  The snapped position is, on each axis, the double
nearest to `k * cell` for the integer `k = Math.round(target / cell)`; no multiple of the
cell size is nearer to the target than `k * cell` by more than the rounding error
`|target| / 2 ^ 52 + cell / 2 ^ 1074` of the quotient; and the snapped position is `k * cell`
itself when the cell size is an integer and the product is below `2 ^ 53`.  The applied
position equals the snapped one whenever the snapped one lies within the clamp bounds
`[0, max(0, innerWidth - boxWidth)]` and `[navBottom, max(navBottom, innerHeight - boxHeight)]`. -/
theorem drag_snap (charWidth charHeight : ℚ) (dom : Dom) (draggedBox : Box)
    (dragOffsetX dragOffsetY clientX clientY : ℚ)
    (hw : 0 < charWidth) (hh : 0 < charHeight) :
    ∃ m, dragMove charWidth charHeight dom draggedBox dragOffsetX dragOffsetY clientX clientY
        = some m ∧
      (m.globalX = jsAdd (jsSub (jsSub clientX dragOffsetX)
          (dom.parentRect draggedBox.element).left) (dom.parentRect draggedBox.element).left ∧
        m.globalY = jsAdd (jsSub (jsSub clientY dragOffsetY)
          (dom.parentRect draggedBox.element).top) (dom.parentRect draggedBox.element).top) ∧
      ((∀ a p : ℤ, clientX - dragOffsetX = a → (dom.parentRect draggedBox.element).left = p →
          |a| < 2 ^ 53 → |a - p| < 2 ^ 53 → m.globalX = clientX - dragOffsetX) ∧
        (∀ a p : ℤ, clientY - dragOffsetY = a → (dom.parentRect draggedBox.element).top = p →
          |a| < 2 ^ 53 → |a - p| < 2 ^ 53 → m.globalY = clientY - dragOffsetY)) ∧
      (m.snappedGlobalX = fl64 ((mathRound (jsDiv m.globalX charWidth) : ℚ) * charWidth) ∧
        m.snappedGlobalY = fl64 ((mathRound (jsDiv m.globalY charHeight) : ℚ) * charHeight)) ∧
      ((∀ k : ℤ, |(mathRound (jsDiv m.globalX charWidth) : ℚ) * charWidth - m.globalX|
          ≤ |(k : ℚ) * charWidth - m.globalX|
            + (|m.globalX| / 2 ^ 52 + charWidth / 2 ^ 1074)) ∧
        (∀ k : ℤ, |(mathRound (jsDiv m.globalY charHeight) : ℚ) * charHeight - m.globalY|
          ≤ |(k : ℚ) * charHeight - m.globalY|
            + (|m.globalY| / 2 ^ 52 + charHeight / 2 ^ 1074))) ∧
      ((∀ n : ℤ, charWidth = n → |mathRound (jsDiv m.globalX charWidth) * n| < 2 ^ 53 →
          m.snappedGlobalX = (mathRound (jsDiv m.globalX charWidth) : ℚ) * charWidth) ∧
        (∀ n : ℤ, charHeight = n → |mathRound (jsDiv m.globalY charHeight) * n| < 2 ^ 53 →
          m.snappedGlobalY = (mathRound (jsDiv m.globalY charHeight) : ℚ) * charHeight)) ∧
      (0 ≤ m.snappedGlobalX →
        m.snappedGlobalX ≤ max 0 (jsSub dom.innerWidth (dragBoxWidth dom draggedBox)) →
        m.clampedGlobalX = m.snappedGlobalX) ∧
      (navBottom dom ≤ m.snappedGlobalY →
        m.snappedGlobalY
          ≤ max (navBottom dom) (jsSub dom.innerHeight (dragBoxHeight dom draggedBox)) →
        m.clampedGlobalY = m.snappedGlobalY) := by
  obtain ⟨m, e, gx, gy, sx, sy, cx, cy⟩ := dragMove_some charWidth charHeight dom draggedBox
    dragOffsetX dragOffsetY clientX clientY hw.ne.symm hh.ne.symm
  refine ⟨m, e, ⟨gx, gy⟩, ⟨?_, ?_⟩, ⟨sx, sy⟩, ⟨?_, ?_⟩, ⟨?_, ?_⟩, ?_, ?_⟩
  · intro a p h1 h2 ha hp
    rw [gx]; exact drag_target_exact _ _ _ a p h1 h2 ha hp
  · intro a p h1 h2 ha hp
    rw [gy]; exact drag_target_exact _ _ _ a p h1 h2 ha hp
  · exact fun k => snap_index_near _ _ hw k
  · exact fun k => snap_index_near _ _ hh k
  · intro n hn hb
    rw [sx]
    nth_rewrite 2 4 [hn]
    exact snap_product_int _ n hb
  · intro n hn hb
    rw [sy]
    nth_rewrite 2 4 [hn]
    exact snap_product_int _ n hb
  · intro h0 h1
    rw [cx]; exact clamp_pass _ _ _ h0 h1
  · intro h0 h1
    rw [cy]; exact clamp_pass _ _ _ h0 h1

/-- C7 (amended), the scenario of the specification: `10 x 10` cells, a `40 x 20` box
grabbed at `(3, 3)`, pointer at `(50, 25)`: target `(47, 22)`, applied position `(50, 20)`. -/
theorem drag_snap_witness :
    (0 : ℚ) < 10 ∧
    ∃ m, dragMove 10 10 (plainDom 1200 240) (originBox 40 20) 3 3 50 25 = some m ∧
      m.globalX = 47 ∧ m.globalY = 22 ∧ m.snappedGlobalX = 50 ∧ m.snappedGlobalY = 20 ∧
      m.clampedGlobalX = 50 ∧ m.clampedGlobalY = 20 := by
  obtain ⟨m, e, -, ⟨tx, ty⟩, -, -, ⟨px, py⟩, kx, ky⟩ :=
    drag_snap 10 10 (plainDom 1200 240) (originBox 40 20) 3 3 50 25 (by norm_num) (by norm_num)
  have gx : m.globalX = 47 := by
    rw [tx 47 0 (by norm_num) (by simp [plainDom]) (by norm_num) (by norm_num)]; norm_num
  have gy : m.globalY = 22 := by
    rw [ty 22 0 (by norm_num) (by simp [plainDom]) (by norm_num) (by norm_num)]; norm_num
  have rx : mathRound (jsDiv m.globalX 10) = 5 := by
    rw [gx, jsDiv_47_10]
    norm_num [mathRound, Int.floor_eq_iff]
  have ry : mathRound (jsDiv m.globalY 10) = 2 := by
    rw [gy, jsDiv_22_10]
    norm_num [mathRound, Int.floor_eq_iff]
  have sx : m.snappedGlobalX = 50 := by
    rw [px 10 (by norm_num) (by rw [rx]; norm_num), rx]; norm_num
  have sy : m.snappedGlobalY = 20 := by
    rw [py 10 (by norm_num) (by rw [ry]; norm_num), ry]; norm_num
  have b1 : dragBoxWidth (plainDom 1200 240) (originBox 40 20) = 40 := by
    norm_num [dragBoxWidth, plainDom, originBox, jsOr]
  have b2 : dragBoxHeight (plainDom 1200 240) (originBox 40 20) = 20 := by
    norm_num [dragBoxHeight, plainDom, originBox, jsOr]
  have d1 : jsSub 1200 40 = 1160 := by
    simpa using jsSub_int 1200 40 1160 (by norm_num) (by norm_num)
  have d2 : jsSub 240 20 = 220 := by
    simpa using jsSub_int 240 20 220 (by norm_num) (by norm_num)
  have cx : m.clampedGlobalX = 50 := by
    rw [kx (by rw [sx]; norm_num) ?_, sx]
    rw [sx, b1]
    show (50 : ℚ) ≤ max 0 (jsSub 1200 40)
    rw [d1]; norm_num
  have cy : m.clampedGlobalY = 20 := by
    rw [ky (by rw [sy]; norm_num [navBottom, plainDom]) ?_, sy]
    rw [sy, b2]
    show (20 : ℚ) ≤ max (navBottom (plainDom 1200 240)) (jsSub 240 20)
    rw [d2]; norm_num [navBottom, plainDom]
  exact ⟨by norm_num, m, e, gx, gy, sx, sy, cx, cy⟩

/-! ## Box registry -/

/-- C10 (as stated) fails: the refresh overwrites the cached rectangle of a static box. -/
theorem refresh_moves_static_box :
    staticBox.movable = false ∧
    updateBoxPositions shiftedDom [staticBox]
      = [{ element := 0, x := 5, y := 5, width := 10, height := 10, movable := false }] ∧
    updateBoxPositions shiftedDom [staticBox] ≠ [staticBox] := by
  refine ⟨rfl, by simp [updateBoxPositions, refreshBox, shiftedDom, staticBox], ?_⟩
  simp [updateBoxPositions, refreshBox, shiftedDom, staticBox]

/-- C10 (amended): the refresh replaces the cached rectangle of every box, movable or
not, by the live rectangle of its element, and keeps the element and the flag. -/
theorem refresh_all_boxes (dom : Dom) (boxesList : List Box) :
    (updateBoxPositions dom boxesList).length = boxesList.length ∧
    ∀ (i : Nat) (box : Box), boxesList[i]? = some box →
      (updateBoxPositions dom boxesList)[i]? =
        some { element := box.element
               x := (dom.rectOf box.element).left
               y := (dom.rectOf box.element).top
               width := (dom.rectOf box.element).width
               height := (dom.rectOf box.element).height
               movable := box.movable } := by
  refine ⟨by simp [updateBoxPositions], ?_⟩
  intro i box h
  simp [updateBoxPositions, refreshBox, h]

/-! ## Array access -/

theorem toNat_lt_of_lt {r : Int} {n : Nat} (h0 : 0 ≤ r) (h : r < n) : r.toNat < n := by
  omega

/-- Reading inside the shape succeeds. -/
theorem readCell_inGrid {α : Type} {g : List (List α)} {rows cols : Nat} (hs : Shape g rows cols)
    {i j : Int} (h : InGrid rows cols i j) : ∃ v, readCell g i j = some v := by
  obtain ⟨hi0, hi, hj0, hj⟩ := h
  have hlen : i.toNat < g.length := by rw [hs.1]; omega
  have hrow : (g[i.toNat]).length = cols := hs.2 _ (List.getElem_mem _)
  have hj2 : j.toNat < (g[i.toNat]).length := by rw [hrow]; omega
  refine ⟨(g[i.toNat])[j.toNat], ?_⟩
  simp [readCell, hi0, hj0, List.getElem?_eq_getElem hlen, List.getElem?_eq_getElem hj2]

/-- Reading outside the shape is a fault. -/
theorem readCell_outside {α : Type} {g : List (List α)} {rows cols : Nat}
    (hs : Shape g rows cols) {i j : Int} (h : ¬ InGrid rows cols i j) : readCell g i j = none := by
  unfold readCell
  split_ifs with h0
  · by_cases hi : i.toNat < g.length
    · have hrow : (g[i.toNat]).length = cols := hs.2 _ (List.getElem_mem _)
      rw [List.getElem?_eq_getElem hi]
      simp only
      apply List.getElem?_eq_none
      rw [hrow]
      by_contra hc
      apply h
      rw [hs.1] at hi
      refine ⟨h0.1, by omega, h0.2, by omega⟩
    · rw [List.getElem?_eq_none (by omega)]
  · rfl

/-- Writing inside the shape succeeds, keeps the shape and changes that one cell. -/
theorem writeCell_inGrid {α : Type} {g : List (List α)} {rows cols : Nat}
    (hs : Shape g rows cols) {r c : Int} (h : InGrid rows cols r c) (v : α) :
    ∃ g', writeCell g r c v = some g' ∧ Shape g' rows cols ∧
      ∀ i j : Int, readCell g' i j = if i = r ∧ j = c then some v else readCell g i j := by
  obtain ⟨hi0, hi, hj0, hj⟩ := h
  have hlen : r.toNat < g.length := by rw [hs.1]; omega
  have hrow : (g[r.toNat]).length = cols := hs.2 _ (List.getElem_mem _)
  have hj2 : c.toNat < (g[r.toNat]).length := by rw [hrow]; omega
  refine ⟨g.set r.toNat ((g[r.toNat]).set c.toNat v), ?_, ?_, ?_⟩
  · simp [writeCell, hi0, hj0, List.getElem?_eq_getElem hlen, hj2]
  · refine ⟨by rw [List.length_set]; exact hs.1, ?_⟩
    intro row hrowmem
    rcases List.mem_or_eq_of_mem_set hrowmem with hm | hm
    · exact hs.2 _ hm
    · rw [hm, List.length_set]; exact hrow
  · intro i j
    unfold readCell
    by_cases h0 : 0 ≤ i ∧ 0 ≤ j
    · rw [if_pos h0, if_pos h0]
      by_cases hir : i = r
      · subst hir
        rw [List.getElem?_set_self hlen]
        simp only
        by_cases hjc : j = c
        · subst hjc
          rw [List.getElem?_set_self hj2]
          simp
        · have : ¬ (c.toNat = j.toNat) := by omega
          rw [List.getElem?_set_ne this, List.getElem?_eq_getElem hlen]
          simp [hjc]
      · have : ¬ (r.toNat = i.toNat) := by omega
        rw [List.getElem?_set_ne this]
        simp [hir]
    · rw [if_neg h0, if_neg h0]
      have : ¬ (i = r ∧ j = c) := by
        rintro ⟨rfl, rfl⟩; exact h0 ⟨hi0, hj0⟩
      rw [if_neg this]

/-- Two grids of one shape with the same cells are the same grid. -/
theorem grid_ext {α : Type} {g g' : List (List α)} {rows cols : Nat}
    (hs : Shape g rows cols) (hs' : Shape g' rows cols)
    (h : ∀ i j : Int, InGrid rows cols i j → readCell g i j = readCell g' i j) : g = g' := by
  apply List.ext_getElem (by rw [hs.1, hs'.1])
  intro n h1 h2
  have hr1 : (g[n]).length = cols := hs.2 _ (List.getElem_mem _)
  have hr2 : (g'[n]).length = cols := hs'.2 _ (List.getElem_mem _)
  apply List.ext_getElem (by rw [hr1, hr2])
  intro m h3 h4
  have hn : n < rows := by rw [← hs.1]; exact h1
  have hm : m < cols := by rw [← hr1]; exact h3
  have e := h n m ⟨by omega, by omega, by omega, by omega⟩
  simp only [readCell, Int.toNat_ofNat, Int.ofNat_nonneg, and_self, if_true,
    List.getElem?_eq_getElem h1, List.getElem?_eq_getElem h2,
    List.getElem?_eq_getElem h3, List.getElem?_eq_getElem h4] at e
  exact Option.some.inj e

/-! ## Loops -/

/-- Invariant rule for `for (k = 0; k < n; k++)`. -/
theorem foldlM_range_inv {σ : Type} (f : σ → Nat → Option σ) (P : Nat → σ → Prop) :
    ∀ (n : Nat) (s0 : σ), P 0 s0 →
      (∀ k s, k < n → P k s → ∃ s', f s k = some s' ∧ P (k + 1) s') →
      ∃ s', (List.range n).foldlM f s0 = some s' ∧ P n s' := by
  intro n
  induction n with
  | zero =>
    intro s0 h0 _
    exact ⟨s0, rfl, h0⟩
  | succ n ih =>
    intro s0 h0 hstep
    obtain ⟨s1, e1, p1⟩ := ih s0 h0 (fun k s hk hp => hstep k s (by omega) hp)
    obtain ⟨s2, e2, p2⟩ := hstep n s1 (by omega) p1
    refine ⟨s2, ?_, p2⟩
    rw [List.range_succ, List.foldlM_append, e1]
    simp [e2]

/-- Invariant rule for `for (k = a; k <= b; k++)`. -/
theorem foldlM_intRange_inv {σ : Type} (f : σ → Int → Option σ) (P : Nat → σ → Prop)
    (a b : Int) (s0 : σ) (h0 : P 0 s0)
    (hstep : ∀ (k : Nat) s, a + k ≤ b → P k s → ∃ s', f s (a + k) = some s' ∧ P (k + 1) s') :
    ∃ s', (intRange a b).foldlM f s0 = some s' ∧ P (b + 1 - a).toNat s' := by
  unfold intRange
  rw [List.foldlM_map]
  apply foldlM_range_inv (fun s k => f s (a + (k : Int))) P _ s0 h0
  intro k s hk hp
  exact hstep k s (by omega) hp

/-- A write guarded by the bounds test of its cell succeeds and keeps the shape. -/
theorem writeCell_guarded {α : Type} {g : List (List α)} {rows cols : Nat}
    (hs : Shape g rows cols) (r c : Int) (v : α) (guard : Prop) [Decidable guard]
    (hg : guard ↔ InGrid rows cols r c) :
    ∃ g', (if guard then writeCell g r c v else some g) = some g' ∧ Shape g' rows cols ∧
      ∀ i j : Int, InGrid rows cols i j →
        readCell g' i j = if i = r ∧ j = c then some v else readCell g i j := by
  by_cases h : guard
  · obtain ⟨g', e, hs', hc⟩ := writeCell_inGrid hs (hg.1 h) v
    exact ⟨g', by rw [if_pos h, e], hs', fun i j _ => hc i j⟩
  · refine ⟨g, by rw [if_neg h], hs, ?_⟩
    intro i j hij
    have : ¬ (i = r ∧ j = c) := by
      rintro ⟨rfl, rfl⟩; exact h (hg.2 hij)
    rw [if_neg this]

/-- A corner statement of `drawBoxBorder`. -/
theorem drawCorner_spec {g : List (List String)} {rows cols : Nat} (hs : Shape g rows cols)
    (row col : Int) :
    ∃ g', drawCorner cols rows row col g = some g' ∧ Shape g' rows cols ∧
      ∀ i j : Int, InGrid rows cols i j →
        readCell g' i j = if i = row ∧ j = col then some "+ " else readCell g i j := by
  unfold drawCorner
  exact writeCell_guarded hs row col "+ " _ (by unfold InGrid; constructor <;> intro h <;> exact h)

/-- The body shared by the two loops of `drawBoxBorder`: two guarded writes. -/
theorem two_writes {g : List (List String)} {rows cols : Nat} (hs : Shape g rows cols)
    (r1 c1 r2 c2 : Int) (v : String) (gd1 gd2 : Prop) [Decidable gd1] [Decidable gd2]
    (h1 : gd1 ↔ InGrid rows cols r1 c1) (h2 : gd2 ↔ InGrid rows cols r2 c2) :
    ∃ g', ((if gd1 then writeCell g r1 c1 v else some g).bind fun g1 =>
        if gd2 then writeCell g1 r2 c2 v else some g1) = some g' ∧ Shape g' rows cols ∧
      ∀ i j : Int, InGrid rows cols i j →
        readCell g' i j
          = if (i = r1 ∧ j = c1) ∨ (i = r2 ∧ j = c2) then some v else readCell g i j := by
  obtain ⟨g1, e1, s1, c1'⟩ := writeCell_guarded hs r1 c1 v gd1 h1
  obtain ⟨g2, e2, s2, c2'⟩ := writeCell_guarded s1 r2 c2 v gd2 h2
  refine ⟨g2, by rw [e1]; exact e2, s2, ?_⟩
  intro i j hij
  rw [c2' i j hij, c1' i j hij]
  split_ifs <;> first | rfl | tauto

/-- The first loop of `drawBoxBorder`. -/
theorem drawHorizontal_spec {g : List (List String)} {rows cols : Nat} (hs : Shape g rows cols)
    (startCol endCol startRow endRow : Int) :
    ∃ g', drawHorizontal cols rows startCol endCol startRow endRow g = some g' ∧
      Shape g' rows cols ∧
      ∀ i j : Int, InGrid rows cols i j →
        readCell g' i j
          = if (i = startRow ∨ i = endRow) ∧ startCol ≤ j ∧ j ≤ endCol then some "- "
            else readCell g i j := by
  unfold drawHorizontal
  obtain ⟨g', e, hs', hc⟩ := foldlM_intRange_inv (horizontalStep cols rows startRow endRow)
    (fun k g' => Shape g' rows cols ∧ ∀ i j : Int, InGrid rows cols i j →
      readCell g' i j
        = if (i = startRow ∨ i = endRow) ∧ startCol ≤ j ∧ j < startCol + k then some "- "
          else readCell g i j)
    startCol endCol g
    ⟨hs, fun i j _ => by
      have : ¬ ((i = startRow ∨ i = endRow) ∧ startCol ≤ j ∧ j < startCol + ((0 : Nat) : Int)) := by
        omega
      rw [if_neg this]⟩
    (by
      intro k g0 _ ⟨hs0, hc0⟩
      unfold horizontalStep
      by_cases hcol : startCol + (k : Int) ≥ 0 ∧ startCol + (k : Int) < (cols : Int)
      · obtain ⟨g2, e2, s2, c2⟩ := two_writes hs0 startRow (startCol + k) endRow (startCol + k)
          "- " (startRow ≥ 0 ∧ startRow < (rows : Int)) (endRow ≥ 0 ∧ endRow < (rows : Int))
          (by unfold InGrid; constructor <;> intro h <;> omega)
          (by unfold InGrid; constructor <;> intro h <;> omega)
        refine ⟨g2, by rw [if_pos hcol]; exact e2, s2, ?_⟩
        intro i j hij
        rw [c2 i j hij, hc0 i j hij]
        split_ifs <;> first | rfl | (exfalso; omega)
      · refine ⟨g0, by rw [if_neg hcol], hs0, ?_⟩
        intro i j hij
        rw [hc0 i j hij]
        have hj : j ≠ startCol + (k : Int) := by
          intro hj; apply hcol; unfold InGrid at hij; omega
        split_ifs <;> first | rfl | (exfalso; push_cast at *; omega))
  refine ⟨g', e, hs', ?_⟩
  intro i j hij
  rw [hc i j hij]
  split_ifs <;> first | rfl | (exfalso; omega)

/-- The second loop of `drawBoxBorder`. -/
theorem drawVertical_spec {g : List (List String)} {rows cols : Nat} (hs : Shape g rows cols)
    (startCol endCol startRow endRow : Int) :
    ∃ g', drawVertical cols rows startCol endCol startRow endRow g = some g' ∧
      Shape g' rows cols ∧
      ∀ i j : Int, InGrid rows cols i j →
        readCell g' i j
          = if (j = startCol ∨ j = endCol) ∧ startRow ≤ i ∧ i ≤ endRow then some "| "
            else readCell g i j := by
  unfold drawVertical
  obtain ⟨g', e, hs', hc⟩ := foldlM_intRange_inv (verticalStep cols rows startCol endCol)
    (fun k g' => Shape g' rows cols ∧ ∀ i j : Int, InGrid rows cols i j →
      readCell g' i j
        = if (j = startCol ∨ j = endCol) ∧ startRow ≤ i ∧ i < startRow + k then some "| "
          else readCell g i j)
    startRow endRow g
    ⟨hs, fun i j _ => by
      have : ¬ ((j = startCol ∨ j = endCol) ∧ startRow ≤ i ∧ i < startRow + ((0 : Nat) : Int)) := by
        omega
      rw [if_neg this]⟩
    (by
      intro k g0 _ ⟨hs0, hc0⟩
      unfold verticalStep
      by_cases hrow : startRow + (k : Int) ≥ 0 ∧ startRow + (k : Int) < (rows : Int)
      · obtain ⟨g2, e2, s2, c2⟩ := two_writes hs0 (startRow + k) startCol (startRow + k) endCol
          "| " (startCol ≥ 0 ∧ startCol < (cols : Int)) (endCol ≥ 0 ∧ endCol < (cols : Int))
          (by unfold InGrid; constructor <;> intro h <;> omega)
          (by unfold InGrid; constructor <;> intro h <;> omega)
        refine ⟨g2, by rw [if_pos hrow]; exact e2, s2, ?_⟩
        intro i j hij
        rw [c2 i j hij, hc0 i j hij]
        split_ifs <;> first | rfl | (exfalso; omega)
      · refine ⟨g0, by rw [if_neg hrow], hs0, ?_⟩
        intro i j hij
        rw [hc0 i j hij]
        have hi : i ≠ startRow + (k : Int) := by
          intro hi; apply hrow; unfold InGrid at hij; omega
        split_ifs <;> first | rfl | (exfalso; push_cast at *; omega))
  refine ⟨g', e, hs', ?_⟩
  intro i j hij
  rw [hc i j hij]
  split_ifs <;> first | rfl | (exfalso; omega)

/-- The function `drawBoxBorder` succeeds on a well-shaped grid, keeps the shape, and
leaves `borderGlyph` where that is defined and the former glyph elsewhere. -/
theorem drawBoxBorder_spec {g : List (List String)} {rows cols : Nat} (hs : Shape g rows cols)
    (charWidth charHeight : ℚ) (box : Box) :
    ∃ g', drawBoxBorder charWidth charHeight cols rows g box.x box.y box.width box.height
        = some g' ∧ Shape g' rows cols ∧
      ∀ i j : Int, InGrid rows cols i j →
        readCell g' i j = match box.border charWidth charHeight i j with
          | some v => some v
          | none => readCell g i j := by
  unfold drawBoxBorder
  simp only
  obtain ⟨g1, e1, s1, c1⟩ := drawHorizontal_spec hs ⌊jsDiv (jsSub box.x 0) charWidth⌋
    ⌊jsDiv (jsAdd (jsAdd box.x box.width) 0) charWidth⌋ ⌊jsDiv (jsSub box.y 0) charHeight⌋
    ⌊jsDiv (jsAdd (jsAdd box.y box.height) 0) charHeight⌋
  obtain ⟨g2, e2, s2, c2⟩ := drawVertical_spec s1 ⌊jsDiv (jsSub box.x 0) charWidth⌋
    ⌊jsDiv (jsAdd (jsAdd box.x box.width) 0) charWidth⌋ ⌊jsDiv (jsSub box.y 0) charHeight⌋
    ⌊jsDiv (jsAdd (jsAdd box.y box.height) 0) charHeight⌋
  obtain ⟨g3, e3, s3, c3⟩ := drawCorner_spec s2 ⌊jsDiv (jsSub box.y 0) charHeight⌋
    ⌊jsDiv (jsSub box.x 0) charWidth⌋
  obtain ⟨g4, e4, s4, c4⟩ := drawCorner_spec s3 ⌊jsDiv (jsSub box.y 0) charHeight⌋
    ⌊jsDiv (jsAdd (jsAdd box.x box.width) 0) charWidth⌋
  obtain ⟨g5, e5, s5, c5⟩ := drawCorner_spec s4 ⌊jsDiv (jsAdd (jsAdd box.y box.height) 0) charHeight⌋
    ⌊jsDiv (jsSub box.x 0) charWidth⌋
  obtain ⟨g6, e6, s6, c6⟩ := drawCorner_spec s5 ⌊jsDiv (jsAdd (jsAdd box.y box.height) 0) charHeight⌋
    ⌊jsDiv (jsAdd (jsAdd box.x box.width) 0) charWidth⌋
  refine ⟨g6, ?_, s6, ?_⟩
  · rw [e1, Option.some_bind, e2, Option.some_bind, e3, Option.some_bind, e4, Option.some_bind,
      e5, Option.some_bind, e6]
  · intro i j hij
    rw [c6 i j hij, c5 i j hij, c4 i j hij, c3 i j hij, c2 i j hij, c1 i j hij]
    unfold Box.border borderGlyph
    generalize ⌊jsDiv (jsSub box.x 0) charWidth⌋ = sc
    generalize ⌊jsDiv (jsAdd (jsAdd box.x box.width) 0) charWidth⌋ = ec
    generalize ⌊jsDiv (jsSub box.y 0) charHeight⌋ = sr
    generalize ⌊jsDiv (jsAdd (jsAdd box.y box.height) 0) charHeight⌋ = er
    split_ifs <;> first | rfl | (exfalso; omega)

/-- The border pass succeeds on a well-shaped grid, keeps the shape, and leaves at every
cell the glyph of the last box that draws there. -/
theorem borderPass_spec (charWidth charHeight : ℚ) (rows cols : Nat) (boxesList : List Box) :
    ∀ g : List (List String), Shape g rows cols →
    ∃ g', borderPass charWidth charHeight cols rows boxesList g = some g' ∧ Shape g' rows cols ∧
      ∀ i j : Int, InGrid rows cols i j →
        readCell g' i j
          = (readCell g i j).map (borderOver charWidth charHeight boxesList i j) := by
  induction boxesList with
  | nil =>
    intro g hs
    refine ⟨g, rfl, hs, ?_⟩
    intro i j hij
    obtain ⟨v, hv⟩ := readCell_inGrid hs hij
    simp [hv, borderOver]
  | cons box rest ih =>
    intro g hs
    obtain ⟨g1, e1, s1, c1⟩ := drawBoxBorder_spec hs charWidth charHeight box
    obtain ⟨g2, e2, s2, c2⟩ := ih g1 s1
    refine ⟨g2, ?_, s2, ?_⟩
    · unfold borderPass at e2 ⊢
      rw [List.foldlM_cons, e1]
      exact e2
    · intro i j hij
      obtain ⟨v, hv⟩ := readCell_inGrid hs hij
      rw [c2 i j hij, c1 i j hij, hv]
      cases hb : box.border charWidth charHeight i j <;> simp [borderOver, hb]

/-- Off every border the border pass leaves the glyph alone. -/
theorem borderOver_offBorder {charWidth charHeight : ℚ} {boxesList : List Box} {i j : Int}
    (h : offBorder charWidth charHeight boxesList i j) (cur : String) :
    borderOver charWidth charHeight boxesList i j cur = cur := by
  induction boxesList with
  | nil => rfl
  | cons box rest ih =>
    have hb : box.border charWidth charHeight i j = none := h box (List.mem_cons_self _ _)
    have hr : offBorder charWidth charHeight rest i j :=
      fun b hbm => h b (List.mem_cons_of_mem _ hbm)
    have := ih hr
    unfold borderOver at this ⊢
    rw [List.foldl_cons, hb]
    exact this

/-- Invariant rule for the nested loops over the cells: a body that turns the cell it
visits from untouched (`U`) to done (`Q`) and leaves the status of the others alone. -/
theorem forCells_inv {σ : Type} (rows cols : Nat) (body : Nat → Nat → σ → Option σ)
    (Inv : σ → Prop) (U Q : Nat → Nat → σ → Prop)
    (hbody : ∀ y x s, y < rows → x < cols → Inv s → U y x s →
      ∃ s', body y x s = some s' ∧ Inv s' ∧ Q y x s' ∧
        ∀ y' x', (y' ≠ y ∨ x' ≠ x) → (U y' x' s → U y' x' s') ∧ (Q y' x' s → Q y' x' s'))
    (s0 : σ) (h0 : Inv s0) (hU : ∀ y x, y < rows → x < cols → U y x s0) :
    ∃ s', forCells rows cols body s0 = some s' ∧ Inv s' ∧
      ∀ y x, y < rows → x < cols → Q y x s' := by
  unfold forCells
  obtain ⟨s', e, hi, hq, -⟩ := foldlM_range_inv
    (fun st (y : Nat) => (List.range cols).foldlM (fun st (x : Nat) => body y x st) st)
    (fun n s => Inv s ∧ (∀ y x, y < n → x < cols → Q y x s) ∧
      (∀ y x, n ≤ y → y < rows → x < cols → U y x s))
    rows s0 ⟨h0, fun y x hy _ => absurd hy (Nat.not_lt_zero _), fun y x _ hy hx => hU y x hy hx⟩
    (by
      intro y s hy ⟨hi, hq, hu⟩
      obtain ⟨s', e, hi', hq', hu'⟩ := foldlM_range_inv
        (fun st (x : Nat) => body y x st)
        (fun m s => Inv s ∧
          (∀ y' x', (y' < y ∨ (y' = y ∧ x' < m)) → x' < cols → Q y' x' s) ∧
          (∀ y' x', (y < y' ∨ (y' = y ∧ m ≤ x')) → y' < rows → x' < cols → U y' x' s))
        cols s
        ⟨hi, fun y' x' h hx => hq y' x' (by omega) hx,
          fun y' x' h hy' hx => hu y' x' (by omega) hy' hx⟩
        (by
          intro x s1 hx ⟨hi1, hq1, hu1⟩
          obtain ⟨s2, e2, hi2, hq2, hrest⟩ := hbody y x s1 hy hx hi1
            (hu1 y x (Or.inr ⟨rfl, le_refl _⟩) hy hx)
          refine ⟨s2, e2, hi2, ?_, ?_⟩
          · intro y' x' h hx'
            by_cases hc : y' = y ∧ x' = x
            · rw [hc.1, hc.2]; exact hq2
            · exact (hrest y' x' (by omega)).2 (hq1 y' x' (by omega) hx')
          · intro y' x' h hy' hx'
            exact (hrest y' x' (by omega)).1 (hu1 y' x' (by omega) hy' hx'))
      refine ⟨s', e, hi', ?_, ?_⟩
      · intro y' x' hy' hx'
        exact hq' y' x' (by omega) hx'
      · intro y' x' hy' hy'' hx'
        exact hu' y' x' (by omega) hy'' hx')
  exact ⟨s', e, hi, fun y x hy hx => hq y x hy hx⟩

theorem inGrid_ofNat {rows cols y x : Nat} (hy : y < rows) (hx : x < cols) :
    InGrid rows cols (y : Int) (x : Int) := by
  unfold InGrid; omega

theorem inGrid_toNat {rows cols : Nat} {i j : Int} (h : InGrid rows cols i j) :
    i.toNat < rows ∧ j.toNat < cols ∧ ((i.toNat : Nat) : Int) = i ∧ ((j.toNat : Nat) : Int) = j := by
  unfold InGrid at h; omega

/-- The first pass of `updateGrid`. -/
theorem fillPass_spec {g : List (List String)} {rows cols : Nat} (hs : Shape g rows cols)
    (charWidth charHeight : ℚ) (boxesList : List Box) :
    ∃ g', fillPass charWidth charHeight cols rows boxesList g = some g' ∧ Shape g' rows cols ∧
      ∀ i j : Int, InGrid rows cols i j →
        readCell g' i j
          = some (if centreInside charWidth charHeight boxesList i j then "  " else ". ") := by
  unfold fillPass
  obtain ⟨g', e, hs', hq⟩ := forCells_inv rows cols (fillCell charWidth charHeight boxesList)
    (fun g' => Shape g' rows cols) (fun _ _ _ => True)
    (fun y x g' => readCell g' (y : Int) (x : Int)
      = some (if centreInside charWidth charHeight boxesList y x then "  " else ". "))
    (by
      intro y x g0 hy hx hs0 _
      obtain ⟨g1, e1, s1, c1⟩ := writeCell_inGrid hs0 (inGrid_ofNat hy hx)
        (if centreInside charWidth charHeight boxesList y x then "  " else ". ")
      refine ⟨g1, ?_, s1, ?_, ?_⟩
      · rw [← e1]
        unfold fillCell centreInside
        split_ifs <;> rfl
      · show readCell g1 (y : Int) (x : Int) = _
        rw [c1]; simp
      · intro y' x' hne
        refine ⟨fun _ => trivial, ?_⟩
        intro hq
        show readCell g1 (y' : Int) (x' : Int) = _
        rw [c1, if_neg (by omega)]
        exact hq)
    g hs (fun _ _ _ _ => trivial)
  refine ⟨g', e, hs', ?_⟩
  intro i j hij
  obtain ⟨hi, hj, ei, ej⟩ := inGrid_toNat hij
  have := hq i.toNat j.toNat hi hj
  rw [ei, ej] at this
  exact this

/-- The second pass of `updateGrid`. -/
theorem stampPass_spec {g : List (List String)} {t : List (List Int)} {rows cols : Nat}
    (hg : Shape g rows cols) (ht : Shape t rows cols)
    (charWidth charHeight : ℚ) (boxesList : List Box) (mouseX mouseY : ℚ) (now : Int) :
    ∃ gt', stampPass charWidth charHeight cols rows boxesList mouseX mouseY now (g, t) = some gt' ∧
      Shape gt'.1 rows cols ∧ Shape gt'.2 rows cols ∧
      ∀ i j : Int, InGrid rows cols i j →
        (readCell gt'.1 i j
          = if pointerCell charWidth charHeight mouseX mouseY i j ∧
                centreInside charWidth charHeight boxesList i j = false
            then some "* " else readCell g i j) ∧
        (readCell gt'.2 i j
          = if pointerCell charWidth charHeight mouseX mouseY i j ∧
                centreInside charWidth charHeight boxesList i j = false
            then some now else readCell t i j) := by
  unfold stampPass
  by_cases hm : mouseX ≥ 0 ∧ mouseY ≥ 0
  · rw [if_pos hm]
    simp only
    by_cases hr : ⌊jsDiv mouseY charHeight⌋ ≥ 0 ∧ ⌊jsDiv mouseY charHeight⌋ < (rows : Int) ∧
        ⌊jsDiv mouseX charWidth⌋ ≥ 0 ∧ ⌊jsDiv mouseX charWidth⌋ < (cols : Int)
    · rw [if_pos hr]
      cases hins : isInsideBox boxesList (pixelX charWidth ⌊jsDiv mouseX charWidth⌋)
          (pixelY charHeight ⌊jsDiv mouseY charHeight⌋)
      · obtain ⟨g1, e1, s1, c1⟩ := writeCell_inGrid hg (show InGrid rows cols _ _ from hr) "* "
        obtain ⟨t1, e2, s2, c2⟩ := writeCell_inGrid ht (show InGrid rows cols _ _ from hr) now
        refine ⟨(g1, t1), by simp [e1, e2], s1, s2, ?_⟩
        intro i j hij
        simp only [c1, c2]
        unfold pointerCell centreInside
        by_cases hc : i = ⌊jsDiv mouseY charHeight⌋ ∧ j = ⌊jsDiv mouseX charWidth⌋
        · obtain ⟨rfl, rfl⟩ := hc
          simp [hins, hm.1, hm.2]
        · have : ¬ (⌊jsDiv mouseY charHeight⌋ = i ∧ ⌊jsDiv mouseX charWidth⌋ = j) := by
            rintro ⟨rfl, rfl⟩; exact hc ⟨rfl, rfl⟩
          rw [if_neg hc, if_neg hc, if_neg (by tauto), if_neg (by tauto)]
          exact ⟨rfl, rfl⟩
      · refine ⟨(g, t), by simp, hg, ht, ?_⟩
        intro i j hij
        have : ¬ (pointerCell charWidth charHeight mouseX mouseY i j ∧
            centreInside charWidth charHeight boxesList i j = false) := by
          unfold pointerCell centreInside
          rintro ⟨⟨-, -, rfl, rfl⟩, h⟩
          rw [hins] at h
          exact Bool.noConfusion h
        rw [if_neg this, if_neg this]
        exact ⟨rfl, rfl⟩
    · rw [if_neg hr]
      refine ⟨(g, t), rfl, hg, ht, ?_⟩
      intro i j hij
      have : ¬ (pointerCell charWidth charHeight mouseX mouseY i j ∧
          centreInside charWidth charHeight boxesList i j = false) := by
        unfold pointerCell
        rintro ⟨⟨-, -, rfl, rfl⟩, -⟩
        exact hr ⟨hij.1, hij.2.1, hij.2.2.1, hij.2.2.2⟩
      rw [if_neg this, if_neg this]
      exact ⟨rfl, rfl⟩
  · rw [if_neg hm]
    refine ⟨(g, t), rfl, hg, ht, ?_⟩
    intro i j hij
    have : ¬ (pointerCell charWidth charHeight mouseX mouseY i j ∧
        centreInside charWidth charHeight boxesList i j = false) := by
      unfold pointerCell
      rintro ⟨⟨h1, h2, -, -⟩, -⟩
      exact hm ⟨h1, h2⟩
    rw [if_neg this, if_neg this]
    exact ⟨rfl, rfl⟩

/-- The body of the third pass of `updateGrid` at a cell of the grid. -/
theorem decayCell_spec {gt : List (List String) × List (List Int)} {rows cols : Nat}
    (hg : Shape gt.1 rows cols) (ht : Shape gt.2 rows cols)
    (charWidth charHeight : ℚ) (boxesList : List Box) (now : Int) {y x : Nat}
    (hy : y < rows) (hx : x < cols) (cur : String) (ts : Int)
    (hcur : readCell gt.1 (y : Int) (x : Int) = some cur)
    (hts : readCell gt.2 (y : Int) (x : Int) = some ts) :
    ∃ gt', decayCell charWidth charHeight boxesList now y x gt = some gt' ∧
      Shape gt'.1 rows cols ∧ Shape gt'.2 rows cols ∧
      (∀ i j : Int, readCell gt'.1 i j
        = if i = (y : Int) ∧ j = (x : Int) then
            some (if ts > 0 ∧ now - ts ≤ trailDuration ∧
              centreInside charWidth charHeight boxesList y x = false ∧ cur = ". "
              then "* " else cur)
          else readCell gt.1 i j) ∧
      (∀ i j : Int, readCell gt'.2 i j
        = if i = (y : Int) ∧ j = (x : Int) then
            some (if ts > 0 ∧ ¬ (now - ts ≤ trailDuration ∧
              centreInside charWidth charHeight boxesList y x = false) then 0 else ts)
          else readCell gt.2 i j) := by
  have keepG : ∀ i j : Int, readCell gt.1 i j
      = if i = (y : Int) ∧ j = (x : Int) then some cur else readCell gt.1 i j := by
    intro i j
    split_ifs with h
    · rw [h.1, h.2, hcur]
    · rfl
  have keepT : ∀ i j : Int, readCell gt.2 i j
      = if i = (y : Int) ∧ j = (x : Int) then some ts else readCell gt.2 i j := by
    intro i j
    split_ifs with h
    · rw [h.1, h.2, hts]
    · rfl
  unfold decayCell
  rw [hts, Option.some_bind]
  by_cases h0 : ts > 0
  · rw [if_pos h0]
    simp only
    by_cases h1 : now - ts ≤ trailDuration ∧
        (!isInsideBox boxesList (pixelX charWidth x) (pixelY charHeight y)) = true
    · rw [if_pos h1, hcur, Option.some_bind]
      have hin : centreInside charWidth charHeight boxesList y x = false := by
        unfold centreInside; simpa using h1.2
      have et : (if ts > 0 ∧ ¬ (now - ts ≤ trailDuration ∧
          centreInside charWidth charHeight boxesList y x = false) then (0 : Int) else ts) = ts :=
        if_neg (fun h => h.2 ⟨h1.1, hin⟩)
      by_cases h2 : cur = ". "
      · obtain ⟨g1, e1, s1, c1⟩ := writeCell_inGrid hg (inGrid_ofNat hy hx) "* "
        have eg : (if ts > 0 ∧ now - ts ≤ trailDuration ∧
            centreInside charWidth charHeight boxesList y x = false ∧ cur = ". "
            then "* " else cur) = "* " := if_pos ⟨h0, h1.1, hin, h2⟩
        refine ⟨(g1, gt.2), by rw [if_pos h2, e1]; rfl, s1, ht, ?_, ?_⟩
        · intro i j
          rw [eg]; exact c1 i j
        · intro i j
          rw [et]; exact keepT i j
      · have eg : (if ts > 0 ∧ now - ts ≤ trailDuration ∧
            centreInside charWidth charHeight boxesList y x = false ∧ cur = ". "
            then "* " else cur) = cur := if_neg (fun h => h2 h.2.2.2)
        refine ⟨gt, by rw [if_neg h2], hg, ht, ?_, ?_⟩
        · intro i j
          rw [eg]; exact keepG i j
        · intro i j
          rw [et]; exact keepT i j
    · rw [if_neg h1]
      have hin : ¬ (now - ts ≤ trailDuration ∧
          centreInside charWidth charHeight boxesList y x = false) := by
        unfold centreInside
        intro h
        apply h1
        refine ⟨h.1, ?_⟩
        rw [h.2]; rfl
      have eg : (if ts > 0 ∧ now - ts ≤ trailDuration ∧
          centreInside charWidth charHeight boxesList y x = false ∧ cur = ". "
          then "* " else cur) = cur := if_neg (fun h => hin ⟨h.2.1, h.2.2.1⟩)
      have et : (if ts > 0 ∧ ¬ (now - ts ≤ trailDuration ∧
          centreInside charWidth charHeight boxesList y x = false) then (0 : Int) else ts) = 0 :=
        if_pos ⟨h0, hin⟩
      obtain ⟨t1, e1, s1, c1⟩ := writeCell_inGrid ht (inGrid_ofNat hy hx) (0 : Int)
      refine ⟨(gt.1, t1), by rw [e1]; rfl, hg, s1, ?_, ?_⟩
      · intro i j
        rw [eg]; exact keepG i j
      · intro i j
        rw [et]; exact c1 i j
  · rw [if_neg h0]
    have eg : (if ts > 0 ∧ now - ts ≤ trailDuration ∧
        centreInside charWidth charHeight boxesList y x = false ∧ cur = ". "
        then "* " else cur) = cur := if_neg (fun h => h0 h.1)
    have et : (if ts > 0 ∧ ¬ (now - ts ≤ trailDuration ∧
        centreInside charWidth charHeight boxesList y x = false) then (0 : Int) else ts) = ts :=
      if_neg (fun h => h0 h.1)
    refine ⟨gt, rfl, hg, ht, ?_, ?_⟩
    · intro i j
      rw [eg]; exact keepG i j
    · intro i j
      rw [et]; exact keepT i j

/-- The third pass of `updateGrid`. -/
theorem decayPass_spec {gt : List (List String) × List (List Int)} {rows cols : Nat}
    (hg : Shape gt.1 rows cols) (ht : Shape gt.2 rows cols)
    (charWidth charHeight : ℚ) (boxesList : List Box) (now : Int) :
    ∃ gt', decayPass charWidth charHeight cols rows boxesList now gt = some gt' ∧
      Shape gt'.1 rows cols ∧ Shape gt'.2 rows cols ∧
      ∀ (i j : Int) (cur : String) (ts : Int), InGrid rows cols i j →
        readCell gt.1 i j = some cur → readCell gt.2 i j = some ts →
        readCell gt'.1 i j
          = some (if ts > 0 ∧ now - ts ≤ trailDuration ∧
              centreInside charWidth charHeight boxesList i j = false ∧ cur = ". "
              then "* " else cur) ∧
        readCell gt'.2 i j
          = some (if ts > 0 ∧ ¬ (now - ts ≤ trailDuration ∧
              centreInside charWidth charHeight boxesList i j = false) then 0 else ts) := by
  unfold decayPass
  obtain ⟨gt', e, ⟨hg', ht'⟩, hq⟩ := forCells_inv rows cols
    (decayCell charWidth charHeight boxesList now)
    (fun s => Shape s.1 rows cols ∧ Shape s.2 rows cols)
    (fun y x s => readCell s.1 (y : Int) (x : Int) = readCell gt.1 (y : Int) (x : Int) ∧
      readCell s.2 (y : Int) (x : Int) = readCell gt.2 (y : Int) (x : Int))
    (fun y x s => ∀ (cur : String) (ts : Int),
      readCell gt.1 (y : Int) (x : Int) = some cur → readCell gt.2 (y : Int) (x : Int) = some ts →
      readCell s.1 (y : Int) (x : Int)
        = some (if ts > 0 ∧ now - ts ≤ trailDuration ∧
            centreInside charWidth charHeight boxesList y x = false ∧ cur = ". "
            then "* " else cur) ∧
      readCell s.2 (y : Int) (x : Int)
        = some (if ts > 0 ∧ ¬ (now - ts ≤ trailDuration ∧
            centreInside charWidth charHeight boxesList y x = false) then 0 else ts))
    (by
      intro y x s hy hx ⟨hsg, hst⟩ ⟨hu1, hu2⟩
      obtain ⟨cur, hcur⟩ := readCell_inGrid hsg (inGrid_ofNat hy hx)
      obtain ⟨ts, hts⟩ := readCell_inGrid hst (inGrid_ofNat hy hx)
      obtain ⟨s', e, sg', st', cg, ct⟩ := decayCell_spec hsg hst charWidth charHeight boxesList
        now hy hx cur ts hcur hts
      refine ⟨s', e, ⟨sg', st'⟩, ?_, ?_⟩
      · intro cur0 ts0 h1 h2
        have ec : cur0 = cur := by
          rw [← hu1, hcur] at h1; exact (Option.some.inj h1).symm
        have et : ts0 = ts := by
          rw [← hu2, hts] at h2; exact (Option.some.inj h2).symm
        subst ec; subst et
        constructor
        · show readCell s'.1 (y : Int) (x : Int) = _
          rw [cg, if_pos ⟨rfl, rfl⟩]
        · show readCell s'.2 (y : Int) (x : Int) = _
          rw [ct, if_pos ⟨rfl, rfl⟩]
      · intro y' x' hne
        have hn : ¬ ((y' : Int) = (y : Int) ∧ (x' : Int) = (x : Int)) := by omega
        constructor
        · rintro ⟨a, b⟩
          constructor
          · show readCell s'.1 (y' : Int) (x' : Int) = _
            rw [cg, if_neg hn]; exact a
          · show readCell s'.2 (y' : Int) (x' : Int) = _
            rw [ct, if_neg hn]; exact b
        · intro hq cur0 ts0 h1 h2
          obtain ⟨a, b⟩ := hq cur0 ts0 h1 h2
          constructor
          · show readCell s'.1 (y' : Int) (x' : Int) = _
            rw [cg, if_neg hn]; exact a
          · show readCell s'.2 (y' : Int) (x' : Int) = _
            rw [ct, if_neg hn]; exact b)
    gt ⟨hg, ht⟩ (fun _ _ _ _ => ⟨rfl, rfl⟩)
  refine ⟨gt', e, hg', ht', ?_⟩
  intro i j cur ts hij h1 h2
  obtain ⟨hi, hj, ei, ej⟩ := inGrid_toNat hij
  have := hq i.toNat j.toNat hi hj cur ts (by rw [ei, ej]; exact h1) (by rw [ei, ej]; exact h2)
  rw [ei, ej] at this
  exact this

/-- The glyph after the decay pass, from the glyph and timestamp after the stamp pass. -/
theorem trailGlyph_eq (s : State) (now : Int) (i j : Int) (ts : Int) :
    (if stampedTime s now i j ts > 0 ∧ now - stampedTime s now i j ts ≤ trailDuration ∧
        centreInside s.charWidth s.charHeight s.boxesList i j = false ∧
        (if pointerCell s.charWidth s.charHeight s.mouseX s.mouseY i j ∧
            centreInside s.charWidth s.charHeight s.boxesList i j = false then "* "
          else if centreInside s.charWidth s.charHeight s.boxesList i j then "  " else ". ")
          = ". "
      then "* "
      else (if pointerCell s.charWidth s.charHeight s.mouseX s.mouseY i j ∧
            centreInside s.charWidth s.charHeight s.boxesList i j = false then "* "
          else if centreInside s.charWidth s.charHeight s.boxesList i j then "  " else ". "))
      = trailGlyph s now i j ts := by
  unfold trailGlyph stampedTime
  cases hin : centreInside s.charWidth s.charHeight s.boxesList i j
  · by_cases hp : pointerCell s.charWidth s.charHeight s.mouseX s.mouseY i j
    · simp [hp]
    · by_cases ht : ts > 0 ∧ now - ts ≤ trailDuration
      · simp [hp, ht.1, ht.2]
      · simp only [hp, false_and, if_false, Bool.false_eq_true, and_true, true_and]
  · simp

/-- The function `updateGrid` on a well-formed state: it succeeds, touches only the grid
and the timestamps, keeps them well-formed, and leaves `cellGlyph` and `cellTime` at
every cell. -/
theorem updateGrid_spec (s : State) (now : Int) (hwf : s.WellFormed) :
    ∃ s', updateGrid s now = some s' ∧
      s' = { s with grid := s'.grid, gridTimestamps := s'.gridTimestamps } ∧
      s'.WellFormed ∧
      ∀ (i j : Int) (ts : Int), InGrid s.rows s.cols i j →
        readCell s.gridTimestamps i j = some ts →
        readCell s'.grid i j = some (cellGlyph s now i j ts) ∧
        readCell s'.gridTimestamps i j = some (cellTime s now i j ts) := by
  obtain ⟨g1, e1, s1, c1⟩ := fillPass_spec hwf.2.2.1 s.charWidth s.charHeight s.boxesList
  obtain ⟨gt2, e2, sg2, st2, c2⟩ := stampPass_spec s1 hwf.2.2.2 s.charWidth s.charHeight s.boxesList
    s.mouseX s.mouseY now
  obtain ⟨gt3, e3, sg3, st3, c3⟩ := decayPass_spec sg2 st2 s.charWidth s.charHeight s.boxesList now
  obtain ⟨g4, e4, s4, c4⟩ := borderPass_spec s.charWidth s.charHeight s.rows s.cols s.boxesList
    gt3.1 sg3
  refine ⟨{ s with grid := g4, gridTimestamps := gt3.2 }, ?_, rfl, ⟨hwf.1, hwf.2.1, s4, st3⟩, ?_⟩
  · unfold updateGrid
    rw [e1, Option.some_bind, e2, Option.some_bind, e3, Option.some_bind, e4, Option.some_bind]
  · intro i j ts hij hts
    obtain ⟨a2, b2⟩ := c2 i j hij
    rw [c1 i j hij] at a2
    rw [hts] at b2
    have a2' : readCell gt2.1 i j
        = some (if pointerCell s.charWidth s.charHeight s.mouseX s.mouseY i j ∧
            centreInside s.charWidth s.charHeight s.boxesList i j = false then "* "
          else if centreInside s.charWidth s.charHeight s.boxesList i j then "  " else ". ") := by
      rw [a2]; split_ifs <;> rfl
    have b2' : readCell gt2.2 i j = some (stampedTime s now i j ts) := by
      rw [b2]; unfold stampedTime; split_ifs <;> rfl
    obtain ⟨a3, b3⟩ := c3 i j _ _ hij a2' b2'
    constructor
    · show readCell g4 i j = _
      rw [c4 i j hij, a3, trailGlyph_eq]
      rfl
    · show readCell gt3.2 i j = _
      rw [b3]
      unfold cellTime
      congr 1
      split_ifs <;> first | rfl | (exfalso; tauto)

/-! ## Grid store -/

theorem shape_const {α : Type} (rows cols : Nat) (v : α) :
    Shape ((List.range rows).map (fun _ => (List.range cols).map (fun _ => v))) rows cols := by
  refine ⟨by simp, ?_⟩
  intro row hrow
  rw [List.mem_map] at hrow
  obtain ⟨_, _, rfl⟩ := hrow
  simp

theorem readCell_const {α : Type} (rows cols : Nat) (v : α) {i j : Int}
    (h : InGrid rows cols i j) :
    readCell ((List.range rows).map (fun _ => (List.range cols).map (fun _ => v))) i j
      = some v := by
  obtain ⟨hi, hj, -, -⟩ := inGrid_toNat h
  unfold readCell
  rw [if_pos ⟨h.1, h.2.2.1⟩]
  simp [hi, hj]

/-- The function `initGrid` establishes well-formedness, for a positive cell size. -/
theorem initGrid_wellFormed (s : State) (innerWidth innerHeight charWidth charHeight : ℚ)
    (hw : 0 < charWidth) (hh : 0 < charHeight) :
    (initGrid s innerWidth innerHeight charWidth charHeight).WellFormed :=
  ⟨hw, hh, shape_const _ _ _, shape_const _ _ _⟩

theorem smallGrid_wellFormed (box : Box) : (smallGrid box).WellFormed :=
  initGrid_wellFormed initialState 30 30 10 10 (by norm_num) (by norm_num)

theorem smallGrid_rows (box : Box) : (smallGrid box).rows = 3 := by
  show ⌈jsDiv 30 10⌉.toNat = 3
  rw [jsDiv_int 30 10 3 (by norm_num) (by norm_num), Int.ceil_intCast]
  rfl

theorem smallGrid_cols (box : Box) : (smallGrid box).cols = 3 := by
  show ⌈jsDiv 30 10⌉.toNat = 3
  rw [jsDiv_int 30 10 3 (by norm_num) (by norm_num), Int.ceil_intCast]
  rfl

theorem smallGrid_inGrid (box : Box) {i j : Int} (hi : 0 ≤ i ∧ i < 3) (hj : 0 ≤ j ∧ j < 3) :
    InGrid (smallGrid box).rows (smallGrid box).cols i j := by
  rw [smallGrid_rows, smallGrid_cols]
  unfold InGrid
  omega

theorem smallGrid_time (box : Box) {i j : Int} (hi : 0 ≤ i ∧ i < 3) (hj : 0 ≤ j ∧ j < 3) :
    readCell (smallGrid box).gridTimestamps i j = some 0 :=
  readCell_const _ _ _ (smallGrid_inGrid box hi hj)

/-! ## Border glyphs -/

/-- A border glyph: horizontal, vertical or corner. -/
theorem borderGlyph_cases {startCol endCol startRow endRow i j : Int} {v : String}
    (h : borderGlyph startCol endCol startRow endRow i j = some v) :
    v = "- " ∨ v = "| " ∨ v = "+ " := by
  unfold borderGlyph at h
  split_ifs at h <;> simp at h <;> simp [← h]

/-- Borders drawn over a border glyph leave a border glyph. -/
theorem borderOver_border (charWidth charHeight : ℚ) (boxesList : List Box) (i j : Int) :
    ∀ cur : String, (cur = "- " ∨ cur = "| " ∨ cur = "+ ") →
      (borderOver charWidth charHeight boxesList i j cur = "- " ∨
        borderOver charWidth charHeight boxesList i j cur = "| " ∨
        borderOver charWidth charHeight boxesList i j cur = "+ ") := by
  induction boxesList with
  | nil => intro cur h; exact h
  | cons box rest ih =>
    intro cur h
    unfold borderOver
    rw [List.foldl_cons]
    apply ih
    cases hb : box.border charWidth charHeight i j with
    | none => simpa using h
    | some v => simpa using borderGlyph_cases hb

/-- A cell on the border of some box ends with a border glyph. -/
theorem borderOver_onBorder (charWidth charHeight : ℚ) (boxesList : List Box) (i j : Int) :
    ∀ cur : String, ¬ offBorder charWidth charHeight boxesList i j →
      (borderOver charWidth charHeight boxesList i j cur = "- " ∨
        borderOver charWidth charHeight boxesList i j cur = "| " ∨
        borderOver charWidth charHeight boxesList i j cur = "+ ") := by
  induction boxesList with
  | nil => intro cur h; exact absurd (fun _ hb => absurd hb (List.not_mem_nil _)) h
  | cons box rest ih =>
    intro cur h
    unfold borderOver
    rw [List.foldl_cons]
    cases hb : box.border charWidth charHeight i j with
    | none =>
      apply ih
      intro hoff
      apply h
      intro b hbm
      rcases List.mem_cons.1 hbm with rfl | hm
      · exact hb
      · exact hoff b hm
    | some v =>
      exact borderOver_border charWidth charHeight rest i j _ (by simpa using borderGlyph_cases hb)

/-! ## Occlusion: cells inside and outside the boxes -/

theorem alignedBox_floors :
    ⌊jsDiv (jsSub 0 0) 10⌋ = 0 ∧ ⌊jsDiv (jsAdd (jsAdd 0 25) 0) 10⌋ = 2 := by
  have e1 : jsSub 0 0 = 0 := by simpa using jsSub_int 0 0 0 (by norm_num) (by norm_num)
  have e2 : jsAdd 0 25 = 25 := by simpa using jsAdd_int 0 25 25 (by norm_num) (by norm_num)
  have e3 : jsAdd 25 0 = 25 := by simpa using jsAdd_int 25 0 25 (by norm_num) (by norm_num)
  have e4 : jsDiv 0 10 = 0 := by simpa using jsDiv_int 0 10 0 (by norm_num) (by norm_num)
  rw [e1, e2, e3, e4]
  exact ⟨by simp, floor_jsDiv (by norm_num [abs_of_pos]) (by norm_num [abs_of_pos])⟩

theorem offsetBox_floors :
    ⌊jsDiv (jsSub 8 0) 10⌋ = 0 ∧ ⌊jsDiv (jsAdd (jsAdd 8 10) 0) 10⌋ = 1 := by
  have e1 : jsSub 8 0 = 8 := by simpa using jsSub_int 8 0 8 (by norm_num) (by norm_num)
  have e2 : jsAdd 8 10 = 18 := by simpa using jsAdd_int 8 10 18 (by norm_num) (by norm_num)
  have e3 : jsAdd 18 0 = 18 := by simpa using jsAdd_int 18 0 18 (by norm_num) (by norm_num)
  rw [e1, e2, e3]
  exact ⟨floor_jsDiv (by norm_num [abs_of_pos]) (by norm_num [abs_of_pos]),
    floor_jsDiv (by norm_num [abs_of_pos]) (by norm_num [abs_of_pos])⟩

theorem alignedBox_edges :
    jsAdd alignedBox.x alignedBox.width = 25 ∧ jsAdd alignedBox.y alignedBox.height = 25 := by
  have e : jsAdd 0 25 = 25 := by simpa using jsAdd_int 0 25 25 (by norm_num) (by norm_num)
  exact ⟨e, e⟩

theorem offsetBox_edges :
    jsAdd offsetBox.x offsetBox.width = 18 ∧ jsAdd offsetBox.y offsetBox.height = 18 := by
  have e : jsAdd 8 10 = 18 := by simpa using jsAdd_int 8 10 18 (by norm_num) (by norm_num)
  exact ⟨e, e⟩

theorem alignedBox_border_corner : alignedBox.border 10 10 0 0 = some "+ " := by
  simp only [Box.border, alignedBox, alignedBox_floors.1, alignedBox_floors.2]
  decide

theorem alignedBox_border_middle : alignedBox.border 10 10 1 1 = none := by
  simp only [Box.border, alignedBox, alignedBox_floors.1, alignedBox_floors.2]
  decide

theorem offsetBox_border_corner : offsetBox.border 10 10 0 0 = some "+ " := by
  simp only [Box.border, offsetBox, offsetBox_floors.1, offsetBox_floors.2]
  decide

theorem offsetBox_border_far : offsetBox.border 10 10 2 2 = none := by
  simp only [Box.border, offsetBox, offsetBox_floors.1, offsetBox_floors.2]
  decide

theorem centreInside_single (cw ch : ℚ) (box : Box) (i j : Int) :
    centreInside cw ch [box] i j = true ↔
      (box.x ≤ pixelX cw j ∧ pixelX cw j ≤ jsAdd box.x box.width) ∧
        box.y ≤ pixelY ch i ∧ pixelY ch i ≤ jsAdd box.y box.height := by
  simp [centreInside, isInsideBox, Box.contains, and_assoc]

/-- C1 (as stated) fails: the centre of cell `(0, 0)` lies inside the box, and the frame
leaves the corner glyph there, not the blank. -/
theorem inside_box_border_wins :
    ∃ s', updateGrid (smallGrid alignedBox) 0 = some s' ∧
      centreInside 10 10 [alignedBox] 0 0 = true ∧
      readCell s'.grid 0 0 = some "+ " := by
  obtain ⟨s', e, -, -, hc⟩ := updateGrid_spec (smallGrid alignedBox) 0 (smallGrid_wellFormed _)
  obtain ⟨hg, -⟩ := hc 0 0 0 (smallGrid_inGrid _ (by omega) (by omega))
    (smallGrid_time _ (by omega) (by omega))
  refine ⟨s', e, ?_, ?_⟩
  · rw [centreInside_single, pixelX_ten 0 (by norm_num), pixelY_ten 0 (by norm_num),
      alignedBox_edges.1, alignedBox_edges.2]
    norm_num [alignedBox]
  · rw [hg]
    show some (borderOver 10 10 [alignedBox] 0 0 _) = _
    simp [borderOver, alignedBox_border_corner]

/-- C1 (amended): after a frame, a cell whose centre lies inside a box holds the blank
when it is on the border of no box, and a border glyph when it is on one. -/
theorem inside_box_blank (s : State) (now : Int) (hwf : s.WellFormed) :
    ∃ s', updateGrid s now = some s' ∧
      ∀ i j : Int, InGrid s.rows s.cols i j →
        centreInside s.charWidth s.charHeight s.boxesList i j = true →
        (offBorder s.charWidth s.charHeight s.boxesList i j → readCell s'.grid i j = some "  ") ∧
        (¬ offBorder s.charWidth s.charHeight s.boxesList i j →
          readCell s'.grid i j = some "- " ∨ readCell s'.grid i j = some "| " ∨
            readCell s'.grid i j = some "+ ") := by
  obtain ⟨s', e, -, -, hc⟩ := updateGrid_spec s now hwf
  refine ⟨s', e, ?_⟩
  intro i j hij hin
  obtain ⟨ts, hts⟩ := readCell_inGrid hwf.2.2.2 hij
  obtain ⟨hg, -⟩ := hc i j ts hij hts
  rw [hg]
  constructor
  · intro hoff
    unfold cellGlyph
    rw [borderOver_offBorder hoff]
    unfold trailGlyph
    rw [if_pos hin]
  · intro hon
    unfold cellGlyph
    rcases borderOver_onBorder s.charWidth s.charHeight s.boxesList i j
      (trailGlyph s now i j ts) hon with h | h | h
    · left; rw [h]
    · right; left; rw [h]
    · right; right; rw [h]

/-- C1 (amended), instance: the middle cell of the `3 x 3` grid under the aligned box. -/
theorem inside_box_blank_witness :
    (smallGrid alignedBox).WellFormed ∧
    ∃ s', updateGrid (smallGrid alignedBox) 0 = some s' ∧ readCell s'.grid 1 1 = some "  " := by
  obtain ⟨s', e, h⟩ := inside_box_blank (smallGrid alignedBox) 0 (smallGrid_wellFormed _)
  refine ⟨smallGrid_wellFormed _, s', e, ?_⟩
  refine (h 1 1 (smallGrid_inGrid _ (by omega) (by omega)) ?_).1 ?_
  · show centreInside 10 10 [alignedBox] 1 1 = true
    rw [centreInside_single, pixelX_ten 1 (by norm_num), pixelY_ten 1 (by norm_num),
      alignedBox_edges.1, alignedBox_edges.2]
    norm_num [alignedBox]
  · intro box hb
    have : box = alignedBox := by simpa [smallGrid] using hb
    rw [this]
    exact alignedBox_border_middle

/-- C4 (as stated) fails: the centre of cell `(0, 0)` lies outside the box, the pointer
is absent and the timestamp is `0`, and the frame leaves the corner glyph there. -/
theorem outside_box_border_wins :
    ∃ s', updateGrid (smallGrid offsetBox) 0 = some s' ∧
      centreInside 10 10 [offsetBox] 0 0 = false ∧
      ¬ pointerCell 10 10 (smallGrid offsetBox).mouseX (smallGrid offsetBox).mouseY 0 0 ∧
      readCell (smallGrid offsetBox).gridTimestamps 0 0 = some 0 ∧
      readCell s'.grid 0 0 = some "+ " := by
  obtain ⟨s', e, -, -, hc⟩ := updateGrid_spec (smallGrid offsetBox) 0 (smallGrid_wellFormed _)
  obtain ⟨hg, -⟩ := hc 0 0 0 (smallGrid_inGrid _ (by omega) (by omega))
    (smallGrid_time _ (by omega) (by omega))
  refine ⟨s', e, ?_, ?_, smallGrid_time _ (by omega) (by omega), ?_⟩
  · rw [← Bool.not_eq_true, centreInside_single, pixelX_ten 0 (by norm_num),
      pixelY_ten 0 (by norm_num), offsetBox_edges.1, offsetBox_edges.2]
    norm_num [offsetBox]
  · rintro ⟨h, -⟩
    norm_num [smallGrid, initGrid, initialState] at h
  · rw [hg]
    show some (borderOver 10 10 [offsetBox] 0 0 _) = _
    simp [borderOver, offsetBox_border_corner]

/-- C4 (amended): after a frame, a cell whose centre lies outside every box, which is not
the pointer's cell, whose timestamp is `0` or older than the trail window, and which is
on the border of no box, holds the background glyph. -/
theorem outside_box_background (s : State) (now : Int) (hwf : s.WellFormed) :
    ∃ s', updateGrid s now = some s' ∧
      ∀ (i j : Int) (ts : Int), InGrid s.rows s.cols i j →
        readCell s.gridTimestamps i j = some ts →
        centreInside s.charWidth s.charHeight s.boxesList i j = false →
        ¬ pointerCell s.charWidth s.charHeight s.mouseX s.mouseY i j →
        (ts = 0 ∨ now - ts > trailDuration) →
        offBorder s.charWidth s.charHeight s.boxesList i j →
        readCell s'.grid i j = some ". " := by
  obtain ⟨s', e, -, -, hc⟩ := updateGrid_spec s now hwf
  refine ⟨s', e, ?_⟩
  intro i j ts hij hts hin hp hold hoff
  obtain ⟨hg, -⟩ := hc i j ts hij hts
  rw [hg]
  unfold cellGlyph
  rw [borderOver_offBorder hoff]
  unfold trailGlyph
  rw [hin, if_neg (by simp), if_neg hp, if_neg]
  rintro ⟨h1, h2⟩
  rcases hold with h | h
  · omega
  · omega

/-- C4 (amended), instance: the far cell of the `3 x 3` grid with the offset box. -/
theorem outside_box_background_witness :
    (smallGrid offsetBox).WellFormed ∧
    ∃ s', updateGrid (smallGrid offsetBox) 0 = some s' ∧ readCell s'.grid 2 2 = some ". " := by
  obtain ⟨s', e, h⟩ := outside_box_background (smallGrid offsetBox) 0 (smallGrid_wellFormed _)
  refine ⟨smallGrid_wellFormed _, s', e, ?_⟩
  refine h 2 2 0 (smallGrid_inGrid _ (by omega) (by omega))
    (smallGrid_time _ (by omega) (by omega)) ?_ ?_ (Or.inl rfl) ?_
  · show centreInside 10 10 [offsetBox] 2 2 = false
    rw [← Bool.not_eq_true, centreInside_single, pixelX_ten 2 (by norm_num),
      pixelY_ten 2 (by norm_num), offsetBox_edges.1, offsetBox_edges.2]
    norm_num [offsetBox]
  · rintro ⟨h, -⟩
    norm_num [smallGrid, initGrid, initialState] at h
  · intro box hb
    have : box = offsetBox := by simpa [smallGrid] using hb
    rw [this]
    exact offsetBox_border_far

/-! ## Idempotence of the frame update -/

/-- The timestamp left by a frame is a fixed point of the frame's timestamp rule. -/
theorem cellTime_cellTime (s : State) (now : Int) (i j : Int) (ts : Int) :
    cellTime s now i j (cellTime s now i j ts) = cellTime s now i j ts := by
  unfold cellTime stampedTime
  by_cases hp : pointerCell s.charWidth s.charHeight s.mouseX s.mouseY i j ∧
      centreInside s.charWidth s.charHeight s.boxesList i j = false
  · simp only [hp, and_self, if_true]
  · simp only [hp, if_false]
    by_cases h0 : ts > 0
    · by_cases h1 : now - ts ≤ trailDuration ∧
          centreInside s.charWidth s.charHeight s.boxesList i j = false
      · simp only [h0, h1, and_self, if_true]
      · simp only [h0, h1, if_true, if_false]
        simp
    · simp only [h0, if_false]

/-- The glyph left by a frame does not change when the timestamp is replaced by the one
the frame leaves. -/
theorem cellGlyph_cellTime (s : State) (now : Int) (i j : Int) (ts : Int) :
    cellGlyph s now i j (cellTime s now i j ts) = cellGlyph s now i j ts := by
  unfold cellGlyph
  congr 1
  unfold trailGlyph
  cases hin : centreInside s.charWidth s.charHeight s.boxesList i j
  · by_cases hp : pointerCell s.charWidth s.charHeight s.mouseX s.mouseY i j
    · simp [hp]
    · simp only [Bool.false_eq_true, if_false, hp]
      have : cellTime s now i j ts = if ts > 0 ∧ ¬ now - ts ≤ trailDuration then 0 else ts := by
        unfold cellTime stampedTime
        simp only [hp, hin, false_and, if_false, and_true]
        split_ifs <;> first | rfl | (exfalso; tauto)
      rw [this]
      by_cases h0 : ts > 0
      · by_cases h1 : now - ts ≤ trailDuration
        · simp [h0, h1]
        · simp [h0, h1]
      · simp [h0]
  · simp

/-- The fields that `updateGrid` does not write. -/
theorem frame_fields {s s' : State}
    (h : s' = { s with grid := s'.grid, gridTimestamps := s'.gridTimestamps }) :
    s'.charWidth = s.charWidth ∧ s'.charHeight = s.charHeight ∧ s'.cols = s.cols ∧
      s'.rows = s.rows ∧ s'.mouseX = s.mouseX ∧ s'.mouseY = s.mouseY ∧
      s'.boxesList = s.boxesList :=
  ⟨(congrArg State.charWidth h).trans rfl, (congrArg State.charHeight h).trans rfl,
    (congrArg State.cols h).trans rfl, (congrArg State.rows h).trans rfl,
    (congrArg State.mouseX h).trans rfl, (congrArg State.mouseY h).trans rfl,
    (congrArg State.boxesList h).trans rfl⟩

/-- The per-cell rules read the state only through the cell size, the pointer and the
boxes. -/
theorem cell_rules_congr {s s' : State} (hcw : s'.charWidth = s.charWidth)
    (hch : s'.charHeight = s.charHeight) (hmx : s'.mouseX = s.mouseX)
    (hmy : s'.mouseY = s.mouseY) (hb : s'.boxesList = s.boxesList)
    (now : Int) (i j : Int) (ts : Int) :
    cellGlyph s' now i j ts = cellGlyph s now i j ts ∧
      cellTime s' now i j ts = cellTime s now i j ts := by
  unfold cellGlyph cellTime trailGlyph stampedTime
  rw [hcw, hch, hmx, hmy, hb]
  exact ⟨rfl, rfl⟩

/-- C9: on a well-formed state the frame update succeeds, and running it again with the
same boxes, pointer and time returns the very state the first run produced; moreover
`drawBoxBorder` applied a second time for the same box to a grid of that shape returns
the grid of the first application. -/
theorem updateGrid_idempotent (s : State) (now : Int) (hwf : s.WellFormed) :
    (∃ s', updateGrid s now = some s' ∧ updateGrid s' now = some s') ∧
    ∀ (g : List (List String)) (box : Box), Shape g s.rows s.cols →
      ∃ g', drawBoxBorder s.charWidth s.charHeight s.cols s.rows g box.x box.y box.width
          box.height = some g' ∧
        drawBoxBorder s.charWidth s.charHeight s.cols s.rows g' box.x box.y box.width
          box.height = some g' := by
  constructor
  · obtain ⟨s1, e1, q1, w1, c1⟩ := updateGrid_spec s now hwf
    obtain ⟨s2, e2, q2, w2, c2⟩ := updateGrid_spec s1 now w1
    obtain ⟨hcw, hch, hcols, hrows, hmx, hmy, hb⟩ := frame_fields q1
    refine ⟨s1, e1, ?_⟩
    rw [e2]
    congr 1
    have hcell : ∀ i j : Int, InGrid s1.rows s1.cols i j →
        readCell s2.grid i j = readCell s1.grid i j ∧
        readCell s2.gridTimestamps i j = readCell s1.gridTimestamps i j := by
      intro i j hij
      have hij0 : InGrid s.rows s.cols i j := by rw [← hrows, ← hcols]; exact hij
      obtain ⟨ts, hts⟩ := readCell_inGrid hwf.2.2.2 hij0
      obtain ⟨a1, b1⟩ := c1 i j ts hij0 hts
      obtain ⟨a2, b2⟩ := c2 i j _ hij b1
      obtain ⟨k1, k2⟩ := cell_rules_congr hcw hch hmx hmy hb now i j (cellTime s now i j ts)
      rw [a2, b2, a1, b1, k1, k2, cellGlyph_cellTime, cellTime_cellTime]
      exact ⟨rfl, rfl⟩
    obtain ⟨-, -, -, hrows2, -, -, -⟩ := frame_fields q2
    have e3 := frame_fields q2
    have hg : s2.grid = s1.grid := by
      refine @grid_ext String s2.grid s1.grid s1.rows s1.cols ?_ w1.2.2.1
        (fun i j hij => (hcell i j hij).1)
      have := w2.2.2.1
      rw [e3.2.2.2.1, e3.2.2.1] at this
      exact this
    have ht : s2.gridTimestamps = s1.gridTimestamps := by
      refine @grid_ext Int s2.gridTimestamps s1.gridTimestamps s1.rows s1.cols ?_ w1.2.2.2
        (fun i j hij => (hcell i j hij).2)
      have := w2.2.2.2
      rw [e3.2.2.2.1, e3.2.2.1] at this
      exact this
    rw [q2, hg, ht]
  · intro g box hs
    obtain ⟨g1, e1, s1, c1⟩ := drawBoxBorder_spec hs s.charWidth s.charHeight box
    obtain ⟨g2, e2, s2, c2⟩ := drawBoxBorder_spec s1 s.charWidth s.charHeight box
    refine ⟨g1, e1, ?_⟩
    rw [e2]
    congr 1
    refine grid_ext s2 s1 ?_
    intro i j hij
    rw [c2 i j hij, c1 i j hij]
    cases box.border s.charWidth s.charHeight i j <;> rfl

/-- C9, instance: the `3 x 3` grid with the aligned box. -/
theorem updateGrid_idempotent_witness :
    (smallGrid alignedBox).WellFormed ∧
    ∃ s', updateGrid (smallGrid alignedBox) 7 = some s' ∧ updateGrid s' 7 = some s' :=
  ⟨smallGrid_wellFormed _, (updateGrid_idempotent (smallGrid alignedBox) 7
    (smallGrid_wellFormed _)).1⟩

/-! ## Frames -/

/-- One frame on a well-formed state: it succeeds, keeps the cell size and the grid size,
and leaves `cellGlyph` and `cellTime` at every cell. -/
theorem runFrame_spec (s : State) (f : Frame) (hwf : s.WellFormed) :
    ∃ s', runFrame s f = some s' ∧ s'.WellFormed ∧
      s'.charWidth = s.charWidth ∧ s'.charHeight = s.charHeight ∧
      s'.rows = s.rows ∧ s'.cols = s.cols ∧
      ∀ (i j : Int) (ts : Int), InGrid s.rows s.cols i j →
        readCell s.gridTimestamps i j = some ts →
        readCell s'.grid i j = some (cellGlyph (s.load f) f.now i j ts) ∧
        readCell s'.gridTimestamps i j = some (cellTime (s.load f) f.now i j ts) := by
  have hwf' : (s.load f).WellFormed := hwf
  obtain ⟨s', e, q, w, c⟩ := updateGrid_spec (s.load f) f.now hwf'
  obtain ⟨h1, h2, h3, h4, -, -, -⟩ := frame_fields q
  exact ⟨s', e, w, h1, h2, h4, h3, c⟩

/-- A sequence of frames on a well-formed state succeeds and keeps it well-formed. -/
theorem runFrames_wellFormed (frames : List Frame) :
    ∀ s : State, s.WellFormed →
      ∃ s', runFrames s frames = some s' ∧ s'.WellFormed ∧
        s'.charWidth = s.charWidth ∧ s'.charHeight = s.charHeight ∧
        s'.rows = s.rows ∧ s'.cols = s.cols := by
  induction frames with
  | nil => intro s hwf; exact ⟨s, rfl, hwf, rfl, rfl, rfl, rfl⟩
  | cons f rest ih =>
    intro s hwf
    obtain ⟨s1, e1, w1, a1, b1, c1, d1, -⟩ := runFrame_spec s f hwf
    obtain ⟨s2, e2, w2, a2, b2, c2, d2⟩ := ih s1 w1
    refine ⟨s2, ?_, w2, a2.trans a1, b2.trans b1, c2.trans c1, d2.trans d1⟩
    unfold runFrames at e2 ⊢
    rw [List.foldlM_cons, e1]
    exact e2

theorem runFrames_cons (s : State) (f : Frame) (rest : List Frame) :
    runFrames s (f :: rest) = (runFrame s f).bind fun s1 => runFrames s1 rest := by
  unfold runFrames
  rw [List.foldlM_cons]
  rfl

/-- The cell under the pointer, outside every box and off every border, is stamped. -/
theorem cell_stamped (s : State) (now : Int) (i j : Int) (ts : Int)
    (hp : pointerCell s.charWidth s.charHeight s.mouseX s.mouseY i j)
    (hout : centreInside s.charWidth s.charHeight s.boxesList i j = false) :
    trailGlyph s now i j ts = "* " ∧ cellTime s now i j ts = now := by
  unfold trailGlyph cellTime stampedTime
  simp only [hp, hout, and_self, if_true, Bool.false_eq_true, if_false, sub_self]
  constructor
  · trivial
  · split_ifs with h1 h2
    · rfl
    · exact absurd ⟨by unfold trailDuration; omega, trivial⟩ h2
    · rfl

/-- A cell away from the pointer and outside every box keeps a young trail. -/
theorem cell_trail_kept (s : State) (now : Int) (i j : Int) (ts : Int)
    (hp : ¬ pointerCell s.charWidth s.charHeight s.mouseX s.mouseY i j)
    (hout : centreInside s.charWidth s.charHeight s.boxesList i j = false)
    (h0 : ts > 0) (h1 : now - ts ≤ trailDuration) :
    trailGlyph s now i j ts = "* " ∧ cellTime s now i j ts = ts := by
  unfold trailGlyph cellTime stampedTime
  simp [hp, hout, h0, h1]

/-- A cell away from the pointer and outside every box loses an old trail. -/
theorem cell_trail_expired (s : State) (now : Int) (i j : Int) (ts : Int)
    (hp : ¬ pointerCell s.charWidth s.charHeight s.mouseX s.mouseY i j)
    (hout : centreInside s.charWidth s.charHeight s.boxesList i j = false)
    (h0 : ts > 0) (h1 : now - ts > trailDuration) :
    trailGlyph s now i j ts = ". " ∧ cellTime s now i j ts = 0 := by
  have h2 : ¬ now - ts ≤ trailDuration := by omega
  unfold trailGlyph cellTime stampedTime
  simp [hp, hout, h0, h2]

/-- The trail window, from a state in which the cell carries the stamp `t0`. -/
theorem trail_frames (cw ch : ℚ) (rows cols : Nat) (i j : Int) (t0 : Int)
    (hij : InGrid rows cols i j) (ht0 : t0 > 0) (frames : List Frame) :
    ∀ s : State, s.WellFormed → s.charWidth = cw → s.charHeight = ch → s.rows = rows →
      s.cols = cols → readCell s.gridTimestamps i j = some t0 →
      (∀ f ∈ frames, centreInside cw ch f.boxesList i j = false ∧
        offBorder cw ch f.boxesList i j ∧ ¬ pointerCell cw ch f.mouseX f.mouseY i j ∧
        t0 ≤ f.now) →
      ∀ (n : Nat) (f : Frame), frames[n]? = some f →
        (∀ (m : Nat) (g : Frame), m < n → frames[m]? = some g → g.now ≤ t0 + trailDuration) →
        ∃ s', runFrames s (frames.take (n + 1)) = some s' ∧
          (f.now ≤ t0 + trailDuration → readCell s'.grid i j = some "* ") ∧
          (f.now > t0 + trailDuration →
            readCell s'.gridTimestamps i j = some 0 ∧ readCell s'.grid i j = some ". ") := by
  induction frames with
  | nil => intro s _ _ _ _ _ _ _ n f hf; simp at hf
  | cons f1 rest ih =>
    intro s hwf hcw hch hrows hcols hts hcond n f hf hearly
    obtain ⟨s1, e1, w1, a1, b1, c1, d1, cell⟩ := runFrame_spec s f1 hwf
    obtain ⟨hout, hoff, hp, hge⟩ := hcond f1 (List.mem_cons_self _ _)
    obtain ⟨hg, ht⟩ := cell i j t0 (by rw [hrows, hcols]; exact hij) hts
    have hout' : centreInside (s.load f1).charWidth (s.load f1).charHeight
        (s.load f1).boxesList i j = false := by
      show centreInside s.charWidth s.charHeight f1.boxesList i j = false
      rw [hcw, hch]; exact hout
    have hp' : ¬ pointerCell (s.load f1).charWidth (s.load f1).charHeight
        (s.load f1).mouseX (s.load f1).mouseY i j := by
      show ¬ pointerCell s.charWidth s.charHeight f1.mouseX f1.mouseY i j
      rw [hcw, hch]; exact hp
    have hoff' : offBorder (s.load f1).charWidth (s.load f1).charHeight
        (s.load f1).boxesList i j := by
      show offBorder s.charWidth s.charHeight f1.boxesList i j
      rw [hcw, hch]; exact hoff
    have hglyph : cellGlyph (s.load f1) f1.now i j t0 = trailGlyph (s.load f1) f1.now i j t0 := by
      unfold cellGlyph
      exact borderOver_offBorder hoff' _
    rw [hglyph] at hg
    cases n with
    | zero =>
      have hf1 : f1 = f := by simpa using hf
      subst hf1
      refine ⟨s1, ?_, ?_, ?_⟩
      · rw [List.take_succ_cons, List.take_zero, runFrames_cons, e1]
        rfl
      · intro hle
        rw [hg, (cell_trail_kept (s.load f1) f1.now i j t0 hp' hout' ht0 (by omega)).1]
      · intro hgt
        obtain ⟨k1, k2⟩ := cell_trail_expired (s.load f1) f1.now i j t0 hp' hout' ht0 (by omega)
        rw [hg, ht, k1, k2]
        exact ⟨rfl, rfl⟩
    | succ k =>
      have hf1 : f1.now ≤ t0 + trailDuration :=
        hearly 0 f1 (Nat.succ_pos _) (by simp)
      obtain ⟨-, k2⟩ := cell_trail_kept (s.load f1) f1.now i j t0 hp' hout' ht0 (by omega)
      rw [k2] at ht
      obtain ⟨s2, e2, r1, r2⟩ := ih s1 w1 (a1.trans hcw) (b1.trans hch) (c1.trans hrows)
        (d1.trans hcols) ht (fun g hgm => hcond g (List.mem_cons_of_mem _ hgm)) k f
        (by simpa using hf)
        (fun m g hm hgm => hearly (m + 1) g (by omega) (by simpa using hgm))
      refine ⟨s2, ?_, r1, r2⟩
      rw [List.take_succ_cons, runFrames_cons, e1]
      exact e2

/-! ## Trail window -/

/-- C2: a frame at time `t0 > 0` stamps the cell `(i, j)` (the pointer's cell, centre
outside every box).  Along any later frames at non-decreasing times in which the centre
stays outside every box, the cell is on no border and is not the pointer's cell: every
frame at a time `t <= t0 + 100` leaves the trail glyph, and the first frame at a time
`t > t0 + 100` clears the timestamp and leaves the background glyph. -/
theorem trail_window (s : State) (hwf : s.WellFormed) (f0 : Frame) (frames : List Frame)
    (i j : Int) (hij : InGrid s.rows s.cols i j) (ht0 : f0.now > 0)
    (hptr : pointerCell s.charWidth s.charHeight f0.mouseX f0.mouseY i j)
    (hout0 : centreInside s.charWidth s.charHeight f0.boxesList i j = false)
    (hlater : ∀ f ∈ frames, centreInside s.charWidth s.charHeight f.boxesList i j = false ∧
      offBorder s.charWidth s.charHeight f.boxesList i j ∧
      ¬ pointerCell s.charWidth s.charHeight f.mouseX f.mouseY i j)
    (htimes : List.Pairwise (fun a b : Int => a ≤ b) (f0.now :: frames.map Frame.now)) :
    ∀ (n : Nat) (f : Frame), frames[n]? = some f →
      ∃ s', runFrames s (f0 :: frames.take (n + 1)) = some s' ∧
        (f.now ≤ f0.now + trailDuration → readCell s'.grid i j = some "* ") ∧
        (f.now > f0.now + trailDuration →
          (∀ (m : Nat) (g : Frame), m < n → frames[m]? = some g →
            g.now ≤ f0.now + trailDuration) →
          readCell s'.gridTimestamps i j = some 0 ∧ readCell s'.grid i j = some ". ") := by
  intro n f hf
  obtain ⟨hfirst, hrest⟩ := List.pairwise_cons.1 htimes
  have hmono : ∀ (m : Nat) (g : Frame), m < n → frames[m]? = some g → g.now ≤ f.now := by
    intro m g hm hg
    rw [List.pairwise_map] at hrest
    obtain ⟨h1, e1⟩ := List.getElem?_eq_some.1 hg
    obtain ⟨h2, e2⟩ := List.getElem?_eq_some.1 hf
    have := List.pairwise_iff_getElem.1 hrest m n h1 h2 hm
    rw [e1, e2] at this
    exact this
  obtain ⟨s0, e0, w0, a0, b0, c0, d0, cell0⟩ := runFrame_spec s f0 hwf
  obtain ⟨ts, hts⟩ := readCell_inGrid hwf.2.2.2 hij
  obtain ⟨-, ht⟩ := cell0 i j ts hij hts
  rw [(cell_stamped (s.load f0) f0.now i j ts hptr hout0).2] at ht
  have hcond : ∀ g ∈ frames, centreInside s.charWidth s.charHeight g.boxesList i j = false ∧
      offBorder s.charWidth s.charHeight g.boxesList i j ∧
      ¬ pointerCell s.charWidth s.charHeight g.mouseX g.mouseY i j ∧ f0.now ≤ g.now := by
    intro g hg
    obtain ⟨x, y, z⟩ := hlater g hg
    exact ⟨x, y, z, hfirst g.now (List.mem_map_of_mem _ hg)⟩
  by_cases hearly : ∀ (m : Nat) (g : Frame), m < n → frames[m]? = some g →
      g.now ≤ f0.now + trailDuration
  · obtain ⟨s', e', r1, r2⟩ := trail_frames s.charWidth s.charHeight s.rows s.cols i j f0.now
      hij ht0 frames s0 w0 a0 b0 c0 d0 ht hcond n f hf hearly
    refine ⟨s', ?_, r1, fun h _ => r2 h⟩
    rw [runFrames_cons, e0]
    exact e'
  · obtain ⟨s', e', -⟩ := runFrames_wellFormed (frames.take (n + 1)) s0 w0
    refine ⟨s', ?_, ?_, ?_⟩
    · rw [runFrames_cons, e0]
      exact e'
    · intro hle
      exact absurd (fun m g hm hg => le_trans (hmono m g hm hg) hle) hearly
    · intro _ h
      exact absurd h hearly

theorem emptyGrid_wellFormed : emptyGrid.WellFormed :=
  initGrid_wellFormed initialState 110 110 10 10 (by norm_num) (by norm_num)

theorem emptyGrid_inGrid {i j : Int} (hi : 0 ≤ i ∧ i < 11) (hj : 0 ≤ j ∧ j < 11) :
    InGrid emptyGrid.rows emptyGrid.cols i j := by
  have h : ⌈jsDiv 110 10⌉ = 11 := by
    rw [jsDiv_int 110 10 11 (by norm_num) (by norm_num), Int.ceil_intCast]
  have hr : emptyGrid.rows = 11 := by
    show ⌈jsDiv 110 10⌉.toNat = 11
    rw [h]; rfl
  have hc : emptyGrid.cols = 11 := by
    show ⌈jsDiv 110 10⌉.toNat = 11
    rw [h]; rfl
  rw [hr, hc]
  unfold InGrid
  omega

theorem idleFrame_quiet (now : Int) (i j : Int) :
    centreInside emptyGrid.charWidth emptyGrid.charHeight (idleFrame now).boxesList i j = false ∧
      offBorder emptyGrid.charWidth emptyGrid.charHeight (idleFrame now).boxesList i j ∧
      ¬ pointerCell emptyGrid.charWidth emptyGrid.charHeight (idleFrame now).mouseX
        (idleFrame now).mouseY i j := by
  refine ⟨rfl, fun b hb => absurd hb (List.not_mem_nil _), ?_⟩
  rintro ⟨h, -⟩
  norm_num [idleFrame] at h

/-- C2, instance: stamp at time `5` in cell `(5, 5)`, then frames at `55`, `105`, `155`
with the pointer gone: trail at `105`, background and no timestamp at `155`. -/
theorem trail_window_witness :
    ∃ s1 s2,
      runFrames emptyGrid [stampFrame 5, idleFrame 55, idleFrame 105] = some s1 ∧
      readCell s1.grid 5 5 = some "* " ∧
      runFrames emptyGrid [stampFrame 5, idleFrame 55, idleFrame 105, idleFrame 155] = some s2 ∧
      readCell s2.gridTimestamps 5 5 = some 0 ∧ readCell s2.grid 5 5 = some ". " := by
  have hp : pointerCell emptyGrid.charWidth emptyGrid.charHeight (stampFrame 5).mouseX
      (stampFrame 5).mouseY 5 5 := by
    show pointerCell 10 10 55 55 5 5
    have h : ⌊jsDiv 55 10⌋ = 5 :=
      floor_jsDiv (by norm_num [abs_of_pos]) (by norm_num [abs_of_pos])
    exact ⟨by norm_num, by norm_num, h, h⟩
  have key := trail_window emptyGrid emptyGrid_wellFormed (stampFrame 5)
    [idleFrame 55, idleFrame 105, idleFrame 155] 5 5
    (emptyGrid_inGrid (by omega) (by omega)) (by decide) hp rfl
    (fun f hf => by
      have hf' : f = idleFrame 55 ∨ f = idleFrame 105 ∨ f = idleFrame 155 := by
        simpa using hf
      rcases hf' with rfl | rfl | rfl
      · exact idleFrame_quiet 55 5 5
      · exact idleFrame_quiet 105 5 5
      · exact idleFrame_quiet 155 5 5)
    (by decide)
  obtain ⟨s1, e1, t1, -⟩ := key 1 (idleFrame 105) rfl
  obtain ⟨s2, e2, -, b2⟩ := key 2 (idleFrame 155) rfl
  refine ⟨s1, s2, e1, t1 (by decide), e2, ?_⟩
  refine b2 (by decide) ?_
  intro m g hm hg
  have hm' : m = 0 ∨ m = 1 := by omega
  rcases hm' with rfl | rfl
  · have : idleFrame 55 = g := by simpa using hg
    rw [← this]; decide
  · have : idleFrame 105 = g := by simpa using hg
    rw [← this]; decide

/-! ## Stationary pointer -/

/-- A frame run while the pointer state holds a cell whose centre is outside every box
and which is on no border stamps that cell. -/
theorem pointer_frame (s : State) (now : Int) (hwf : s.WellFormed) (i j : Int)
    (hij : InGrid s.rows s.cols i j)
    (hp : pointerCell s.charWidth s.charHeight s.mouseX s.mouseY i j)
    (hout : centreInside s.charWidth s.charHeight s.boxesList i j = false)
    (hoff : offBorder s.charWidth s.charHeight s.boxesList i j) :
    ∃ s', updateGrid s now = some s' ∧
      s' = { s with grid := s'.grid, gridTimestamps := s'.gridTimestamps } ∧
      s'.WellFormed ∧
      readCell s'.grid i j = some "* " ∧ readCell s'.gridTimestamps i j = some now := by
  obtain ⟨s', e, q, w, c⟩ := updateGrid_spec s now hwf
  obtain ⟨ts, hts⟩ := readCell_inGrid hwf.2.2.2 hij
  obtain ⟨hg, ht⟩ := c i j ts hij hts
  obtain ⟨k1, k2⟩ := cell_stamped s now i j ts hp hout
  refine ⟨s', e, q, w, ?_, ?_⟩
  · rw [hg]
    unfold cellGlyph
    rw [borderOver_offBorder hoff, k1]
  · rw [ht, k2]

/-- Two frames in a row with the pointer state left as the `mousemove` handler set it. -/
theorem pointer_two_frames (s : State) (hwf : s.WellFormed) (clientX clientY : ℚ) (i j : Int)
    (hij : InGrid s.rows s.cols i j)
    (hp : pointerCell s.charWidth s.charHeight clientX clientY i j)
    (now1 now2 : Int) (boxes1 boxes2 : List Box)
    (hout1 : centreInside s.charWidth s.charHeight boxes1 i j = false)
    (hoff1 : offBorder s.charWidth s.charHeight boxes1 i j)
    (hout2 : centreInside s.charWidth s.charHeight boxes2 i j = false)
    (hoff2 : offBorder s.charWidth s.charHeight boxes2 i j) :
    ∃ s1 s2,
      updateGrid { mousemove s clientX clientY with boxesList := boxes1 } now1 = some s1 ∧
      updateGrid { s1 with boxesList := boxes2 } now2 = some s2 ∧
      readCell s1.grid i j = some "* " ∧
      readCell s2.grid i j = some "* " ∧ readCell s2.gridTimestamps i j = some now2 := by
  obtain ⟨s1, e1, q1, w1, g1, -⟩ := pointer_frame
    { mousemove s clientX clientY with boxesList := boxes1 } now1 hwf i j hij hp hout1 hoff1
  obtain ⟨hcw, hch, hcols, hrows, hmx, hmy, -⟩ := frame_fields q1
  have w1' : State.WellFormed { s1 with boxesList := boxes2 } := w1
  obtain ⟨s2, e2, -, -, g2, t2⟩ := pointer_frame { s1 with boxesList := boxes2 } now2 w1' i j
    (by
      show InGrid s1.rows s1.cols i j
      rw [hrows, hcols]; exact hij)
    (by
      show pointerCell s1.charWidth s1.charHeight s1.mouseX s1.mouseY i j
      rw [hcw, hch, hmx, hmy]; exact hp)
    (by
      show centreInside s1.charWidth s1.charHeight boxes2 i j = false
      rw [hcw, hch]; exact hout2)
    (by
      show offBorder s1.charWidth s1.charHeight boxes2 i j
      rw [hcw, hch]; exact hoff2)
  exact ⟨s1, s2, e1, e2, g1, g2, t2⟩

theorem emptyGrid_pointer_corner :
    pointerCell emptyGrid.charWidth emptyGrid.charHeight 105 105 10 10 := by
  show pointerCell 10 10 105 105 10 10
  have h : ⌊jsDiv 105 10⌋ = 10 :=
    floor_jsDiv (by norm_num [abs_of_pos]) (by norm_num [abs_of_pos])
  exact ⟨by norm_num, by norm_num, h, h⟩

/-- C8 (as stated) fails: the pointer is moved into cell `(10, 10)` at time `0` and no
pointer event follows; the frame at `150` ms leaves the trail glyph, not the background. -/
theorem stationary_pointer_still_trail :
    ∃ s1 s2,
      updateGrid { mousemove emptyGrid 105 105 with boxesList := [] } (0 + 50) = some s1 ∧
      updateGrid { s1 with boxesList := [] } (0 + 150) = some s2 ∧
      readCell s1.grid 10 10 = some "* " ∧
      readCell s2.grid 10 10 = some "* " ∧ readCell s2.grid 10 10 ≠ some ". " := by
  obtain ⟨s1, s2, e1, e2, g1, g2, -⟩ := pointer_two_frames emptyGrid emptyGrid_wellFormed
    105 105 10 10 (emptyGrid_inGrid (by omega) (by omega)) emptyGrid_pointer_corner
    (0 + 50) (0 + 150) [] [] rfl (fun b hb => absurd hb (List.not_mem_nil _)) rfl
    (fun b hb => absurd hb (List.not_mem_nil _))
  refine ⟨s1, s2, e1, e2, g1, g2, ?_⟩
  rw [g2]
  decide

/-- C8 (amended): a pointer-move event places the pointer in the cell `(i, j)` and no
pointer event follows, so the pointer state keeps holding that cell; the frames at
`t0 + 50` and at `t0 + 150`, run while the centre of the cell is outside every box and the
cell is on no border, both leave the trail glyph, the second one with timestamp
`t0 + 150`. -/
theorem stationary_pointer (s : State) (hwf : s.WellFormed) (clientX clientY : ℚ) (i j : Int)
    (hij : InGrid s.rows s.cols i j)
    (hp : pointerCell s.charWidth s.charHeight clientX clientY i j)
    (t0 : Int) (boxes1 boxes2 : List Box)
    (hout1 : centreInside s.charWidth s.charHeight boxes1 i j = false)
    (hoff1 : offBorder s.charWidth s.charHeight boxes1 i j)
    (hout2 : centreInside s.charWidth s.charHeight boxes2 i j = false)
    (hoff2 : offBorder s.charWidth s.charHeight boxes2 i j) :
    ∃ s1 s2,
      updateGrid { mousemove s clientX clientY with boxesList := boxes1 } (t0 + 50) = some s1 ∧
      updateGrid { s1 with boxesList := boxes2 } (t0 + 150) = some s2 ∧
      readCell s1.grid i j = some "* " ∧
      readCell s2.grid i j = some "* " ∧ readCell s2.gridTimestamps i j = some (t0 + 150) :=
  pointer_two_frames s hwf clientX clientY i j hij hp (t0 + 50) (t0 + 150) boxes1 boxes2
    hout1 hoff1 hout2 hoff2

/-- C8 (amended), instance: cell `(10, 10)`, `t0 = 0`, no box. -/
theorem stationary_pointer_witness :
    emptyGrid.WellFormed ∧ pointerCell emptyGrid.charWidth emptyGrid.charHeight 105 105 10 10 ∧
    ∃ s1 s2,
      updateGrid { mousemove emptyGrid 105 105 with boxesList := [] } (0 + 50) = some s1 ∧
      updateGrid { s1 with boxesList := [] } (0 + 150) = some s2 ∧
      readCell s1.grid 10 10 = some "* " ∧
      readCell s2.grid 10 10 = some "* " ∧ readCell s2.gridTimestamps 10 10 = some (0 + 150) :=
  ⟨emptyGrid_wellFormed, emptyGrid_pointer_corner,
    stationary_pointer emptyGrid emptyGrid_wellFormed 105 105 10 10
      (emptyGrid_inGrid (by omega) (by omega)) emptyGrid_pointer_corner 0 [] [] rfl
      (fun b hb => absurd hb (List.not_mem_nil _)) rfl
      (fun b hb => absurd hb (List.not_mem_nil _))⟩

/-! ## Single-box picture -/

/-- Rounding a non-negative number: relative error `2 ^ (-53)`, absolute error
`2 ^ (-1075)`. -/
theorem fl64_bounds_nonneg {q : ℚ} (h : 0 ≤ q) :
    0 ≤ fl64 q ∧ q - (q / 2 ^ 53 + 1 / 2 ^ 1075) ≤ fl64 q ∧
      fl64 q ≤ q + (q / 2 ^ 53 + 1 / 2 ^ 1075) := by
  have hb := fl64_bounds q
  rw [abs_of_nonneg h] at hb
  exact ⟨fl64_nonneg h, hb.1, hb.2⟩

/-- The computed centre of a cell is within a few rounding errors of the exact centre. -/
theorem pixelX_bounds (cw : ℚ) (j : ℤ) (hcw : 0 < cw) (hj : 0 ≤ j) :
    ((j : ℚ) * cw + cw / 2) * (1 - 2 / 2 ^ 53) - 3 / 2 ^ 1075 ≤ pixelX cw j ∧
      pixelX cw j ≤ ((j : ℚ) * cw + cw / 2) * (1 + 3 / 2 ^ 53) + 4 / 2 ^ 1075 := by
  have hj' : (0 : ℚ) ≤ j := by exact_mod_cast hj
  have hP : 0 ≤ (j : ℚ) * cw := mul_nonneg hj' hcw.le
  obtain ⟨p0, p1, p2⟩ := fl64_bounds_nonneg hP
  obtain ⟨h0, h1, h2⟩ := fl64_bounds_nonneg (show (0 : ℚ) ≤ cw / 2 by linarith)
  obtain ⟨-, x1, x2⟩ := fl64_bounds_nonneg (add_nonneg p0 h0)
  unfold pixelX jsAdd jsMul jsDiv
  generalize fl64 (fl64 ((j : ℚ) * cw) + fl64 (cw / 2)) = X at *
  generalize fl64 ((j : ℚ) * cw) = p at *
  generalize fl64 (cw / 2) = h at *
  generalize (j : ℚ) * cw = P at *
  constructor
  · nlinarith
  · nlinarith

/-- A pixel coordinate whose computed cell lies before column `j` lies before the computed
centre of column `j`.  The coordinate `a` passes through one more rounding (`fl64 a`)
before the division, as the edges of `drawBoxBorder` do. -/
theorem edge_lt_centre (cw a : ℚ) (j : ℤ) (hcw : 1 / 2 ^ 1022 ≤ cw) (hj : 0 ≤ j)
    (hj2 : j ≤ 2 ^ 32) (h : ⌊jsDiv (fl64 a) cw⌋ < j) : a < pixelX cw j := by
  have hpos : (0 : ℚ) < cw := lt_of_lt_of_le (by positivity) hcw
  have hj' : (0 : ℚ) ≤ j := by exact_mod_cast hj
  have hj2' : (j : ℚ) ≤ 2 ^ 32 := by exact_mod_cast hj2
  have hP : 0 ≤ (j : ℚ) * cw := mul_nonneg hj' hpos.le
  have hP2 : (j : ℚ) * cw ≤ 2 ^ 32 * cw := mul_le_mul_of_nonneg_right hj2' hpos.le
  obtain ⟨x1, -⟩ := pixelX_bounds cw j hpos hj
  have hq : jsDiv (fl64 a) cw < j := Int.floor_lt.1 h
  rcases le_or_lt a 0 with ha | ha
  · have : 0 < pixelX cw j := by
      generalize (j : ℚ) * cw = P at *
      norm_num at hcw x1 ⊢
      nlinarith
    linarith
  · obtain ⟨b0, b1, -⟩ := fl64_bounds_nonneg ha.le
    obtain ⟨-, d1, -⟩ := fl64_bounds_nonneg (div_nonneg b0 hpos.le)
    have hD : fl64 a / cw * cw = fl64 a := div_mul_cancel₀ _ hpos.ne.symm
    have h1 : fl64 a / cw - (fl64 a / cw / 2 ^ 53 + 1 / 2 ^ 1075) < j :=
      lt_of_le_of_lt d1 hq
    have h2 := mul_lt_mul_of_pos_right h1 hpos
    have e : (fl64 a / cw - (fl64 a / cw / 2 ^ 53 + 1 / 2 ^ 1075)) * cw
        = fl64 a - (fl64 a / 2 ^ 53 + cw / 2 ^ 1075) := by
      rw [← hD]; field_simp; ring
    rw [e] at h2
    generalize fl64 a = B at *
    generalize (j : ℚ) * cw = P at *
    generalize pixelX cw j = X at *
    norm_num at hcw x1 b1 h2 hP2 ⊢
    by_contra hc
    rw [not_lt] at hc
    nlinarith

/-- A pixel coordinate whose computed cell lies after column `j` lies after the computed
centre of column `j`. -/
theorem centre_lt_edge (cw a : ℚ) (j : ℤ) (hcw : 1 / 2 ^ 1022 ≤ cw) (hj : 0 ≤ j)
    (hj2 : j ≤ 2 ^ 32) (h : j < ⌊jsDiv (fl64 a) cw⌋) : pixelX cw j < a := by
  have hpos : (0 : ℚ) < cw := lt_of_lt_of_le (by positivity) hcw
  have hj' : (0 : ℚ) ≤ j := by exact_mod_cast hj
  have hj2' : (j : ℚ) ≤ 2 ^ 32 := by exact_mod_cast hj2
  have hP : 0 ≤ (j : ℚ) * cw := mul_nonneg hj' hpos.le
  have hP2 : (j : ℚ) * cw ≤ 2 ^ 32 * cw := mul_le_mul_of_nonneg_right hj2' hpos.le
  obtain ⟨-, x2⟩ := pixelX_bounds cw j hpos hj
  have hq : ((j : ℚ) + 1) ≤ jsDiv (fl64 a) cw := by
    have : j + 1 ≤ ⌊jsDiv (fl64 a) cw⌋ := h
    have h3 := Int.le_floor.1 this
    push_cast at h3
    exact h3
  have hqpos : 0 < jsDiv (fl64 a) cw := by linarith
  have hd : 0 < fl64 a / cw := by
    by_contra hc
    rw [not_lt] at hc
    have := fl64_nonpos hc
    unfold jsDiv at hqpos
    linarith
  have hb : 0 < fl64 a := by
    by_contra hc
    rw [not_lt] at hc
    have := div_nonpos_of_nonpos_of_nonneg hc hpos.le
    linarith
  have ha : 0 < a := by
    by_contra hc
    rw [not_lt] at hc
    have := fl64_nonpos hc
    linarith
  obtain ⟨-, -, b2⟩ := fl64_bounds_nonneg ha.le
  obtain ⟨-, -, d2⟩ := fl64_bounds_nonneg hd.le
  have hD : fl64 a / cw * cw = fl64 a := div_mul_cancel₀ _ hpos.ne.symm
  have h1 : ((j : ℚ) + 1) ≤ fl64 a / cw + (fl64 a / cw / 2 ^ 53 + 1 / 2 ^ 1075) :=
    le_trans hq d2
  have h2 := mul_le_mul_of_nonneg_right h1 hpos.le
  have e : (fl64 a / cw + (fl64 a / cw / 2 ^ 53 + 1 / 2 ^ 1075)) * cw
      = fl64 a + (fl64 a / 2 ^ 53 + cw / 2 ^ 1075) := by
    rw [← hD]; field_simp; ring
  have e2 : ((j : ℚ) + 1) * cw = (j : ℚ) * cw + cw := by ring
  rw [e, e2] at h2
  generalize fl64 a = B at *
  generalize (j : ℚ) * cw = P at *
  generalize pixelX cw j = X at *
  norm_num at hcw x2 b2 h2 hP2 ⊢
  by_contra hc
  rw [not_lt] at hc
  nlinarith

theorem border_left_edge (a : ℚ) : jsSub a 0 = fl64 a := by
  unfold jsSub; rw [sub_zero]

theorem border_right_edge (a : ℚ) : jsAdd a 0 = fl64 a := by
  unfold jsAdd; rw [add_zero]

theorem pointState_wellFormed : pointState.WellFormed :=
  initGrid_wellFormed initialState 100 20 cell144 10 (by norm_num [cell144]) (by norm_num)

theorem ceil_fl64 {q : ℚ} {n : ℤ} (h1 : (n : ℚ) - 1 + (|q| / 2 ^ 53 + 1 / 2 ^ 1075) < q)
    (h2 : q + (|q| / 2 ^ 53 + 1 / 2 ^ 1075) ≤ n) : ⌈fl64 q⌉ = n := by
  obtain ⟨a, b⟩ := fl64_bounds q
  rw [Int.ceil_eq_iff]
  constructor <;> linarith

theorem pointState_rows : pointState.rows = 2 := by
  have h : ⌈jsDiv 20 10⌉ = 2 := by
    rw [jsDiv_int 20 10 2 (by norm_num) (by norm_num)]
    norm_num
  show ⌈jsDiv 20 10⌉.toNat = 2
  rw [h]; rfl

theorem pointState_cols : pointState.cols = 7 := by
  have h : ⌈jsDiv 100 cell144⌉ = 7 := by
    unfold jsDiv cell144
    exact ceil_fl64 (by norm_num [abs_of_pos]) (by norm_num [abs_of_pos])
  show ⌈jsDiv 100 cell144⌉.toNat = 7
  rw [h]; rfl

theorem jsDiv_72_cell144 : jsDiv 72 cell144 = 5 := by
  unfold jsDiv cell144
  rw [fl64_eval 2 5629499534213120 (by norm_num [abs_of_pos]) (by norm_num [abs_of_pos])
    (by norm_num) (by norm_num [abs_lt])]
  norm_num

theorem pointBox_floors :
    ⌊jsDiv (jsSub 72 0) cell144⌋ = 5 ∧ ⌊jsDiv (jsAdd (jsAdd 72 0) 0) cell144⌋ = 5 ∧
      ⌊jsDiv (jsSub 0 0) 10⌋ = 0 ∧ ⌊jsDiv (jsAdd (jsAdd 0 0) 0) 10⌋ = 0 := by
  have e1 : jsSub 72 0 = 72 := by simpa using jsSub_int 72 0 72 (by norm_num) (by norm_num)
  have e2 : jsAdd 72 0 = 72 := by simpa using jsAdd_int 72 0 72 (by norm_num) (by norm_num)
  have e3 : jsSub 0 0 = 0 := by simpa using jsSub_int 0 0 0 (by norm_num) (by norm_num)
  have e4 : jsAdd 0 0 = 0 := by simpa using jsAdd_int 0 0 0 (by norm_num) (by norm_num)
  have e5 : jsDiv 0 10 = 0 := by simpa using jsDiv_int 0 10 0 (by norm_num) (by norm_num)
  rw [e1, e2, e2, e3, e4, e4, e5, jsDiv_72_cell144]
  norm_num

theorem pointBox_border : pointBox.border cell144 10 0 5 = some "+ " := by
  simp only [Box.border, pointBox, pointBox_floors.1, pointBox_floors.2.1,
    pointBox_floors.2.2.1, pointBox_floors.2.2.2]
  decide

/-- C6 (as stated, the quotients taken exactly) fails.  With cells `14.4` pixels wide
(the double `14.4` is slightly more than `72 / 5`) and a box of no extent at `x = 72`, the
exact `floor(72 / 14.4)` is `4` and the claimed picture has its corner in column `4` and
background in column `5`; the quotient computed by `drawBoxBorder` rounds to `5`, and the
frame leaves the corner in column `5`. -/
theorem single_box_exact_floor_off :
    pointState.boxesList = [pointBox] ∧ pointState.mouseX = -1 ∧ pointState.mouseY = -1 ∧
    ⌊pointBox.x / cell144⌋ = 4 ∧ exactPicture cell144 10 pointBox 0 4 = "+ " ∧
    exactPicture cell144 10 pointBox 0 5 = ". " ∧
    ∃ s', updateGrid pointState 0 = some s' ∧ readCell s'.grid 0 5 = some "+ " := by
  have f1 : ⌊(72 : ℚ) / cell144⌋ = 4 := by
    norm_num [cell144, Int.floor_eq_iff]
  have f2 : ⌊((72 : ℚ) + 0) / cell144⌋ = 4 := by rw [add_zero]; exact f1
  have f3 : ⌊(0 : ℚ) / 10⌋ = 0 := by norm_num
  have f4 : ⌊((0 : ℚ) + 0) / 10⌋ = 0 := by norm_num
  refine ⟨rfl, rfl, rfl, f1, ?_, ?_, ?_⟩
  · simp only [exactPicture, pointBox, f1, f2, f3, f4]
    decide
  · simp only [exactPicture, pointBox, f1, f2, f3, f4]
    decide
  · obtain ⟨s', e, -, -, hc⟩ := updateGrid_spec pointState 0 pointState_wellFormed
    have hin : InGrid pointState.rows pointState.cols 0 5 := by
      rw [pointState_rows, pointState_cols]
      unfold InGrid
      omega
    obtain ⟨hg, -⟩ := hc 0 5 0 hin (readCell_const _ _ _ hin)
    refine ⟨s', e, ?_⟩
    rw [hg]
    show some (borderOver cell144 10 [pointBox] 0 5 _) = _
    simp [borderOver, pointBox_border]

/-- C6 (amended): one box, pointer absent, all timestamps `0`, at most `2 ^ 32` rows and
columns (more no JavaScript array holds) and a cell size of at least `2 ^ (-1022)` (the
smallest normal double): after the frame every cell of the grid holds the glyph of the
single-box picture for the cell rectangle `[startCol, endCol] x [startRow, endRow]` whose
four bounds are the quotients of `drawBoxBorder` as computed in double arithmetic. -/
theorem single_box_picture (s : State) (hwf : s.WellFormed) (box : Box) (now : Int)
    (hbox : s.boxesList = [box])
    (hptr : s.mouseX = -1 ∧ s.mouseY = -1)
    (hts : ∀ i j : Int, InGrid s.rows s.cols i j → readCell s.gridTimestamps i j = some 0)
    (hsize : s.rows ≤ 2 ^ 32 ∧ s.cols ≤ 2 ^ 32)
    (hcell : 1 / 2 ^ 1022 ≤ s.charWidth ∧ 1 / 2 ^ 1022 ≤ s.charHeight) :
    ∃ s', updateGrid s now = some s' ∧
      ∀ i j : Int, InGrid s.rows s.cols i j →
        readCell s'.grid i j
          = some (pictureGlyph ⌊jsDiv (jsSub box.x 0) s.charWidth⌋
              ⌊jsDiv (jsAdd (jsAdd box.x box.width) 0) s.charWidth⌋
              ⌊jsDiv (jsSub box.y 0) s.charHeight⌋
              ⌊jsDiv (jsAdd (jsAdd box.y box.height) 0) s.charHeight⌋ i j) := by
  obtain ⟨s', e, -, -, c⟩ := updateGrid_spec s now hwf
  refine ⟨s', e, ?_⟩
  intro i j hij
  obtain ⟨hg, -⟩ := c i j 0 hij (hts i j hij)
  rw [hg]
  congr 1
  obtain ⟨hi0, hi1, hj0, hj1⟩ := hij
  have hi2 : i ≤ 2 ^ 32 := by
    have : (s.rows : Int) ≤ 2 ^ 32 := by exact_mod_cast hsize.1
    omega
  have hj2 : j ≤ 2 ^ 32 := by
    have : (s.cols : Int) ≤ 2 ^ 32 := by exact_mod_cast hsize.2
    omega
  have hnp : ¬ pointerCell s.charWidth s.charHeight s.mouseX s.mouseY i j := by
    rintro ⟨h, -⟩
    rw [hptr.1] at h
    norm_num at h
  have htrail : trailGlyph s now i j 0
      = if centreInside s.charWidth s.charHeight [box] i j then "  " else ". " := by
    unfold trailGlyph
    rw [hbox, if_neg hnp]
    simp
  rw [border_left_edge box.x, border_left_edge box.y,
    border_right_edge (jsAdd box.x box.width), border_right_edge (jsAdd box.y box.height)]
  have hin : ⌊jsDiv (fl64 box.x) s.charWidth⌋ < j →
      j < ⌊jsDiv (fl64 (jsAdd box.x box.width)) s.charWidth⌋ →
      ⌊jsDiv (fl64 box.y) s.charHeight⌋ < i →
      i < ⌊jsDiv (fl64 (jsAdd box.y box.height)) s.charHeight⌋ →
      centreInside s.charWidth s.charHeight [box] i j = true := by
    intro h1 h2 h3 h4
    rw [centreInside_single]
    have a1 := edge_lt_centre _ _ _ hcell.1 hj0 hj2 h1
    have a2 := centre_lt_edge _ _ _ hcell.1 hj0 hj2 h2
    have a3 : box.y < pixelY s.charHeight i := edge_lt_centre _ _ _ hcell.2 hi0 hi2 h3
    have a4 : pixelY s.charHeight i < jsAdd box.y box.height :=
      centre_lt_edge _ _ _ hcell.2 hi0 hi2 h4
    exact ⟨⟨a1.le, a2.le⟩, a3.le, a4.le⟩
  have hout : (j < ⌊jsDiv (fl64 box.x) s.charWidth⌋ ∨
      ⌊jsDiv (fl64 (jsAdd box.x box.width)) s.charWidth⌋ < j ∨
      i < ⌊jsDiv (fl64 box.y) s.charHeight⌋ ∨
      ⌊jsDiv (fl64 (jsAdd box.y box.height)) s.charHeight⌋ < i) →
      centreInside s.charWidth s.charHeight [box] i j = false := by
    intro h
    rw [← Bool.not_eq_true, centreInside_single]
    rintro ⟨⟨b1, b2⟩, b3, b4⟩
    rcases h with h | h | h | h
    · have := centre_lt_edge _ _ _ hcell.1 hj0 hj2 h; linarith
    · have := edge_lt_centre _ _ _ hcell.1 hj0 hj2 h; linarith
    · have : pixelY s.charHeight i < box.y := centre_lt_edge _ _ _ hcell.2 hi0 hi2 h
      linarith
    · have : jsAdd box.y box.height < pixelY s.charHeight i :=
        edge_lt_centre _ _ _ hcell.2 hi0 hi2 h
      linarith
  unfold cellGlyph borderOver
  rw [hbox, List.foldl_cons, List.foldl_nil, htrail]
  unfold Box.border borderGlyph pictureGlyph
  rw [border_left_edge box.x, border_left_edge box.y,
    border_right_edge (jsAdd box.x box.width), border_right_edge (jsAdd box.y box.height)]
  generalize ⌊jsDiv (fl64 box.x) s.charWidth⌋ = sc at *
  generalize ⌊jsDiv (fl64 (jsAdd box.x box.width)) s.charWidth⌋ = ec at *
  generalize ⌊jsDiv (fl64 box.y) s.charHeight⌋ = sr at *
  generalize ⌊jsDiv (fl64 (jsAdd box.y box.height)) s.charHeight⌋ = er at *
  by_cases k1 : (i = sr ∨ i = er) ∧ (j = sc ∨ j = ec)
  · rw [if_pos k1, if_pos k1]; rfl
  · rw [if_neg k1, if_neg k1]
    by_cases k2 : (i = sr ∨ i = er) ∧ sc ≤ j ∧ j ≤ ec
    · have k3 : ¬ ((j = sc ∨ j = ec) ∧ sr ≤ i ∧ i ≤ er) := by
        rintro ⟨x, -⟩; exact k1 ⟨k2.1, x⟩
      rw [if_neg k3, if_pos k2, if_pos k2]; rfl
    · rw [if_neg k2, if_neg k2]
      by_cases k3 : (j = sc ∨ j = ec) ∧ sr ≤ i ∧ i ≤ er
      · rw [if_pos k3, if_pos k3]; rfl
      · rw [if_neg k3, if_neg k3]
        by_cases k4 : sr < i ∧ i < er ∧ sc < j ∧ j < ec
        · rw [if_pos k4, hin k4.2.2.1 k4.2.2.2 k4.1 k4.2.1]; rfl
        · rw [if_neg k4, hout (by omega)]; rfl

theorem pictureState_wellFormed : pictureState.WellFormed :=
  initGrid_wellFormed initialState 1200 240 10 10 (by norm_num) (by norm_num)

theorem pictureState_rows : pictureState.rows = 24 := by
  have h : ⌈jsDiv 240 10⌉ = 24 := by
    rw [jsDiv_int 240 10 24 (by norm_num) (by norm_num)]
    norm_num
  show ⌈jsDiv 240 10⌉.toNat = 24
  rw [h]; rfl

theorem pictureState_cols : pictureState.cols = 120 := by
  have h : ⌈jsDiv 1200 10⌉ = 120 := by
    rw [jsDiv_int 1200 10 120 (by norm_num) (by norm_num)]
    norm_num
  show ⌈jsDiv 1200 10⌉.toNat = 120
  rw [h]; rfl

theorem pictureBox_floors :
    ⌊jsDiv (jsSub 20 0) 10⌋ = 2 ∧ ⌊jsDiv (jsAdd (jsAdd 20 30) 0) 10⌋ = 5 := by
  have e1 : jsSub 20 0 = 20 := by simpa using jsSub_int 20 0 20 (by norm_num) (by norm_num)
  have e2 : jsAdd 20 30 = 50 := by simpa using jsAdd_int 20 30 50 (by norm_num) (by norm_num)
  have e3 : jsAdd 50 0 = 50 := by simpa using jsAdd_int 50 0 50 (by norm_num) (by norm_num)
  have e4 : jsDiv 20 10 = 2 := by simpa using jsDiv_int 20 10 2 (by norm_num) (by norm_num)
  have e5 : jsDiv 50 10 = 5 := by simpa using jsDiv_int 50 10 5 (by norm_num) (by norm_num)
  rw [e1, e2, e3, e4, e5]
  norm_num

/-- C6 (amended), the scenario of the specification: a grid of `120 x 24` cells and one box
spanning the cells `(2, 2)` to `(5, 5)`. -/
theorem single_box_picture_witness :
    pictureState.WellFormed ∧ pictureState.cols = 120 ∧ pictureState.rows = 24 ∧
    ∃ s', updateGrid pictureState 0 = some s' ∧
      readCell s'.grid 2 2 = some "+ " ∧ readCell s'.grid 2 5 = some "+ " ∧
      readCell s'.grid 5 2 = some "+ " ∧ readCell s'.grid 5 5 = some "+ " ∧
      readCell s'.grid 2 3 = some "- " ∧ readCell s'.grid 5 4 = some "- " ∧
      readCell s'.grid 3 2 = some "| " ∧ readCell s'.grid 4 5 = some "| " ∧
      readCell s'.grid 3 3 = some "  " ∧ readCell s'.grid 4 4 = some "  " ∧
      readCell s'.grid 0 0 = some ". " ∧ readCell s'.grid 6 6 = some ". " ∧
      readCell s'.grid 23 119 = some ". " := by
  have hin : ∀ i j : Int, 0 ≤ i ∧ i < 24 → 0 ≤ j ∧ j < 120 →
      InGrid pictureState.rows pictureState.cols i j := by
    intro i j hi hj
    rw [pictureState_rows, pictureState_cols]
    unfold InGrid
    omega
  obtain ⟨s', e, h⟩ := single_box_picture pictureState pictureState_wellFormed pictureBox 0 rfl
    ⟨rfl, rfl⟩ (fun i j hij => readCell_const _ _ _ hij)
    ⟨by rw [pictureState_rows]; norm_num, by rw [pictureState_cols]; norm_num⟩
    ⟨by show (1 : ℚ) / 2 ^ 1022 ≤ 10; norm_num, by show (1 : ℚ) / 2 ^ 1022 ≤ 10; norm_num⟩
  have f1 : ⌊jsDiv (jsSub pictureBox.x 0) pictureState.charWidth⌋ = 2 := pictureBox_floors.1
  have f2 : ⌊jsDiv (jsAdd (jsAdd pictureBox.x pictureBox.width) 0) pictureState.charWidth⌋ = 5 :=
    pictureBox_floors.2
  have f3 : ⌊jsDiv (jsSub pictureBox.y 0) pictureState.charHeight⌋ = 2 := pictureBox_floors.1
  have f4 : ⌊jsDiv (jsAdd (jsAdd pictureBox.y pictureBox.height) 0) pictureState.charHeight⌋ = 5 :=
    pictureBox_floors.2
  rw [f1, f2, f3, f4] at h
  refine ⟨pictureState_wellFormed, pictureState_cols, pictureState_rows, s', e,
    ?_, ?_, ?_, ?_, ?_, ?_, ?_, ?_, ?_, ?_, ?_, ?_, ?_⟩
  · rw [h 2 2 (hin _ _ (by omega) (by omega))]; decide
  · rw [h 2 5 (hin _ _ (by omega) (by omega))]; decide
  · rw [h 5 2 (hin _ _ (by omega) (by omega))]; decide
  · rw [h 5 5 (hin _ _ (by omega) (by omega))]; decide
  · rw [h 2 3 (hin _ _ (by omega) (by omega))]; decide
  · rw [h 5 4 (hin _ _ (by omega) (by omega))]; decide
  · rw [h 3 2 (hin _ _ (by omega) (by omega))]; decide
  · rw [h 4 5 (hin _ _ (by omega) (by omega))]; decide
  · rw [h 3 3 (hin _ _ (by omega) (by omega))]; decide
  · rw [h 4 4 (hin _ _ (by omega) (by omega))]; decide
  · rw [h 0 0 (hin _ _ (by omega) (by omega))]; decide
  · rw [h 6 6 (hin _ _ (by omega) (by omega))]; decide
  · rw [h 23 119 (hin _ _ (by omega) (by omega))]; decide

/-! ## Renderer -/

theorem join_foldl_data (l : List String) :
    ∀ acc : String, (l.foldl (fun r s => r ++ s) acc).data = acc.data ++ (l.map String.data).flatten := by
  induction l with
  | nil => intro acc; simp
  | cons a rest ih =>
    intro acc
    rw [List.foldl_cons, ih, String.data_append]
    simp

theorem join_data (l : List String) : (String.join l).data = (l.map String.data).flatten := by
  unfold String.join
  rw [join_foldl_data]
  rfl

theorem join_snoc (l : List String) (a : String) : String.join (l ++ [a]) = String.join l ++ a := by
  unfold String.join
  rw [List.foldl_append]
  rfl

theorem isGlyph_length {g : String} (h : IsGlyph g) : g.length = 2 := by
  rcases h with rfl | rfl | rfl | rfl | rfl | rfl <;> rfl

theorem isGlyph_no_newline {g : String} (h : IsGlyph g) : '\n' ∉ g.data := by
  rcases h with rfl | rfl | rfl | rfl | rfl | rfl <;> decide

/-- A row of glyphs is a line of twice as many characters, none a line break. -/
theorem line_of_glyphs (row : List String) (h : ∀ cell ∈ row, IsGlyph cell) :
    (String.join row).length = 2 * row.length ∧ '\n' ∉ (String.join row).data := by
  induction row with
  | nil => exact ⟨rfl, by simp [String.join]⟩
  | cons a rest ih =>
    obtain ⟨h1, h2⟩ := ih (fun c hc => h c (List.mem_cons_of_mem _ hc))
    have ha := h a (List.mem_cons_self _ _)
    have e1 : (String.join rest).data.length = 2 * rest.length := h1
    have e2 : a.data.length = 2 := isGlyph_length ha
    constructor
    · show (String.join (a :: rest)).data.length = _
      rw [join_data] at e1 ⊢
      simp only [List.map_cons, List.flatten_cons, List.length_append, List.length_cons]
      omega
    · rw [join_data] at h2 ⊢
      simp only [List.map_cons, List.flatten_cons, List.mem_append, not_or]
      exact ⟨isGlyph_no_newline ha, h2⟩

/-- Lines without line breaks, each followed by one: as many line breaks as lines. -/
theorem count_line_breaks (lines : List String) (h : ∀ l ∈ lines, '\n' ∉ l.data) :
    (String.join (lines.map (fun l => l ++ "\n"))).data.count '\n' = lines.length := by
  induction lines with
  | nil => rfl
  | cons a rest ih =>
    have h1 := ih (fun l hl => h l (List.mem_cons_of_mem _ hl))
    have ha := h a (List.mem_cons_self _ _)
    rw [join_data] at h1 ⊢
    simp only [List.map_cons, List.flatten_cons, List.count_append, String.data_append,
      List.length_cons]
    rw [h1, List.count_eq_zero_of_not_mem ha]
    have : ("\n" : String).data.count '\n' = 1 := by decide
    rw [this]
    omega

theorem take_succ_getElem {α : Type} (l : List α) (n : Nat) (h : n < l.length) :
    l.take (n + 1) = l.take n ++ [l[n]] := by
  rw [List.take_succ, List.getElem?_eq_getElem h]
  rfl

theorem readCell_getElem {α : Type} (g : List (List α)) (y x : Nat) (hy : y < g.length)
    (hx : x < (g[y]).length) : readCell g (y : Int) (x : Int) = some ((g[y])[x]) := by
  unfold readCell
  rw [if_pos ⟨by omega, by omega⟩]
  simp [List.getElem?_eq_getElem hy, List.getElem?_eq_getElem hx]

/-- The inner loop of `render` appends the cells of row `y`, left to right. -/
theorem render_row (g : List (List String)) (cols : Nat) (y : Nat) (hy : y < g.length)
    (hrow : (g[y]).length = cols) (out : String) :
    (List.range cols).foldlM (fun output (x : Nat) =>
      (readCell g y x).bind fun cell => some (output ++ cell)) out
      = some (out ++ String.join (g[y])) := by
  obtain ⟨o, e, p⟩ := foldlM_range_inv
    (fun output (x : Nat) => (readCell g y x).bind fun cell => some (output ++ cell))
    (fun n o => o = out ++ String.join ((g[y]).take n)) cols out
    (by simp [String.join])
    (by
      intro k o hk ho
      have hk' : k < (g[y]).length := by rw [hrow]; exact hk
      refine ⟨o ++ (g[y])[k], ?_, ?_⟩
      · beta_reduce
        rw [readCell_getElem g y k hy hk']
        rfl
      · beta_reduce
        rw [ho, take_succ_getElem _ _ hk', join_snoc, String.append_assoc])
  rw [e, p, List.take_of_length_le (le_of_eq hrow)]

/-- The function `render` on a grid of the announced shape: the rows in order, each the
concatenation of its cells from left to right, each followed by one line break. -/
theorem render_spec (s : State) (hs : Shape s.grid s.rows s.cols) :
    render s = some (String.join (s.grid.map (fun row => String.join row ++ "\n"))) := by
  unfold render
  obtain ⟨o, e, p⟩ := foldlM_range_inv
    (fun output (y : Nat) =>
      ((List.range s.cols).foldlM (fun output (x : Nat) =>
        (readCell s.grid y x).bind fun cell => some (output ++ cell)) output).bind fun line =>
      some (line ++ "\n"))
    (fun n o => o = String.join ((s.grid.take n).map (fun row => String.join row ++ "\n")))
    s.rows ""
    (by simp [String.join])
    (by
      intro y o hy ho
      have hy' : y < s.grid.length := by rw [hs.1]; exact hy
      have hrow : (s.grid[y]).length = s.cols := hs.2 _ (List.getElem_mem _)
      refine ⟨o ++ String.join (s.grid[y]) ++ "\n", ?_, ?_⟩
      · beta_reduce
        rw [render_row s.grid s.cols y hy' hrow o]
        rfl
      · beta_reduce
        rw [ho, take_succ_getElem _ _ hy', List.map_append, List.map_cons, List.map_nil,
          join_snoc, String.append_assoc])
  rw [e, p, List.take_of_length_le (le_of_eq hs.1)]

/-! ## Render shape on every reachable grid -/

theorem glyphGrid_of_cells {g : List (List String)} {rows cols : Nat} (hs : Shape g rows cols)
    (h : ∀ i j : Int, InGrid rows cols i j → ∃ v, readCell g i j = some v ∧ IsGlyph v) :
    GlyphGrid g := by
  intro row hrow cell hcell
  obtain ⟨n, hn, rfl⟩ := List.mem_iff_getElem.1 hrow
  obtain ⟨m, hm, rfl⟩ := List.mem_iff_getElem.1 hcell
  have hlen : (g[n]).length = cols := hs.2 _ (List.getElem_mem _)
  obtain ⟨v, hv, hg⟩ := h n m (inGrid_ofNat (by rw [← hs.1]; exact hn) (by rw [← hlen]; exact hm))
  rw [readCell_getElem g n m hn hm] at hv
  rw [Option.some.inj hv]
  exact hg

theorem borderOver_isGlyph (charWidth charHeight : ℚ) (boxesList : List Box) (i j : Int) :
    ∀ cur : String, IsGlyph cur → IsGlyph (borderOver charWidth charHeight boxesList i j cur) := by
  induction boxesList with
  | nil => intro cur h; exact h
  | cons box rest ih =>
    intro cur h
    unfold borderOver
    rw [List.foldl_cons]
    apply ih
    cases hb : box.border charWidth charHeight i j with
    | none => simpa using h
    | some v =>
      rcases borderGlyph_cases hb with rfl | rfl | rfl
      · exact Or.inr (Or.inr (Or.inr (Or.inl rfl)))
      · exact Or.inr (Or.inr (Or.inr (Or.inr (Or.inl rfl))))
      · exact Or.inr (Or.inr (Or.inr (Or.inr (Or.inr rfl))))

theorem isGlyph_cellGlyph (s : State) (now : Int) (i j : Int) (ts : Int) :
    IsGlyph (cellGlyph s now i j ts) := by
  unfold cellGlyph
  apply borderOver_isGlyph
  unfold trailGlyph
  split_ifs
  · exact Or.inr (Or.inl rfl)
  · exact Or.inr (Or.inr (Or.inl rfl))
  · exact Or.inr (Or.inr (Or.inl rfl))
  · exact Or.inl rfl

theorem initGrid_glyphGrid (s : State) (innerWidth innerHeight charWidth charHeight : ℚ) :
    GlyphGrid (initGrid s innerWidth innerHeight charWidth charHeight).grid := by
  intro row hrow cell hcell
  have hrow' : row ∈ (List.range ⌈jsDiv innerHeight charHeight⌉.toNat).map
      (fun _ => (List.range ⌈jsDiv innerWidth charWidth⌉.toNat).map (fun _ => ". ")) := hrow
  rw [List.mem_map] at hrow'
  obtain ⟨_, _, rfl⟩ := hrow'
  rw [List.mem_map] at hcell
  obtain ⟨_, _, rfl⟩ := hcell
  exact Or.inl rfl

/-- Frames keep the state well-formed, the grid size fixed and every cell a glyph. -/
theorem runFrames_glyphGrid (frames : List Frame) :
    ∀ s : State, s.WellFormed → GlyphGrid s.grid →
      ∃ s', runFrames s frames = some s' ∧ s'.WellFormed ∧
        s'.rows = s.rows ∧ s'.cols = s.cols ∧ GlyphGrid s'.grid := by
  induction frames with
  | nil => intro s hwf hg; exact ⟨s, rfl, hwf, rfl, rfl, hg⟩
  | cons f rest ih =>
    intro s hwf _
    obtain ⟨s1, e1, w1, -, -, c1, d1, cell⟩ := runFrame_spec s f hwf
    have hg1 : GlyphGrid s1.grid := by
      apply glyphGrid_of_cells w1.2.2.1
      intro i j hij
      rw [c1, d1] at hij
      obtain ⟨ts, hts⟩ := readCell_inGrid hwf.2.2.2 hij
      exact ⟨_, (cell i j ts hij hts).1, isGlyph_cellGlyph _ _ _ _ _⟩
    obtain ⟨s2, e2, w2, c2, d2, hg2⟩ := ih s1 w1 hg1
    refine ⟨s2, ?_, w2, c2.trans c1, d2.trans d1, hg2⟩
    rw [runFrames_cons, e1]
    exact e2

/-- C5: from a rebuild (of any earlier state) with a positive cell size, after any number of frames with
arbitrary boxes, pointers and times, the frames have all succeeded, the grid still has
`rows` rows of `cols` cells, every cell is a two-character glyph, and `render` returns the
rows in order, each row the concatenation of its cells from left to right followed by
one line break: exactly `rows` line breaks, every line `2 * cols` characters long. -/
theorem render_shape (s : State) (innerWidth innerHeight charWidth charHeight : ℚ)
    (hw : 0 < charWidth) (hh : 0 < charHeight) (frames : List Frame) :
    ∃ s', runFrames (initGrid s innerWidth innerHeight charWidth charHeight) frames = some s' ∧
      s'.rows = ⌈jsDiv innerHeight charHeight⌉.toNat ∧
      s'.cols = ⌈jsDiv innerWidth charWidth⌉.toNat ∧
      Shape s'.grid s'.rows s'.cols ∧
      (∀ row ∈ s'.grid, ∀ cell ∈ row, IsGlyph cell ∧ cell.length = 2) ∧
      ∃ output, render s' = some output ∧
        output = String.join (s'.grid.map (fun row => String.join row ++ "\n")) ∧
        output.data.count '\n' = s'.rows ∧
        ∀ row ∈ s'.grid,
          (String.join row).length = 2 * s'.cols ∧ '\n' ∉ (String.join row).data := by
  obtain ⟨s', e, w, hr, hc, hg⟩ := runFrames_glyphGrid frames
    (initGrid s innerWidth innerHeight charWidth charHeight)
    (initGrid_wellFormed s innerWidth innerHeight charWidth charHeight hw hh)
    (initGrid_glyphGrid s innerWidth innerHeight charWidth charHeight)
  have hline : ∀ row ∈ s'.grid,
      (String.join row).length = 2 * s'.cols ∧ '\n' ∉ (String.join row).data := by
    intro row hrow
    obtain ⟨h1, h2⟩ := line_of_glyphs row (hg row hrow)
    rw [w.2.2.1.2 row hrow] at h1
    exact ⟨h1, h2⟩
  refine ⟨s', e, hr, hc, w.2.2.1, ?_, _, render_spec s' w.2.2.1, rfl, ?_, hline⟩
  · intro row hrow cell hcell
    exact ⟨hg row hrow cell hcell, isGlyph_length (hg row hrow cell hcell)⟩
  · have hmap : s'.grid.map (fun row => String.join row ++ "\n")
        = (s'.grid.map String.join).map (fun l => l ++ "\n") := by
      rw [List.map_map]; rfl
    rw [hmap, count_line_breaks, List.length_map, w.2.2.1.1]
    intro l hl
    rw [List.mem_map] at hl
    obtain ⟨row, hrow, rfl⟩ := hl
    exact (hline row hrow).2

/-- C5, instance: a `30 x 20`-pixel viewport with `10 x 10`-pixel cells, one frame with a
box wholly outside the grid and one with a box straddling its corner. -/
theorem render_shape_witness :
    (0 : ℚ) < 10 ∧
    ∃ s', runFrames (initGrid initialState 30 20 10 10) [farFrame, cornerFrame] = some s' ∧
      s'.rows = 2 ∧ s'.cols = 3 ∧ Shape s'.grid 2 3 ∧
      ∃ output, render s' = some output ∧ output.data.count '\n' = 2 ∧
        ∀ row ∈ s'.grid, (String.join row).length = 6 := by
  obtain ⟨s', e, hr, hc, hs, -, output, ho, -, hn, hl⟩ :=
    render_shape initialState 30 20 10 10 (by norm_num) (by norm_num) [farFrame, cornerFrame]
  have h2 : ⌈jsDiv 20 10⌉ = 2 := by
    rw [jsDiv_int 20 10 2 (by norm_num) (by norm_num), Int.ceil_intCast]
  have h3 : ⌈jsDiv 30 10⌉ = 3 := by
    rw [jsDiv_int 30 10 3 (by norm_num) (by norm_num), Int.ceil_intCast]
  rw [h2] at hr
  rw [h3] at hc
  have hr' : s'.rows = 2 := hr
  have hc' : s'.cols = 3 := hc
  rw [hr', hc'] at hs
  refine ⟨by norm_num, s', e, hr', hc', hs, output, ho, by rw [hn, hr'], ?_⟩
  intro row hrow
  rw [(hl row hrow).1, hc']

end AsciiCanvas
